import Mathlib

/-!
# Verification of the MotherDuck query-optimizer rule engine

Shallow embedding of the analyzer core of the `query-optimizer` repository
(`src/analyzer/rules.ts` and `src/analyzer/index.ts`) into Lean 4, together
with theorems settling the specification claims.

Strings are modelled as `List Char` (the JS string the analyzer receives).
JavaScript regular-expression searches used by the rules are embedded as
hand-written total scanner functions; each scanner carries a comment citing
the regex it implements, and mirrors the leftmost-match / greedy / lazy
behaviour of the JS engine on the shapes of pattern actually used.
The external SQL parser (`node-sql-parser`) is modelled as an oracle
parameter `parse : Str → Except JsThrown AstVal`.
-/

set_option maxHeartbeats 1000000

namespace QueryOpt

/-- JS strings, modelled as lists of characters. -/
abbrev Str := List Char

/-- Character class of the JS regex `\w` / word characters (`[A-Za-z0-9_]`). -/
def wordChar (c : Char) : Bool :=
  (('a' ≤ c && c ≤ 'z') || ('A' ≤ c && c ≤ 'Z') || ('0' ≤ c && c ≤ '9') || c = '_')

/-- Character class of the JS regex `\s` (whitespace); also the set trimmed by
`String.prototype.trim`.  ASCII whitespace plus NBSP, which covers every input
the analyzer can meaningfully receive. -/
def wsChar (c : Char) : Bool :=
  c = ' ' || c = '\t' || c = '\n' || c = '\r' ||
  c = '\x0b' || c = '\x0c' || c = ' '

/-- ASCII digit (JS `\d`). -/
def digitChar (c : Char) : Bool := '0' ≤ c && c ≤ '9'

/-- Per-character ASCII case fold: the canonicalization the JS `i` regex flag
(without `u`) performs when the scanners compare characters.  This fold is
length-preserving; full `toLowerCase` is not — see `jsLowerChar`. -/
def lc (c : Char) : Char :=
  if 'A' ≤ c && c ≤ 'Z' then Char.ofNat (c.toNat + 32) else c

/-- Character-wise fold of a string (scanner comparisons). -/
def lower (s : Str) : Str := s.map lc

/-- `String.prototype.toLowerCase`, per character.  The default Unicode
lowercase mapping is not length-preserving: it sends U+0130 (`İ`) to the two
characters `i` + U+0307 (combining dot above).  Every other character
appearing in this development's inputs (ASCII) maps to the single character
`lc c`. -/
def jsLowerChar (c : Char) : Str := if c = 'İ' then ['i', '\u0307'] else [lc c]

/-- `s.toLowerCase()`. -/
def jsLower (s : Str) : Str := s.flatMap jsLowerChar

/-- Case-insensitive character comparison (the JS `i` flag). -/
def eqCI (a b : Char) : Bool := lc a = lc b

/-- Case-insensitive prefix test: does `pat` start `s`? -/
def isPrefixCI : Str → Str → Bool
  | [], _ => true
  | _ :: _, [] => false
  | p :: ps, c :: cs => eqCI p c && isPrefixCI ps cs

/-- `sql.trim()` of JavaScript. -/
def jsTrim (s : Str) : Str :=
  ((s.dropWhile wsChar).reverse.dropWhile wsChar).reverse

/-- First index at which `needle` occurs in `hay` (`String.prototype.indexOf`).
`indexOf` of the empty needle is `0`, as in JS. -/
def idxOf (hay needle : Str) : Option Nat :=
  match hay with
  | [] => if needle = [] then some 0 else none
  | _ :: rest =>
    if needle.isPrefixOf hay then some 0
    else (idxOf rest needle).map (· + 1)

/-- A `{start, end}` character range. -/
structure Offset where
  start : Nat
  «end» : Nat
  deriving DecidableEq, Repr

/-- `locate(sql, needle)` of `rules.ts`:
`idx = sql.toLowerCase().indexOf(needle.toLowerCase())`, then
`{start: idx, end: idx + needle.length}`.  `idx` is a position in the
lowercased text but is applied to the original text, and `end` adds the
original needle's length, so a length-changing lowercase (U+0130, see
`jsLowerChar`) shifts the range. -/
def locate (sql needle : Str) : Option Offset :=
  match idxOf (jsLower sql) (jsLower needle) with
  | none => none
  | some idx => some ⟨idx, idx + needle.length⟩

/-- Severity levels of `types.ts`. -/
inductive Severity where
  | error | warning | info
  deriving DecidableEq, Repr

/-- Finding categories of `types.ts`. -/
inductive Category where
  | performance | memory | network | schema | bestPractice
  deriving DecidableEq, Repr

/-- The `Finding` record of `types.ts`. -/
structure Finding where
  ruleId : String
  severity : Severity
  title : String
  message : String
  suggestion : String
  category : Category
  fragment : Option Str := none
  offset : Option Offset := none
  deriving DecidableEq, Repr

/-- The `finding(...)` helper of `rules.ts` (plain constructor, no offset). -/
def finding (ruleId : String) (severity : Severity) (title message suggestion : String)
    (category : Category) (fragment : Option Str := none) : Finding :=
  { ruleId := ruleId, severity := severity, title := title, message := message,
    suggestion := suggestion, category := category, fragment := fragment }

/-- Attach the result of `locate` as the finding's offset, mirroring the
`const loc = locate(sql, x); if (loc) findings[findings.length-1].offset = loc;`
idiom that follows each `findings.push` in `rules.ts`. -/
def withLoc (sql : Str) (needle : Str) (f : Finding) : Finding :=
  match locate sql needle with
  | some loc => { f with offset := some loc }
  | none => f

/-- The final dedup filter of `runRules`: keep only the first finding per
`ruleId` (the JS `seen : Set<string>` filter). -/
def dedupByRuleId (l : List Finding) : List Finding :=
  go [] l
where
  go (seen : List String) : List Finding → List Finding
    | [] => []
    | f :: rest =>
      if f.ruleId ∈ seen then go seen rest
      else f :: go (f.ruleId :: seen) rest

end QueryOpt

namespace QueryOpt

/-!
## The parsed-query tree (`ParsedQuery`)

`rules.ts` consumes the `any`-typed `node-sql-parser` tree through a small set
of field accesses; the mutual inductives below model exactly the shape
consumed.  `Option` models absent/falsy fields.  A `FromItem.exprAst` of
`some a` models `fromItem.expr && fromItem.expr.ast` (resp. `f.expr?.ast`)
both being present; the code never distinguishes "no `expr`" from "`expr`
without `ast`", so the two collapse.  `orderby`/`limit`/`on` are consumed
only for truthiness and are modelled as `Bool`.
-/

/-- A column item: `col.expr` with its `.type` tag (or no `expr`). -/
structure Col where
  exprType : Option String
  deriving DecidableEq, Repr

/-- `ast.columns`: the string `'*'`, an array of column items, or anything
else. -/
inductive Columns where
  | star
  | arr (cols : List Col)
  | other
  deriving DecidableEq, Repr

mutual
/-- A parser AST node: a `select` node or any other node type. -/
inductive Ast where
  | select (q : SelectQ)
  | other

/-- The fields of a `select` node that the rules consume. -/
inductive SelectQ where
  | mk (columns : Columns) (fromF : Option FromVal) (whereE : Option Expr)
      (orderby : Bool) (limit : Bool)

/-- `ast.from`: a single from-item or an array (`Array.isArray(ast.from)`). -/
inductive FromVal where
  | single (f : FromItem)
  | list (fs : List FromItem)

/-- A `FROM` item as consumed: optional subquery (`expr.ast`), optional join
kind string, truthiness of `on`, optional `table` / `as` names. -/
inductive FromItem where
  | mk (exprAst : Option Ast) (join : Option String) (onCond : Bool)
      (table : Option String) (asName : Option String)

/-- An expression node as consumed by `checkExprForSubqueries`: optional
subquery (`expr.ast`), optional `left`/`right`, optional `args.expr`. -/
inductive Expr where
  | mk (astQ : Option Ast) (left : Option Expr) (right : Option Expr)
      (args : Option ArgsVal)

/-- `expr.args.expr`: a single expression or an array of them. -/
inductive ArgsVal where
  | single (e : Expr)
  | list (es : List Expr)
end

def SelectQ.columns : SelectQ → Columns | .mk c _ _ _ _ => c
def SelectQ.fromF : SelectQ → Option FromVal | .mk _ f _ _ _ => f
def SelectQ.whereE : SelectQ → Option Expr | .mk _ _ w _ _ => w
def SelectQ.orderby : SelectQ → Bool | .mk _ _ _ o _ => o
def SelectQ.limit : SelectQ → Bool | .mk _ _ _ _ l => l

def FromItem.exprAst : FromItem → Option Ast | .mk e _ _ _ _ => e
def FromItem.join : FromItem → Option String | .mk _ j _ _ _ => j
def FromItem.onCond : FromItem → Bool | .mk _ _ o _ _ => o
def FromItem.table : FromItem → Option String | .mk _ _ _ t _ => t
def FromItem.asName : FromItem → Option String | .mk _ _ _ _ a => a

def Expr.astQ : Expr → Option Ast | .mk a _ _ _ => a

/-- `Array.isArray(ast.from) ? ast.from : [ast.from]`. -/
def FromVal.toList : FromVal → List FromItem
  | .single f => [f]
  | .list fs => fs

/-- JS truthiness of an optional string field (`undefined` and `''` are
falsy). -/
def strTruthy : Option String → Bool
  | none => false
  | some s => s ≠ ""

/-!
## Structural (AST-based) rules
-/

mutual
/-- `checkSelectStar` (`rules.ts`): flags a wildcard projection, an individual
`star` column item, and recurses into `FROM` subqueries. -/
def checkSelectStar : Ast → Str → List Finding
  | .other, _ => []
  | .select (.mk columns fromF _ _ _), sql =>
    (match columns with
     | .star =>
       [withLoc sql "select *".toList
         (finding "select-star" .warning "SELECT * detected"
           "SELECT * reads every column from the table. In columnar engines like DuckDB, this defeats column pruning and transfers unnecessary data — especially costly when reading remote Parquet files."
           "List only the columns you need: SELECT col1, col2 FROM ... You can also use SELECT * EXCLUDE (col) to drop specific columns."
           .performance (some "SELECT *".toList))]
     | .arr cols =>
       cols.foldr (fun c acc =>
         if c.exprType = some "star" then
           finding "select-star" .warning "SELECT * detected"
             "SELECT * reads every column. In columnar engines, only select the columns you need to take advantage of column pruning."
             "List only the columns you need, or use EXCLUDE to drop unneeded columns."
             .performance (some "*".toList) :: acc
         else acc) []
     | .other => [])
    ++ (match fromF with
        | some fv => starFromVal fv sql
        | none => [])

/-- Recursion of `checkSelectStar` over `ast.from` (normalised to a list). -/
def starFromVal : FromVal → Str → List Finding
  | .single f, sql => starFromItem f sql
  | .list fs, sql => starFromList fs sql

def starFromList : List FromItem → Str → List Finding
  | [], _ => []
  | f :: rest, sql => starFromItem f sql ++ starFromList rest sql

/-- `if (fromItem.expr && fromItem.expr.ast) findings.push(...)`. -/
def starFromItem : FromItem → Str → List Finding
  | .mk (some sub) _ _ _ _, sql => checkSelectStar sub sql
  | .mk none _ _ _ _, _ => []
end

/-- `checkOrderByWithoutLimit` (`rules.ts`): flags `orderby` without `limit`
on the given node only. -/
def checkOrderByWithoutLimit (ast : Ast) (sql : Str) : List Finding :=
  match ast with
  | .other => []
  | .select q =>
    if q.orderby && !q.limit then
      [withLoc sql "order by".toList
        (finding "order-without-limit" .warning "ORDER BY without LIMIT"
          "Sorting the entire result set requires materializing all rows in memory before returning. This is a pipeline breaker that can cause out-of-memory errors on large datasets."
          "Add a LIMIT clause if you only need a subset, or remove ORDER BY if ordering is not required. For \"top N\" queries, use LIMIT N."
          .memory (some "ORDER BY".toList))]
    else []

/-- `checkCrossJoin` (`rules.ts`): flags `FROM` items with
`item.join === 'CROSS JOIN'` on the given node only. -/
def checkCrossJoin (ast : Ast) (sql : Str) : List Finding :=
  match ast with
  | .other => []
  | .select q =>
    match q.fromF with
    | none => []
    | some fv =>
      fv.toList.foldr (fun item acc =>
        if item.join = some "CROSS JOIN" then
          withLoc sql "cross join".toList
            (finding "cross-join" .warning "CROSS JOIN detected"
              "A CROSS JOIN produces the Cartesian product of both tables (rows_a × rows_b). This is safe when one side is guaranteed to be a single row (e.g., a scalar CTE), but dangerous on large tables where it can explode memory usage."
              "Verify that at least one side of the CROSS JOIN returns a single row. If joining large tables, replace with an INNER JOIN or LEFT JOIN with a proper ON condition."
              .memory (some "CROSS JOIN".toList)) :: acc
        else acc) []

/-- The `deeply-nested-subquery` finding. -/
def deepFinding : Finding :=
  finding "deeply-nested-subquery" .warning "Deeply nested subquery"
    "Subqueries nested 3+ levels deep are hard to optimize. The query planner may not be able to flatten them, leading to repeated scans."
    "Refactor using CTEs (WITH clauses). DuckDB can auto-materialize identical CTEs, improving readability and potentially performance."
    .performance

mutual
/-- `checkNestedSubqueries` (`rules.ts`): flags recursion depth ≥ 3, walking
`WHERE` expressions and `FROM` subqueries. -/
def checkNestedSubqueries : Ast → Str → Nat → List Finding
  | .other, _, _ => []
  | .select (.mk _ fromF whereE _ _), sql, depth =>
    (if depth ≥ 3 then [deepFinding] else [])
    ++ (match whereE with
        | some w => checkExprForSubqueries w sql depth
        | none => [])
    ++ (match fromF with
        | some fv => nestedFromVal fv sql depth
        | none => [])

def nestedFromVal : FromVal → Str → Nat → List Finding
  | .single f, sql, depth => nestedFromItem f sql depth
  | .list fs, sql, depth => nestedFromList fs sql depth

def nestedFromList : List FromItem → Str → Nat → List Finding
  | [], _, _ => []
  | f :: rest, sql, depth => nestedFromItem f sql depth ++ nestedFromList rest sql depth

/-- `if (f.expr?.ast) findings.push(...checkNestedSubqueries(f.expr.ast, sql, depth + 1))`. -/
def nestedFromItem : FromItem → Str → Nat → List Finding
  | .mk (some sub) _ _ _ _, sql, depth => checkNestedSubqueries sub sql (depth + 1)
  | .mk none _ _ _ _, _, _ => []

/-- `checkExprForSubqueries` (`rules.ts`): subquery at `expr.ast`, then
`left`, `right`, and the elements of `expr.args.expr`. -/
def checkExprForSubqueries : Expr → Str → Nat → List Finding
  | .mk astQ left right args, sql, depth =>
    (match astQ with
     | some a => checkNestedSubqueries a sql (depth + 1)
     | none => [])
    ++ (match left with
        | some e => checkExprForSubqueries e sql depth
        | none => [])
    ++ (match right with
        | some e => checkExprForSubqueries e sql depth
        | none => [])
    ++ (match args with
        | some (.single e) => argAst e sql depth
        | some (.list es) => argAstList es sql depth
        | none => [])

def argAstList : List Expr → Str → Nat → List Finding
  | [], _, _ => []
  | e :: rest, sql, depth => argAst e sql depth ++ argAstList rest sql depth

/-- `if (a.ast) findings.push(...checkNestedSubqueries(a.ast, sql, depth + 1))`. -/
def argAst : Expr → Str → Nat → List Finding
  | .mk (some a) _ _ _, sql, depth => checkNestedSubqueries a sql (depth + 1)
  | .mk none _ _ _, _, _ => []
end

/-- `f.table || f.as || ''` of the implicit-cross-join fragment. -/
def tableOrAs (f : FromItem) : String :=
  match f.table with
  | some t => if t ≠ "" then t else (match f.asName with
      | some a => if a ≠ "" then a else ""
      | none => "")
  | none => match f.asName with
      | some a => if a ≠ "" then a else ""
      | none => ""

/-- `checkJoinWithoutCondition` (`rules.ts`): implicit comma join without
`WHERE`, and explicit non-cross joins lacking `on`. -/
def checkJoinWithoutCondition (ast : Ast) (sql : Str) : List Finding :=
  match ast with
  | .other => []
  | .select q =>
    match q.fromF with
    | none => []
    | some fv =>
      let fromList := fv.toList
      (if fromList.length > 1 &&
          !(fromList.any (fun f => strTruthy f.join)) && q.whereE.isNone then
        [finding "implicit-cross-join" .error
          "Implicit cross join (comma join without WHERE)"
          "Listing tables separated by commas without a WHERE clause creates a Cartesian product. This is equivalent to CROSS JOIN and can be extremely expensive."
          "Use explicit JOIN syntax with ON conditions: FROM a JOIN b ON a.id = b.id"
          .memory
          (some (String.intercalate ", "
            ((fromList.map tableOrAs).filter (· ≠ ""))).toList)]
      else [])
      ++ fromList.foldr (fun item acc =>
          if strTruthy item.join && item.join ≠ some "CROSS JOIN" && !item.onCond then
            withLoc sql (item.join.getD "").toList
              (finding "join-without-on" .warning "JOIN without ON condition"
                "A JOIN without an ON condition may produce a Cartesian product or rely on implicit behavior."
                "Always specify an explicit ON condition for joins."
                .performance (some (item.join.getD "").toList)) :: acc
          else acc) []

end QueryOpt

namespace QueryOpt

/-!
## Embedded regular-expression scanners

Each JS regex used by `regexRules` is embedded as a total scanner.  A pattern
is a function `Pat : Option Char → Str → Option Nat`: given the previous
character (for `\b`) and the remaining input, it returns the length of the
(unique, greedy-resolved) match at this position, if any.  `findAllP` mirrors
the `findAll` helper of `rules.ts` (global `exec` loop: leftmost match, then
continue right after it); `countP` mirrors `countMatches`; `testP` mirrors
`RegExp.prototype.test`.  None of the embedded patterns can match the empty
string at a position where they match at all, matching the JS originals.
-/

/-- A compiled pattern: previous character and remaining input to length of
the match starting here. -/
abbrev Pat := Option Char → Str → Option Nat

/-- `findAll` (`rules.ts`): all matches of a global regex, as fragments.
Structurally recursive on a fuel bound: every step shortens the input by at
least one character, so the initial fuel `s.length + 1` of `findAllP` is
never exhausted. -/
def scanFrags (pat : Pat) : Nat → Option Char → Str → List Str
  | 0, _, _ => []
  | _ + 1, _, [] => []
  | fuel + 1, prev, c :: rest =>
    match pat prev (c :: rest) with
    | some (n + 1) =>
      (c :: rest).take (n + 1) ::
        scanFrags pat fuel (((c :: rest).take (n + 1)).getLast?) ((c :: rest).drop (n + 1))
    | _ => scanFrags pat fuel (some c) rest

def findAllP (pat : Pat) (s : Str) : List Str := scanFrags pat (s.length + 1) none s

/-- `countMatches` (`rules.ts`). -/
def countP (pat : Pat) (s : Str) : Nat := (findAllP pat s).length

/-- `re.test(s)`: does the pattern match anywhere? -/
def testFrom (pat : Pat) (prev : Option Char) (s : Str) : Bool :=
  match s with
  | [] => (pat prev []).isSome
  | c :: rest => (pat prev (c :: rest)).isSome || testFrom pat (some c) rest

def testP (pat : Pat) (s : Str) : Bool := testFrom pat none s

/-- Find the first match of `pat`, returning the state (previous character and
remaining input) just after it — the building block for the `[\s\S]*?`
connectives of the multi-part `test` regexes. -/
def chaseGo (pat : Pat) (prev : Option Char) (s : Str) : Option (Option Char × Str) :=
  match s with
  | [] => if (pat prev []).isSome then some (prev, []) else none
  | c :: rest =>
    match pat prev (c :: rest) with
    | some n =>
      some (if n = 0 then prev else ((c :: rest).take n).getLast?, (c :: rest).drop n)
    | none => chaseGo pat (some c) rest

/-- Chain several patterns with arbitrary gaps (`A[\s\S]*?B[\s\S]*?C...`):
the whole `test` succeeds iff the components occur in order. -/
def chaseAll : List Pat → Option Char → Str → Bool
  | [], _, _ => true
  | p :: ps, prev, s =>
    match chaseGo p prev s with
    | some (prev', s') => chaseAll ps prev' s'
    | none => false

def testChain (ps : List Pat) (s : Str) : Bool := chaseAll ps none s

/-! ### Pattern combinators (`P0` = pattern without boundary context) -/

abbrev P0 := Str → Option Nat

/-- Case-insensitive literal (the `i` flag is on every letterful regex). -/
def lit (l : String) : P0 := fun s =>
  if isPrefixCI l.toList s then some l.toList.length else none

/-- A single character from a class. -/
def chCl (p : Char → Bool) : P0 := fun s =>
  match s with
  | c :: _ => if p c then some 1 else none
  | [] => none

/-- Greedy `X*` over a character class. -/
def runOf (p : Char → Bool) : P0 := fun s => some (s.takeWhile p).length

/-- Greedy `X+` over a character class. -/
def run1Of (p : Char → Bool) : P0 := fun s =>
  let n := (s.takeWhile p).length
  if n = 0 then none else some n

/-- `\s*`. -/
def ws0 : P0 := runOf wsChar
/-- `\s+`. -/
def ws1 : P0 := run1Of wsChar
/-- `\w+`. -/
def word1 : P0 := run1Of wordChar

/-- Sequencing of patterns. -/
def cat : List P0 → P0
  | [] => fun _ => some 0
  | p :: ps => fun s => (p s).bind fun n => ((cat ps) (s.drop n)).map (n + ·)

/-- Ordered alternation (JS prefers the leftmost alternative; where needed the
full continuation is folded into each alternative, giving JS backtracking). -/
def altP : List P0 → P0
  | [] => fun _ => none
  | p :: ps => fun s =>
    match p s with
    | some n => some n
    | none => altP ps s

/-- `X?` (greedy; used only where the follow-set makes this deterministic). -/
def optP (p : P0) : P0 := fun s =>
  match p s with
  | some n => some n
  | none => some 0

/-- Zero-width assertion. -/
def la0 (cond : Str → Bool) : P0 := fun s => if cond s then some 0 else none

/-- Trailing `\b` after a word character: next char absent or non-word. -/
def endWordB : P0 := la0 (fun s =>
  match s with
  | [] => true
  | c :: _ => !wordChar c)

/-- Is a `\b` before a word character satisfied by this previous character? -/
def bOK : Option Char → Bool
  | none => true
  | some c => !wordChar c

/-- Pattern starting with `\b` followed by a word character. -/
def withB (core : P0) : Pat := fun prev s => if bOK prev then core s else none

/-- Pattern without a leading boundary assertion. -/
def noB (core : P0) : Pat := fun _ s => core s

/-- Greedy-backtracking `[^)]*X` inside a parenthesised argument list: the
LAST offset (≤ `limit`) at which `p` matches; returns offset + match length. -/
def lastMatchDesc (p : P0) (s : Str) : Nat → Option Nat
  | 0 => p s
  | k + 1 =>
    match p (s.drop (k + 1)) with
    | some n => some (k + 1 + n)
    | none => lastMatchDesc p s k

/-- Does `p` match at some offset `≤ limit` of `s`? -/
def anyMatchWithin (p : P0) (s : Str) (limit : Nat) : Bool :=
  (lastMatchDesc p s limit).isSome

/-! ### The individual patterns of `regexRules` -/

/-- `/\blist\s*\(/gi` (rule 1). -/
def listAggP : Pat := withB (cat [lit "list", ws0, lit "("])

/-- `/\bLIST\s*\(\s*DISTINCT\b/gi` (rule 1). -/
def listDistinctP : Pat :=
  withB (cat [lit "list", ws0, lit "(", ws0, lit "distinct", endWordB])

/-- `/\bstring_agg\s*\(/i` (rule 2). -/
def stringAggP : Pat := withB (cat [lit "string_agg", ws0, lit "("])

/-- `ORDER\s+BY\b` (no leading boundary), shared tail of several patterns. -/
def orderByCore : P0 := cat [lit "order", ws1, lit "by", endWordB]

/-- `/\b(?:list|string_agg|array_agg|LIST)\s*\([^)]*ORDER\s+BY\b/gi` (rule 3).
The greedy `[^)]*` backtracks to the last `ORDER\s+BY\b` inside the run of
non-`)` characters. -/
def aggOrderByP : Pat := fun prev s =>
  if bOK prev then
    (cat [altP [lit "list", lit "string_agg", lit "array_agg"], ws0, lit "("] s).bind
      fun n =>
        let rest := s.drop n
        let runLen := (rest.takeWhile (· ≠ ')')).length
        (lastMatchDesc orderByCore rest runLen).map (n + ·)
  else none

/-- `/\bORDER\s+BY\b/gi` (rule 4). -/
def orderByP : Pat := withB orderByCore

/-- `/\bOVER\s*\(/gi` (rule 4). -/
def overP : Pat := withB (cat [lit "over", ws0, lit "("])

/-- `/\bGROUP\s+BY\b/gi` (rule 4). -/
def groupByP : Pat := withB (cat [lit "group", ws1, lit "by", endWordB])

/-- The `->>` count regex (global, rule 5). -/
def arrow2P : Pat := noB (lit "->>")

/-- The `->[^>]` count regex (global, rule 5): consumes the non-`>` character too. -/
def arrowObjP : Pat := noB (cat [lit "->", chCl (fun c => c ≠ '>')])

/-- `/\bjson_each\s*\(/i` (rule 6). -/
def jsonEachP : Pat := withB (cat [lit "json_each", ws0, lit "("])

/-- `/json_extract_string\s*\([^)]*\$\.\w+\[\*\]/i` (rule 7): existence of a
`$.word[*]` path inside the argument run. -/
def jsonArrayExtractP : Pat := fun _ s =>
  (cat [lit "json_extract_string", ws0, lit "("] s).bind fun n =>
    let rest := s.drop n
    let runLen := (rest.takeWhile (· ≠ ')')).length
    if anyMatchWithin (cat [lit "$.", word1, lit "[*]"]) rest runLen then some (n + 1)
    else none

/-- `\s*\n\s*` followed by a non-whitespace continuation: the whole whitespace
run is consumed and must contain a newline. -/
def wsRunWithNl : P0 := fun s =>
  let run := s.takeWhile wsChar
  if run.contains '\n' then some run.length else none

/-- `/ORDER\s+BY\s+\w+(?:\.\w+)?\s+DESC\s*\n\s*LIMIT\s+1/gi` (rule 8). -/
def orderByLimit1P : Pat := noB (cat
  [lit "order", ws1, lit "by", ws1, word1, optP (cat [lit ".", word1]),
   ws1, lit "desc", wsRunWithNl, lit "limit", ws1, lit "1"])

/-- `/ROW_NUMBER\s*\(\s*\)\s*OVER\s*\([^)]*ORDER\s+BY\b/gi` (rule 9). -/
def rowNumberOverOrderP : Pat := fun _ s =>
  (cat [lit "row_number", ws0, lit "(", ws0, lit ")", ws0, lit "over", ws0, lit "("] s).bind
    fun n =>
      let rest := s.drop n
      let runLen := (rest.takeWhile (· ≠ ')')).length
      if anyMatchWithin orderByCore rest runLen then some (n + 1) else none

/-- `/(?:row_number|rn|id_verification_response_row_number)\s*(?:=|<=)\s*[12]\b/i`
(rule 9); each alternative carries the full continuation, as JS backtracking
does. -/
def rowFilter12P : Pat :=
  let tail : P0 := cat [ws0, altP [lit "=", lit "<="], ws0,
    chCl (fun c => c = '1' || c = '2'), endWordB]
  noB (altP [cat [lit "row_number", tail], cat [lit "rn", tail],
             cat [lit "id_verification_response_row_number", tail]])

end QueryOpt

namespace QueryOpt

/-- Negative lookahead `(?!p)` (zero-width). -/
def negLA (p : P0) : P0 := fun s => if (p s).isSome then none else some 0

/-- `'%[^']*%'` minus its opening quote-percent: a run of non-quote characters
ending in `%`, followed by the closing quote. -/
def pctBody : P0 := fun s =>
  let run := s.takeWhile (· ≠ '\'')
  match run.getLast? with
  | some '%' =>
    match s.drop run.length with
    | '\'' :: _ => some (run.length + 1)
    | _ => none
  | _ => none

/-- `/LIKE\s+'%[^']*%'/gi` (rule 10). -/
def likeWildcardP : Pat := noB (cat [lit "like", ws1, lit "'%", pctBody])

/-- `[^)]*\)` — the argument run up to and including the first `)`. -/
def argsCloseParen : P0 := fun s =>
  let run := s.takeWhile (· ≠ ')')
  match s.drop run.length with
  | ')' :: _ => some (run.length + 1)
  | _ => none

/-- Characters matched by the JS dot (no line terminators). -/
def dotChar (c : Char) : Bool :=
  !(c = '\n' || c = '\r' || c = ' ' || c = ' ')

/-! ### Rule 11: `function-on-filter-column`

`/WHERE\s+(?:.*?\s+AND\s+|.*?\s+OR\s+)*(?:UPPER|LOWER|TRIM|CAST|EXTRACT|DATE_TRUNC|YEAR|MONTH|DAY|STRFTIME|LENGTH|SUBSTRING|REPLACE)\s*\([^)]*\)\s*(?:=|!=|<|>|<=|>=|LIKE|IN)/gi`
used only through `funcInWhere.length > 0`, i.e. as an existence test.  The
starred group is embedded as a reachability search: from each position after
`WHERE\s+`, one iteration consumes a line-terminator-free gap, at least one
whitespace character, `AND`/`OR`, and at least one whitespace character.  The
breadth-first search visits each of the at most `|s| + 1` positions at most
once, so fuel `|s| + 2` never runs out. -/

def tail11 : P0 :=
  cat [altP [lit "upper", lit "lower", lit "trim", lit "cast", lit "extract",
             lit "date_trunc", lit "year", lit "month", lit "day",
             lit "strftime", lit "length", lit "substring", lit "replace"],
       ws0, lit "(", argsCloseParen, ws0,
       altP [lit "=", lit "!=", lit "<", lit ">", lit "<=", lit ">=",
             lit "like", lit "in"]]

/-- Length of the maximal whitespace run ending just before index `a`. -/
def wsBackCount (s : Str) (a : Nat) : Nat :=
  ((s.take a).reverse.takeWhile wsChar).length

/-- One iteration of the starred `.*?\s+AND\s+` / `.*?\s+OR\s+` group from
position `p`: every position reachable after it. -/
def step11 (s : Str) (p : Nat) : List Nat :=
  (List.range (s.length + 1)).flatMap fun a =>
    let kw :=
      if (lit "and" (s.drop a)).isSome then some 3
      else if (lit "or" (s.drop a)).isSome then some 2
      else none
    match kw with
    | none => []
    | some klen =>
      let back := wsBackCount s a
      if back ≥ 1 && p + 1 ≤ a then
        let m := max p (a - back)
        if ((s.drop p).take (m - p)).all dotChar then
          let r2 := ((s.drop (a + klen)).takeWhile wsChar).length
          (List.range r2).map (fun k => a + klen + 1 + k)
        else []
      else []

def bfs11 (s : Str) : Nat → List Nat → List Nat → Bool
  | 0, _, _ => false
  | _, [], _ => false
  | fuel + 1, p :: frontier, visited =>
    if (tail11 (s.drop p)).isSome then true
    else
      let next := (step11 s p).filter fun q => ¬ q ∈ visited ∧ ¬ q ∈ p :: frontier
      bfs11 s fuel (frontier ++ next.dedup) (p :: visited)

/-- Positions right after a `WHERE\s+` prefix (any split of the `\s+` run). -/
def inits11 (s : Str) : List Nat :=
  (List.range (s.length + 1)).flatMap fun i =>
    if (lit "where" (s.drop i)).isSome then
      let r := ((s.drop (i + 5)).takeWhile wsChar).length
      (List.range r).map (fun k => i + 5 + 1 + k)
    else []

/-- `funcInWhere.length > 0` (rule 11). -/
def funcInWhereTest (s : Str) : Bool :=
  bfs11 s (s.length + 2) (inits11 s).dedup []

/-- `/SELECT\s+DISTINCT\s+\*/i` (rule 12). -/
def distinctStarP : Pat :=
  noB (cat [lit "select", ws1, lit "distinct", ws1, lit "*"])

/-- `/\bUNION\b(?!\s+ALL\b)/gi` (rule 13). -/
def unionNoAllP : Pat :=
  withB (cat [lit "union", endWordB, negLA (cat [ws1, lit "all", endWordB])])

/-- `/COUNT\s*\(\s*DISTINCT\b/gi` (rule 14). -/
def countDistinctP : Pat :=
  noB (cat [lit "count", ws0, lit "(", ws0, lit "distinct", endWordB])

/-- `/NOT\s+IN\s*\(\s*SELECT/i` (rule 15). -/
def notInSubqueryP : Pat :=
  noB (cat [lit "not", ws1, lit "in", ws0, lit "(", ws0, lit "select"])

/-- `/SELECT\s[\s\S]*?\(\s*SELECT\b[\s\S]*?WHERE[\s\S]*?\.\w+\s*=\s*\w+\.\w+/i`
(rule 16), as a chain of components separated by arbitrary gaps. -/
def correlatedChain : List Pat :=
  [noB (cat [lit "select", chCl wsChar]),
   noB (cat [lit "(", ws0, lit "select", endWordB]),
   noB (lit "where"),
   noB (cat [lit ".", word1, ws0, lit "=", ws0, word1, lit ".", word1])]

/-- `/INSERT\s+INTO\b[\s\S]*?SELECT\s+\*/i` (rule 17). -/
def insertSelectChain : List Pat :=
  [noB (cat [lit "insert", ws1, lit "into", endWordB]),
   noB (cat [lit "select", ws1, lit "*"])]

/-- `/\bAS\s*\(/g` applied to the upper-cased input (rule 18); upper-casing
plus a case-sensitive match equals a case-insensitive match. -/
def cteP : Pat := withB (cat [lit "as", ws0, lit "("])

/-- `/\b(ROW_NUMBER|RANK|DENSE_RANK|NTILE|LAG|LEAD|FIRST_VALUE|LAST_VALUE)\s*\(/i`
(rule 19); the continuation is folded into each alternative. -/
def windowFuncP : Pat :=
  withB (altP
    (["row_number", "rank", "dense_rank", "ntile", "lag", "lead",
      "first_value", "last_value"].map (fun n => cat [lit n, ws0, lit "("])))

/-- `/\bQUALIFY\b/i` (rule 19). -/
def qualifyP : Pat := withB (cat [lit "qualify", endWordB])

/-- `/WHERE\b[\s\S]*?\b(ROW_NUMBER|RANK|DENSE_RANK)\b/i` (rule 19). -/
def whereWindowChain : List Pat :=
  [noB (cat [lit "where", endWordB]),
   withB (altP [cat [lit "row_number", endWordB], cat [lit "rank", endWordB],
                cat [lit "dense_rank", endWordB]])]

/-- Reversed case-insensitive literal, for suffix parsing. -/
def revLit (t : String) : P0 := fun s =>
  if isPrefixCI t.toList.reverse s then some t.toList.length else none

/-- `CAST\s*\([^)]+AS\s+(BOOLEAN|INTEGER|DOUBLE|BIGINT|DATE|TIMESTAMP)\s*\)`
(rule 20, first alternative).  The greedy `[^)]+` forces the `AS ... TYPE`
part to be a suffix of the argument run, which is parsed from the right. -/
def castParenBranch : P0 :=
  cat [lit "cast", ws0, lit "(", fun s =>
    let run := s.takeWhile (· ≠ ')')
    match s.drop run.length with
    | ')' :: _ =>
      let suffixForm := cat [ws0,
        altP (["boolean", "integer", "double", "bigint", "date",
               "timestamp"].map revLit),
        ws1, revLit "as", chCl (fun _ => true)]
      if (suffixForm run.reverse).isSome then some (run.length + 1) else none
    | _ => none]

/-- `::\s*(BOOLEAN|INTEGER|DOUBLE|BIGINT|TIMESTAMPTZ?)\b` (rule 20, second
alternative).  `TIMESTAMPTZ?` is greedy: `timestamptz` is tried before
`timestamp`, each with the trailing boundary folded in. -/
def castColonBranch : P0 :=
  cat [lit "::", ws0,
    altP [cat [lit "boolean", endWordB], cat [lit "integer", endWordB],
          cat [lit "double", endWordB], cat [lit "bigint", endWordB],
          cat [lit "timestamptz", endWordB], cat [lit "timestamp", endWordB]]]

/-- The cast-counting regex of rule 20 (`excessive-casts`). -/
def castOpsP : Pat := noB (altP [castParenBranch, castColonBranch])

end QueryOpt

namespace QueryOpt

/-- Case-insensitive literal from a character list (for the `\1`
backreference, which is case-insensitive under the `i` flag). -/
def litS (l : Str) : P0 := fun s => if isPrefixCI l s then some l.length else none

/-- `/FROM\s+read_(?:csv|parquet|json)\s*\(/i` (rule 21). -/
def fromReadP : Pat :=
  noB (cat [lit "from", ws1, lit "read_", altP [lit "csv", lit "parquet", lit "json"],
            ws0, lit "("])

/-- `/\bmd:/i` (rule 21). -/
def mdColonP : Pat := withB (lit "md:")

/-- `/GROUP\s+BY\s+(?!ALL\b)\w+(?:\s*,\s*\w+){3,}/gi` (rule 22), used only as
a test, so exactly three further comma groups are demanded. -/
def groupByVerboseP : Pat :=
  let commaWord : P0 := cat [ws0, lit ",", ws0, word1]
  noB (cat [lit "group", ws1, lit "by", ws1, negLA (cat [lit "all", endWordB]),
            word1, commaWord, commaWord, commaWord])

/-- `/FROM\s+(?:read_parquet|read_csv|read_json)\s*\(\s*'https?:/i` (rule 23). -/
def fromRemoteHttpP : Pat :=
  noB (cat [lit "from", ws1,
            altP [lit "read_parquet", lit "read_csv", lit "read_json"],
            ws0, lit "(", ws0, lit "'http", optP (lit "s"), lit ":"])

/-- `/SELECT\s+\*/i` (rule 23). -/
def selectStarTextP : Pat := noB (cat [lit "select", ws1, lit "*"])

/-- `String.prototype.includes` on the upper-cased input (rule 24) — i.e. a
case-insensitive substring test. -/
def containsCI (needle : String) (s : Str) : Bool := testP (noB (lit needle)) s

/-- `/\blist_transform\s*\(/i` (rule 25). -/
def listTransformP : Pat := withB (cat [lit "list_transform", ws0, lit "("])

/-- `/\bPIVOT\b/i` (rule 26). -/
def pivotP : Pat := withB (cat [lit "pivot", endWordB])

/-- `/\bUNPIVOT\b/i` (rule 26). -/
def unpivotP : Pat := withB (cat [lit "unpivot", endWordB])

/-- `/\bPIVOT\b[\s\S]*?\bUSING\b/i` (rule 26). -/
def pivotUsingChain : List Pat :=
  [withB (cat [lit "pivot", endWordB]), withB (cat [lit "using", endWordB])]

/-- `/LEFT\s+JOIN\s+\w+\s+ON\s+TRUE/gi` (rule 27). -/
def leftJoinOnTrueP : Pat :=
  noB (cat [lit "left", ws1, lit "join", ws1, word1, ws1, lit "on", ws1, lit "true"])

/-- `/\b(?:MEDIAN|QUANTILE|PERCENTILE_CONT|PERCENTILE_DISC|MODE)\s*\(/gi`
(rule 28). -/
def medianP : Pat :=
  withB (altP (["median", "quantile", "percentile_cont", "percentile_disc",
                "mode"].map (fun n => cat [lit n, ws0, lit "("])))

/-- `/\bUNNEST\s*\(\s*(?![\['\d])\w+/gi` (rule 29). -/
def unnestP : Pat :=
  withB (cat [lit "unnest", ws0, lit "(", ws0,
              negLA (chCl (fun c => c = '[' || c = '\'' || digitChar c)), word1])

/-- `/\bWITH\s+RECURSIVE\b/i` (rule 30). -/
def withRecursiveP : Pat := withB (cat [lit "with", ws1, lit "recursive", endWordB])

/-- `/\bWITH\s+RECURSIVE\b[\s\S]*\bLIMIT\b/i` (rule 30): the greedy gap is
equivalent to a lazy one for a test. -/
def recursiveLimitChain : List Pat :=
  [withRecursiveP, withB (cat [lit "limit", endWordB])]

/-- `/\bdepth\s*[<>=]/i`, `/\blevel\s*[<>=]/i`, `/\bdepth\s*\+\s*1\b/i`,
`/\blevel\s*\+\s*1\b/i` (rule 30). -/
def depthCmpP (name : String) : Pat :=
  withB (cat [lit name, ws0, chCl (fun c => c = '<' || c = '>' || c = '=')])

def depthPlus1P (name : String) : Pat :=
  withB (cat [lit name, ws0, lit "+", ws0, lit "1", endWordB])

/-- `/\bUSING\s+KEY\b/i` (rule 30). -/
def usingKeyP : Pat := withB (cat [lit "using", ws1, lit "key", endWordB])

/-- `/\bCREATE\s+(?:OR\s+REPLACE\s+)?TABLE\b[\s\S]*?\bAS\s+SELECT\b/i`
(rule 31). -/
def ctasChain : List Pat :=
  [withB (cat [lit "create", ws1, optP (cat [lit "or", ws1, lit "replace", ws1]),
               lit "table", endWordB]),
   withB (cat [lit "as", ws1, lit "select", endWordB])]

/-- `'[^']*'` — a quoted literal. -/
def quotedStr : P0 := fun s =>
  match s with
  | '\'' :: rest =>
    let run := rest.takeWhile (· ≠ '\'')
    match rest.drop run.length with
    | '\'' :: _ => some (run.length + 2)
    | _ => none
  | _ => none

/-- Greedy `X{n,}`: number of consecutive matches and total length consumed
(every iteration of the patterns used consumes at least one character, so the
fuel `s.length + 1` of `repCountF` is never exhausted). -/
def repCount (p : P0) : Nat → Str → Nat × Nat
  | 0, _ => (0, 0)
  | _ + 1, [] => (0, 0)
  | fuel + 1, c :: rest =>
    match p (c :: rest) with
    | some (n + 1) =>
      let r := repCount p fuel ((c :: rest).drop (n + 1))
      (r.1 + 1, n + 1 + r.2)
    | _ => (0, 0)

def repCountF (p : P0) (s : Str) : Nat × Nat := repCount p (s.length + 1) s

/-- `/\bIN\s*\((?:\s*(?:'[^']*'|[\d.]+)\s*,){49,}/gi` (rule 32). -/
def largeInListP : Pat := fun prev s =>
  if bOK prev then
    (cat [lit "in", ws0, lit "("] s).bind fun n =>
      let item : P0 := cat [ws0, altP [quotedStr, run1Of (fun c => digitChar c || c = '.')],
                            ws0, lit ","]
      let r := repCountF item (s.drop n)
      if r.1 ≥ 49 then some (n + r.2) else none
  else none

/-- `read_(?:parquet|csv|json)\s*\(\s*'(?:s3://|https?://|gs://|gcs://|r2://)`
— the core of the remote-scan regex of rules 33–35. -/
def remoteCore : P0 :=
  cat [lit "read_", altP [lit "parquet", lit "csv", lit "json"], ws0,
       lit "(", ws0, lit "'",
       altP [lit "s3://", cat [lit "http", optP (lit "s"), lit "://"],
             lit "gs://", lit "gcs://", lit "r2://"]]

/-- The remote-file-read pattern of rules 33 and 34 (leading `\b`). -/
def remoteReadP : Pat := withB remoteCore

/-- `/\bWHERE\b/i` (rule 33). -/
def whereWordP : Pat := withB (cat [lit "where", endWordB])

/-- Rule 34's count of remote-file reads (`multiple-remote-scans`). -/
def countRemoteScans (s : Str) : Nat := countP remoteReadP s

/-- The glob variant of the remote-read regex (rule 35): the quoted path must
contain `**` before its closing quote. -/
def globRemoteP : Pat :=
  withB (cat [remoteCore, fun s =>
    let run := s.takeWhile (· ≠ '\'')
    if testP (noB (lit "**")) run then
      match s.drop run.length with
      | '\'' :: _ => some (run.length + 1)
      | _ => none
    else none])

/-- `hasInequalityJoin` (rule 36). -/
def inequalityJoinChain : List Pat :=
  [withB (cat [lit "join", endWordB]),
   withB (cat [lit "on", endWordB]),
   noB (altP [lit "<=", lit ">=", cat [lit "<", chCl wsChar],
              cat [lit ">", chCl wsChar]]),
   withB (altP (["row_number", "last_value", "first_value"].map
     (fun n => cat [lit n, ws0, lit "("])))]

/-- `hasAsofPattern` (rule 36): `(?:timestamp|date|time|_at\b|_dt\b|created|updated|observed)`. -/
def asofChain : List Pat :=
  [withB (cat [lit "join", endWordB]),
   withB (cat [lit "on", endWordB]),
   noB (altP [lit "<=", lit ">="]),
   noB (altP [lit "timestamp", lit "date", lit "time",
              cat [lit "_at", endWordB], cat [lit "_dt", endWordB],
              lit "created", lit "updated", lit "observed"])]

/-- `/\b(?:ROW_NUMBER|LAST_VALUE|FIRST_VALUE)\s*\(/i` (rule 36). -/
def rankWindowP : Pat :=
  withB (altP (["row_number", "last_value", "first_value"].map
    (fun n => cat [lit n, ws0, lit "("])))

/-- The `or-chain` regex of rule 37, with its case-insensitive `\1`
backreference: capture `\w+(?:\.\w+)?`, then an equality to a quoted literal,
then three `OR`-joined repetitions with the captured text. -/
def orChainP : Pat := noB (fun s =>
  let w1 := s.takeWhile wordChar
  if w1 = [] then none
  else
    let orSeg (cap : Str) : P0 :=
      cat [ws1, lit "or", ws1, litS cap, ws0, lit "=", ws0, quotedStr]
    let tail (cap : Str) : P0 := fun t =>
      cat [ws0, lit "=", ws0, quotedStr, orSeg cap, orSeg cap, orSeg cap] t
    let afterW1 := s.drop w1.length
    -- greedy optional `(?:\.\w+)?`, with fallback as in JS backtracking
    let withDot : Option Nat :=
      match afterW1 with
      | '.' :: rest2 =>
        let w2 := rest2.takeWhile wordChar
        if w2 = [] then none
        else
          let cap := w1 ++ '.' :: w2
          (tail cap (rest2.drop w2.length)).map
            (w1.length + 1 + w2.length + ·)
      | _ => none
    match withDot with
    | some n => some n
    | none => (tail w1 afterW1).map (w1.length + ·))

/-- `/\b(?:timestamp|date|time|_at|_dt|created|updated|observed|_date|_time|_ts)\s+BETWEEN\b/gi`
(rule 38), continuation folded into each alternative. -/
def betweenTemporalP : Pat :=
  withB (altP
    (["timestamp", "date", "time", "_at", "_dt", "created", "updated",
      "observed", "_date", "_time", "_ts"].map
      (fun n => cat [lit n, ws1, lit "between", endWordB])))

/-- `'[^']*(?:\d{4}-\d{2}-\d{2})[^']*'` — a quoted literal containing a date
shape. -/
def quotedWithDate : P0 := fun s =>
  match s with
  | '\'' :: rest =>
    let run := rest.takeWhile (· ≠ '\'')
    let dateShape : P0 := cat [chCl digitChar, chCl digitChar, chCl digitChar,
      chCl digitChar, lit "-", chCl digitChar, chCl digitChar, lit "-",
      chCl digitChar, chCl digitChar]
    if anyMatchWithin dateShape run run.length then
      match rest.drop run.length with
      | '\'' :: _ => some (run.length + 2)
      | _ => none
    else none
  | _ => none

/-- `/\bBETWEEN\s+'[^']*(?:\d{4}-\d{2}-\d{2})[^']*'\s+AND\s+'[^']*(?:\d{4}-\d{2}-\d{2})[^']*'/gi`
(rule 38). -/
def betweenQuotedDatesP : Pat :=
  withB (cat [lit "between", ws1, quotedWithDate, ws1, lit "and", ws1,
              quotedWithDate])

/-- `/\bAS\s*\(\s*SELECT\s+\*/gi` (rule 39). -/
def cteSelectStarP : Pat :=
  withB (cat [lit "as", ws0, lit "(", ws0, lit "select", ws1, lit "*"])

/-- One iteration of `(?:,\s*\w+\s+AS\s*\([\s\S]*?\)\s*)*` (rule 39) from
position `q`: every position reachable after the iteration. -/
def step39 (s : Str) (q : Nat) : List Nat :=
  match cat [lit ",", ws0, word1, ws1, lit "as", ws0, lit "("] (s.drop q) with
  | none => []
  | some n =>
    (List.range (s.length + 1)).flatMap fun t =>
      if q + n ≤ t && (s.drop t).head? = some ')' then
        let r := ((s.drop (t + 1)).takeWhile wsChar).length
        (List.range (r + 1)).map (fun k => t + 1 + k)
      else []

def tail39 : P0 := cat [lit "select", ws1, lit "*", ws1, lit "from", endWordB]

def bfs39 (s : Str) : Nat → List Nat → List Nat → Bool
  | 0, _, _ => false
  | _, [], _ => false
  | fuel + 1, p :: frontier, visited =>
    if (tail39 (s.drop p)).isSome then true
    else
      let next := (step39 s p).filter fun q => ¬ q ∈ visited ∧ ¬ q ∈ p :: frontier
      bfs39 s fuel (frontier ++ next.dedup) (p :: visited)

/-- `/\)\s*(?:,\s*\w+\s+AS\s*\([\s\S]*?\)\s*)*SELECT\s+\*\s+FROM\b/i`
(rule 39, `finalSelectStar`): reachability from any `)` through the starred
group to the `SELECT * FROM` tail. -/
def finalSelectStarTest (s : Str) : Bool :=
  let inits := (List.range (s.length + 1)).flatMap fun p =>
    if (s.drop p).head? = some ')' then
      let r := ((s.drop (p + 1)).takeWhile wsChar).length
      (List.range (r + 1)).map (fun k => p + 1 + k)
    else []
  bfs39 s (s.length + 2) inits.dedup []

/-- `/\b(\w+)\.\w+\.\w+\b/gi` (rule 40). -/
def dbQualifiedP : Pat :=
  withB (cat [word1, lit ".", word1, lit ".", word1, endWordB])

end QueryOpt

namespace QueryOpt

/-!
## `regexRules`: the pattern-rule catalogue

Each numbered block of `regexRules` in `rules.ts` becomes one definition
returning the findings that block pushes, in push order; `regexRules` is their
concatenation in declaration order.
-/

/-- Title of the `non-spillable-list` finding (embeds the count). -/
def listAggTitle (count : Nat) : String :=
  "list() aggregate cannot spill to disk (" ++ toString count ++ "x)"

/-- Message of the `non-spillable-list` finding (embeds the count). -/
def listAggMsg (count : Nat) : String :=
  "The list() aggregate function is used " ++ toString count ++
  " time(s) in this query. Per DuckDB docs, list() cannot offload intermediate state to disk. On large datasets, this will cause out-of-memory crashes — especially on MotherDuck Ducklings with fixed memory limits."

/-- Rule 1: `list()` aggregate and `LIST(DISTINCT ...)`. -/
def rule1 (sql : Str) : List Finding :=
  let listAggMatches := findAllP listAggP sql
  let listDistinctMatches := findAllP listDistinctP sql
  (match listAggMatches with
   | [] => []
   | m :: _ =>
     [withLoc sql m (finding "non-spillable-list" .error
       (listAggTitle listAggMatches.length) (listAggMsg listAggMatches.length)
       "Consider whether you can: (1) pre-filter data before aggregating with list(), (2) add a LIMIT or WHERE to reduce input rows, (3) use string_agg() if you only need a concatenated string (though it has the same spill limitation), or (4) break the query into smaller batches."
       .memory (some m))])
  ++ (match listDistinctMatches with
      | [] => []
      | m :: _ =>
        [withLoc sql m (finding "non-spillable-list-distinct" .error
          "LIST(DISTINCT ...) — double memory pressure"
          "LIST(DISTINCT ...) combines two non-spillable operations: deduplication and list accumulation. The DISTINCT requires a hash set in memory AND the resulting list is accumulated in memory. Neither can spill to disk."
          "If you only need the distinct values as a comma-separated string, consider string_agg(DISTINCT ...) — though it also cannot spill. Better: reduce the input dataset first with a GROUP BY in a prior CTE."
          .memory (some m))])

/-- Rule 2: `string_agg()`. -/
def rule2 (sql : Str) : List Finding :=
  if testP stringAggP sql then
    [withLoc sql "string_agg(".toList (finding "non-spillable-string-agg" .warning
      "string_agg() cannot spill to disk"
      "The string_agg() function cannot offload intermediate state to disk. On large datasets with many groups or large string values, this can exhaust memory."
      "Pre-filter or limit input data before applying string_agg(). Consider whether you actually need string concatenation or if an array (list) return is acceptable."
      .memory (some "string_agg(".toList))]
  else []

/-- Rule 3: aggregate with internal `ORDER BY`. -/
def rule3 (sql : Str) : List Finding :=
  match findAllP aggOrderByP sql with
  | [] => []
  | m :: _ =>
    [withLoc sql m (finding "non-spillable-ordered-agg" .warning
      "Ordered aggregate (ORDER BY inside aggregate)"
      "Aggregate functions with an ORDER BY clause (e.g., LIST(... ORDER BY ...)) are \"holistic\" — they must see all input before producing output. DuckDB cannot spill these complex intermediate states to disk."
      "If ordering within the aggregate is not critical, remove the ORDER BY. Otherwise, ensure the input dataset is small or pre-sorted."
      .memory (some m))]

/-- The combined blocking-operator count of rule 4. -/
def blockingCounts (sql : Str) : Nat × Nat × Nat :=
  (countP orderByP sql, countP overP sql, countP groupByP sql)

def blockingErrTitle (total : Nat) : String :=
  toString total ++ " blocking operators detected"

def blockingErrMsg (o w g : Nat) : String :=
  "This query contains " ++ toString o ++ " ORDER BY, " ++ toString w ++
  " window function (OVER), and " ++ toString g ++
  " GROUP BY operations. Each is a blocking/pipeline-breaking operator that buffers data in memory. Per DuckDB docs: \"If multiple blocking operators appear in the same query, DuckDB may still throw an out-of-memory exception due to the complex interplay of these operators.\""

def blockingWarnTitle (total : Nat) : String :=
  toString total ++ " blocking operators in one query"

def blockingWarnMsg (o w g : Nat) : String :=
  "This query has " ++ toString o ++ " ORDER BY, " ++ toString w ++
  " window functions, and " ++ toString g ++
  " GROUP BY operations. Each is a pipeline breaker that buffers data in memory. Combined, they increase the risk of out-of-memory errors."

/-- Rule 4: multiple blocking operators (`many-blocking-operators`). -/
def rule4 (sql : Str) : List Finding :=
  let c := blockingCounts sql
  let totalBlockingOps := c.1 + c.2.1 + c.2.2
  if totalBlockingOps ≥ 8 then
    [finding "many-blocking-operators" .error (blockingErrTitle totalBlockingOps)
      (blockingErrMsg c.1 c.2.1 c.2.2)
      "Consider breaking this query into multiple sequential queries, materializing intermediate results into temp tables. This lets DuckDB release memory between steps rather than holding all intermediate states simultaneously."
      .memory]
  else if totalBlockingOps ≥ 5 then
    [finding "many-blocking-operators" .warning (blockingWarnTitle totalBlockingOps)
      (blockingWarnMsg c.1 c.2.1 c.2.2)
      "Consider materializing intermediate CTEs into temp tables to reduce peak memory usage, or break the query into sequential steps."
      .memory]
  else []

/-- Rule 5: heavy / moderate JSON extraction. -/
def rule5 (sql : Str) : List Finding :=
  let totalJsonOps := countP arrow2P sql + countP arrowObjP sql
  if totalJsonOps ≥ 20 then
    [withLoc sql "->>".toList (finding "heavy-json-extraction" .warning
      ("Heavy JSON extraction (" ++ toString totalJsonOps ++ " operations)")
      ("This query performs " ++ toString totalJsonOps ++
       " JSON extraction operations (->> and ->). Each extraction parses the JSON blob, and when applied repeatedly to the same column across many rows, this multiplies CPU and memory usage. JSON values are stored as strings, so they're also not columnar-efficient.")
      "Consider: (1) Extract JSON fields into typed columns at ingest time (CREATE TABLE ... AS SELECT payload->>'field' AS field ...), (2) Use json_extract with multiple paths in a single call, or (3) Move JSON parsing into a dedicated CTE and reference the extracted columns downstream."
      .performance (some "->>".toList))]
  else if totalJsonOps ≥ 8 then
    [withLoc sql "->>".toList (finding "moderate-json-extraction" .info
      ("Moderate JSON extraction (" ++ toString totalJsonOps ++ " operations)")
      ("This query performs " ++ toString totalJsonOps ++
       " JSON extraction operations. While manageable, each parses the JSON blob independently. On wide JSON payloads, this can add significant CPU overhead.")
      "Consider extracting commonly-accessed JSON fields into typed columns at ingest time for better performance."
      .performance (some "->>".toList))]
  else []

/-- Rule 6: `json_each()`. -/
def rule6 (sql : Str) : List Finding :=
  if testP jsonEachP sql then
    [withLoc sql "json_each(".toList (finding "json-each-expansion" .warning
      "json_each() row expansion"
      "json_each() explodes a JSON array or object into rows. If the JSON contains many elements, this can dramatically multiply the row count and memory usage, especially when combined with subsequent aggregation or sorting."
      "Filter the JSON array before expanding if possible, or apply LIMIT/WHERE immediately after the json_each() to keep the expanded result set small."
      .memory (some "json_each(".toList))]
  else []

/-- Rule 7: JSON array wildcard extraction. -/
def rule7 (sql : Str) : List Finding :=
  if testP jsonArrayExtractP sql then
    [finding "json-array-extract" .info "JSON array wildcard extraction"
      "json_extract_string() with a [*] wildcard path extracts all array elements. This creates a list in memory and, when combined with list_transform(), adds further memory pressure."
      "If you only need a subset of array elements, filter before extraction. Consider flattening JSON arrays into separate rows at ingest time."
      .memory]
  else []

/-- Rule 8: repeated `ORDER BY ... DESC LIMIT 1`. -/
def rule8 (sql : Str) : List Finding :=
  match findAllP orderByLimit1P sql with
  | [] => []
  | m :: rest =>
    if (m :: rest).length ≥ 2 then
    [withLoc sql m (finding "repeated-order-limit-1" .warning
      ("ORDER BY ... DESC LIMIT 1 repeated " ++ toString (m :: rest).length ++ "x")
      ("This query uses the ORDER BY ... DESC LIMIT 1 pattern " ++ toString (m :: rest).length ++
       " times to get the \"latest\" row. Each instance requires a full sort of the input. This is a common source of unnecessary memory usage and is especially costly in CTEs since DuckDB materializes each one.")
      "Replace with arg_max(): SELECT arg_max(col, observed_at) FROM table. For multiple columns, use arg_max(struct_pack(col1, col2, ...), observed_at). This avoids the sort entirely."
      .performance (some m))]
    else []

/-- Rule 9: `ROW_NUMBER() OVER (...)` filtered to rank 1–2. -/
def rule9 (sql : Str) : List Finding :=
  if testP rowNumberOverOrderP sql && testP rowFilter12P sql then
    [withLoc sql "ROW_NUMBER()".toList (finding "use-arg-max" .info
      "Consider arg_max() instead of ROW_NUMBER() window"
      "Using ROW_NUMBER() OVER (... ORDER BY ...) filtered to = 1 to get the \"latest\" or \"best\" row per group requires a full window sort — a blocking operator that buffers all rows. DuckDB's arg_max()/arg_min() achieves the same result more efficiently."
      "Replace with: SELECT key, arg_max(value_col, order_col) FROM ... GROUP BY key. For multiple columns: arg_max(struct_pack(col1, col2), order_col)."
      .performance (some "ROW_NUMBER()".toList))]
  else []

/-- Rule 10: `LIKE` with leading wildcard — one finding per match. -/
def rule10 (sql : Str) : List Finding :=
  (findAllP likeWildcardP sql).map fun m =>
    withLoc sql m (finding "leading-wildcard-like" .warning
      "LIKE with leading wildcard"
      "A LIKE pattern starting with '%' prevents DuckDB from using zone maps or min/max statistics for filtering, forcing a full column scan."
      "If possible, use a trailing-only wildcard (LIKE 'prefix%'), use CONTAINS() or regexp_matches() for clarity, or consider a full-text search approach."
      .performance (some m))

/-- Rule 11: function applied to a filter column. -/
def rule11 (sql : Str) : List Finding :=
  if funcInWhereTest sql then
    [finding "function-on-filter-column" .warning
      "Function applied to column in WHERE clause"
      "Wrapping a column in a function (e.g., UPPER(name) = ..., YEAR(created_at) = ...) prevents filter pushdown and forces DuckDB to evaluate every row."
      "Store pre-computed values in the table or rewrite the condition to keep the column bare. For example, instead of YEAR(dt) = 2024, use dt >= '2024-01-01' AND dt < '2025-01-01'."
      .performance]
  else []

/-- Rule 12: `SELECT DISTINCT *`. -/
def rule12 (sql : Str) : List Finding :=
  if testP distinctStarP sql then
    [withLoc sql "SELECT DISTINCT *".toList (finding "distinct-star" .warning
      "SELECT DISTINCT *"
      "DISTINCT * forces DuckDB to hash or sort ALL columns to find unique rows. This is extremely memory-intensive and rarely intentional."
      "Select only the columns you need uniqueness on, or reconsider whether DISTINCT is necessary (maybe GROUP BY is more appropriate)."
      .memory (some "SELECT DISTINCT *".toList))]
  else []

/-- Rule 13: `UNION` without `ALL`. -/
def rule13 (sql : Str) : List Finding :=
  if (findAllP unionNoAllP sql).length > 0 then
    [withLoc sql "UNION".toList (finding "union-without-all" .info
      "UNION without ALL"
      "UNION (without ALL) removes duplicate rows by hashing the entire result set. If duplicates are acceptable or impossible, this is wasted work."
      "Use UNION ALL if you don't need deduplication. Also consider UNION BY NAME for tables with different column orders."
      .performance (some "UNION".toList))]
  else []

/-- Rule 14: `COUNT(DISTINCT ...)`. -/
def rule14 (sql : Str) : List Finding :=
  match findAllP countDistinctP sql with
  | [] => []
  | m :: rest =>
    [withLoc sql m (finding "count-distinct" .info
      ("COUNT(DISTINCT ...) detected (" ++ toString (m :: rest).length ++ "x)")
      ("COUNT(DISTINCT) appears " ++ toString (m :: rest).length ++
       " time(s). Each builds a hash set of all unique values in memory. On high-cardinality columns this is very memory-intensive.")
      "If an approximate count is acceptable, consider using APPROX_COUNT_DISTINCT() which uses HyperLogLog and far less memory."
      .memory (some m))]

/-- Rule 15: `NOT IN` with a subquery. -/
def rule15 (sql : Str) : List Finding :=
  if testP notInSubqueryP sql then
    [withLoc sql "NOT IN".toList (finding "not-in-subquery" .warning
      "NOT IN with subquery"
      "NOT IN with a subquery can be slow because it may prevent the optimizer from using an anti-join. It also has surprising NULL semantics — if the subquery returns any NULL, the entire NOT IN evaluates to NULL/false."
      "Use NOT EXISTS (SELECT 1 FROM ... WHERE ...) instead, or a LEFT JOIN ... WHERE right.id IS NULL anti-join pattern."
      .performance (some "NOT IN (SELECT".toList))]
  else []

/-- Rule 16: correlated subquery heuristic. -/
def rule16 (sql : Str) : List Finding :=
  if testChain correlatedChain sql then
    [finding "correlated-subquery" .error "Possible correlated subquery"
      "A correlated subquery in the SELECT list or WHERE clause re-executes for every row of the outer query. This is extremely slow on large tables."
      "Rewrite as a JOIN or use a CTE. For example: WITH sub AS (SELECT ...) SELECT ... FROM main JOIN sub ON ..."
      .performance (some "correlated subquery".toList)]
  else []

/-- Rule 17: `INSERT INTO ... SELECT *`. -/
def rule17 (sql : Str) : List Finding :=
  if testChain insertSelectChain sql then
    [finding "insert-select-star" .info "INSERT INTO ... SELECT *"
      "Large INSERT ... SELECT operations preserve insertion order by default, which requires buffering the entire result. This can cause OOM on large datasets."
      "Run SET preserve_insertion_order = false; before the insert if row order doesn't matter. This significantly reduces memory usage."
      .memory (some "INSERT INTO ... SELECT *".toList)]
  else []

/-- Rule 18: many CTEs. -/
def rule18 (sql : Str) : List Finding :=
  let cteCount := countP cteP sql
  if cteCount > 10 then
    [finding "many-ctes" .warning (toString cteCount ++ " CTEs detected")
      ("This query has " ++ toString cteCount ++
       " CTEs. DuckDB materializes each CTE, meaning all intermediate results are held in memory simultaneously. With " ++
       toString cteCount ++
       " CTEs — each potentially containing blocking operators like ORDER BY or GROUP BY — the combined memory footprint can be substantial.")
      "Consider breaking this into multiple sequential queries with CREATE TEMP TABLE to materialize intermediate results, allowing DuckDB to release memory between stages. Focus on CTEs that produce large intermediate results."
      .memory]
  else if cteCount > 5 then
    [finding "many-ctes" .info (toString cteCount ++ " CTEs detected")
      ("This query has " ++ toString cteCount ++
       " CTEs. DuckDB materializes each CTE. While CTEs improve readability, excessive CTEs may increase peak memory usage.")
      "Consider whether some CTEs can be inlined or merged. DuckDB auto-materializes duplicate CTEs, so focus on eliminating unused ones."
      .memory]
  else []

/-- Rule 19: window function filtered in `WHERE` instead of `QUALIFY`. -/
def rule19 (sql : Str) : List Finding :=
  let hasWindowFunc := testP windowFuncP sql
  let hasQualify := testP qualifyP sql
  if hasWindowFunc && !hasQualify && testChain whereWindowChain sql then
    [finding "window-without-qualify" .info
      "Window function filtered in WHERE instead of QUALIFY"
      "DuckDB supports QUALIFY, which filters on window function results directly — no subquery needed. Using WHERE on a window function result requires wrapping in a subquery."
      "Use QUALIFY instead: SELECT ... FROM ... QUALIFY ROW_NUMBER() OVER (...) <= N"
      .bestPractice]
  else []

/-- Rule 20: excessive casts. -/
def rule20 (sql : Str) : List Finding :=
  let castOps := findAllP castOpsP sql
  if castOps.length > 8 then
    [finding "excessive-casts" .info
      (toString castOps.length ++ " type cast operations")
      ("This query has " ++ toString castOps.length ++
       " explicit type casts. This often means data is stored as JSON or VARCHAR and cast at query time. Each cast adds CPU overhead and prevents DuckDB from using native type optimizations.")
      "Store data in native types (BOOLEAN, INTEGER, TIMESTAMP, etc.) at ingest time. For JSON payloads, consider extracting frequently-queried fields into typed columns."
      .schema]
  else []

end QueryOpt

namespace QueryOpt

/-- Rule 21: local file read joined with a MotherDuck (`md:`) table. -/
def rule21 (sql : Str) : List Finding :=
  if testP fromReadP sql && testP mdColonP sql then
    [finding "md-local-remote-transfer" .warning
      "Possible large local-to-cloud data transfer"
      "Reading local files (read_csv, read_parquet) and joining with MotherDuck cloud tables causes data to be uploaded via Bridge. Large local files will bottleneck on network upload speed."
      "Consider uploading the local data to MotherDuck first (CREATE TABLE ... AS SELECT * FROM read_csv(...)), then join cloud-to-cloud for better performance."
      .network]
  else []

/-- Rule 22: verbose `GROUP BY`. -/
def rule22 (sql : Str) : List Finding :=
  if testP groupByVerboseP sql then
    [finding "group-by-verbose" .info "Verbose GROUP BY"
      "DuckDB supports GROUP BY ALL which automatically groups by all non-aggregated columns. This reduces errors when modifying the SELECT list."
      "Replace the explicit column list with GROUP BY ALL for convenience."
      .bestPractice]
  else []

/-- Rule 23: `SELECT *` from a remote file. -/
def rule23 (sql : Str) : List Finding :=
  if testP fromRemoteHttpP sql && testP selectStarTextP sql then
    [finding "remote-file-select-star" .error "SELECT * from remote file"
      "Reading all columns from a remote Parquet/CSV file downloads the entire file over the network. This is extremely slow for wide tables."
      "Select only the columns you need. For remote Parquet, DuckDB can do column pruning and predicate pushdown — but only if you specify columns and WHERE filters."
      .network]
  else []

/-- Rule 24: `OUT OF MEMORY` / `OOM` keyword. -/
def rule24 (sql : Str) : List Finding :=
  if containsCI "OUT OF MEMORY" sql || containsCI "OOM" sql then
    [finding "md-duckling-size" .info "Consider a larger Duckling size"
      "If this query runs out of memory on MotherDuck, consider upgrading from Pulse to Standard, Jumbo, Mega, or Giga Ducklings for more memory."
      "Change your Duckling size in MotherDuck settings. Also try SET preserve_insertion_order = false; and SET temp_directory to enable spilling."
      .memory]
  else []

/-- Rule 25: `list_transform()`. -/
def rule25 (sql : Str) : List Finding :=
  if testP listTransformP sql then
    [withLoc sql "list_transform(".toList (finding "list-transform" .info
      "list_transform() — in-memory list processing"
      "list_transform() applies a lambda to every element of a list in memory. When combined with other list operations (list_concat, flatten, array_to_string), the entire chain is non-spillable."
      "Consider whether this transformation can be done at ingest time or via a simpler SQL expression. For string building, a CTE with UNNEST + string_agg may give the optimizer more room."
      .memory (some "list_transform(".toList))]
  else []

/-- Rule 26: `PIVOT`; condition `(A && !B) || C` as in the source. -/
def rule26 (sql : Str) : List Finding :=
  if (testP pivotP sql && !testP unpivotP sql) || testChain pivotUsingChain sql then
    [finding "non-spillable-pivot" .error
      "PIVOT uses list() internally — cannot spill to disk"
      "DuckDB's PIVOT statement internally uses the list() aggregate to collect values before spreading them into columns. Since list() cannot spill to disk, PIVOT on large datasets or high-cardinality pivot columns will cause out-of-memory crashes. This is documented in the DuckDB \"Tuning Workloads\" guide as a non-spillable operator."
      "Consider: (1) pre-filter or pre-aggregate data before pivoting to reduce input size, (2) limit the number of distinct pivot values with a WHERE or IN clause on the pivot column, (3) break the pivot into smaller batches by partitioning the data, or (4) use a manual CASE WHEN approach: SUM(CASE WHEN flag = 'X' THEN 1 ELSE 0 END) AS x — which uses only spillable operators."
      .memory (some "pivot".toList)]
  else []

/-- Rule 27: many `LEFT JOIN ... ON TRUE`. -/
def rule27 (sql : Str) : List Finding :=
  let leftJoinOnTrue := countP leftJoinOnTrueP sql
  if leftJoinOnTrue ≥ 5 then
    [finding "many-left-join-on-true" .info
      (toString leftJoinOnTrue ++ " LEFT JOIN ... ON TRUE")
      ("This query uses LEFT JOIN ... ON TRUE " ++ toString leftJoinOnTrue ++
       " times to combine CTE results. This is a valid pattern when each CTE returns a single row, but if any CTE unexpectedly returns multiple rows, the result will silently multiply.")
      "Consider adding an assertion or defensive LIMIT 1 to CTEs that are expected to return a single row. Alternatively, use scalar subqueries in the final SELECT."
      .bestPractice]
  else []

/-- Rule 28: non-spillable ordered-set aggregates. -/
def rule28 (sql : Str) : List Finding :=
  match findAllP medianP sql with
  | [] => []
  | m :: rest =>
    [withLoc sql m (finding "non-spillable-median" .warning
      ("Non-spillable ordered-set aggregate (" ++ toString (m :: rest).length ++ "x)")
      ("This query uses " ++ toString (m :: rest).length ++
       " ordered-set aggregate(s) (MEDIAN, QUANTILE, PERCENTILE_CONT/DISC, or MODE). These functions must sort all input values in memory to compute exact results and cannot spill to disk. On large datasets or high-cardinality groups, this causes OOM crashes.")
      "Use APPROX_QUANTILE(col, 0.5) instead of MEDIAN() for approximate results with bounded memory. For MODE(), pre-aggregate with COUNT(*) and take the top row. Pre-filter data to reduce input size."
      .memory (some m))]

/-- Rule 29: `UNNEST()` on columns. -/
def rule29 (sql : Str) : List Finding :=
  match findAllP unnestP sql with
  | [] => []
  | m :: _ =>
    [withLoc sql m (finding "unnest-large-expansion" .warning
      "UNNEST() may cause large row expansion"
      "UNNEST() on a column explodes array values into individual rows. If arrays are large, row counts and memory usage can multiply dramatically — especially when combined with subsequent joins or aggregations."
      "Filter rows before UNNEST to limit input size. Consider using list functions (list_filter, list_transform) to process arrays without expanding them into rows."
      .memory (some m))]

/-- Rule 30: `WITH RECURSIVE` without a termination guard. -/
def rule30 (sql : Str) : List Finding :=
  if testP withRecursiveP sql then
    let hasLimit := testChain recursiveLimitChain sql
    let hasDepthCheck := testP (depthCmpP "depth") sql || testP (depthCmpP "level") sql ||
      testP (depthPlus1P "depth") sql || testP (depthPlus1P "level") sql
    let hasUsingKey := testP usingKeyP sql
    if !hasLimit && !hasDepthCheck && !hasUsingKey then
      [withLoc sql "WITH RECURSIVE".toList (finding "recursive-cte-no-limit" .warning
        "Recursive CTE without termination guard"
        "WITH RECURSIVE without a LIMIT, depth counter, or USING KEY clause risks infinite recursion. DuckDB will keep expanding rows until memory is exhausted, causing an OOM crash."
        "Add a depth counter (e.g., depth + 1 in the recursive term and WHERE depth < N), add a LIMIT clause, or use USING KEY to avoid revisiting rows."
        .memory (some "WITH RECURSIVE".toList))]
    else []
  else []

/-- Rule 31: `CREATE TABLE ... AS SELECT`. -/
def rule31 (sql : Str) : List Finding :=
  if testChain ctasChain sql then
    [withLoc sql "CREATE".toList (finding "ctas-memory" .info
      "CREATE TABLE AS SELECT materializes fully in memory"
      "CREATE TABLE ... AS SELECT (CTAS) materializes the entire query result before writing to disk because DuckDB preserves insertion order by default. For large result sets, this can exhaust memory."
      "Run SET preserve_insertion_order = false; before the CTAS to allow streaming writes with significantly less memory. This is safe when row order does not matter."
      .memory (some "CREATE TABLE".toList))]
  else []

/-- Rule 32: `IN (...)` with 50+ literal values. -/
def rule32 (sql : Str) : List Finding :=
  match findAllP largeInListP sql with
  | [] => []
  | m :: _ =>
    [withLoc sql (m.take 30) (finding "large-in-list" .warning
      "Large IN list (50+ values)"
      "An IN clause with 50+ literal values adds significant parse overhead and usually indicates a missing dimension table. The parser must process every value, and the resulting filter cannot benefit from join optimizations."
      "Load the values into a CTE or temp table and use a SEMI JOIN (WHERE EXISTS or INNER JOIN) instead: WITH vals AS (SELECT UNNEST([...]) AS v) SELECT ... FROM t WHERE t.col IN (SELECT v FROM vals)."
      .performance (some (m.take 40 ++ "...".toList)))]

/-- Rule 33: remote file scan without a `WHERE` filter. -/
def rule33 (sql : Str) : List Finding :=
  if testP remoteReadP sql then
    if !testP whereWordP sql then
      [finding "read-remote-no-filter" .warning
        "Remote file scan without WHERE filter"
        "Reading remote files (S3, HTTP, GCS) without a WHERE clause downloads all row groups. DuckDB can push down predicates to skip row groups in remote Parquet files via min/max statistics, but only if you provide a filter."
        "Add a WHERE clause on partition or sort columns to enable predicate pushdown and row group skipping. This can dramatically reduce the amount of data transferred over the network."
        .network]
    else []
  else []

/-- Rule 34: multiple remote file scans. -/
def rule34 (sql : Str) : List Finding :=
  match findAllP remoteReadP sql with
  | [] => []
  | m :: rest =>
    if (m :: rest).length ≥ 2 then
      [withLoc sql m (finding "multiple-remote-scans" .warning
        (toString (m :: rest).length ++ " remote file scans in one query")
        ("This query reads from " ++ toString (m :: rest).length ++
         " remote files. Each remote scan incurs network latency, and DuckDB must coordinate multiple HTTP connections in parallel. Combined bandwidth and round-trip delays compound, especially for large files.")
        "Materialize dimension tables into local or MotherDuck tables first (CREATE TABLE dim AS SELECT ... FROM read_parquet('s3://...')), then join against the local copy. This avoids repeated remote fetches."
        .network (some m))]
    else []

/-- Rule 35: deep glob patterns on remote files. -/
def rule35 (sql : Str) : List Finding :=
  if testP globRemoteP sql then
    [finding "glob-many-files" .info "Deep glob pattern (**) on remote files"
      "Using ** in a remote file path triggers recursive directory listing, which requires many network round-trips to enumerate all files. This can be very slow on deep directory structures, especially on S3 where each LIST operation has latency."
      "Use Hive-style partitioning (e.g., read_parquet('s3://bucket/table/*/*.parquet', hive_partitioning=true)) or narrow the glob to specific subdirectories to reduce the number of LIST calls."
      .performance]
  else []

/-- Rule 36: temporal join via window function (`ASOF JOIN` opportunity). -/
def rule36 (sql : Str) : List Finding :=
  let hasInequalityJoin := testChain inequalityJoinChain sql
  let hasAsofPattern := testChain asofChain sql
  if hasInequalityJoin || (hasAsofPattern && testP rankWindowP sql) then
    [finding "temporal-join-via-window" .info
      "Consider ASOF JOIN for temporal matching"
      "This query appears to use an inequality join combined with a window function (ROW_NUMBER, LAST_VALUE) to find the \"nearest\" or \"most recent\" match. DuckDB natively supports ASOF JOIN, which is purpose-built for this pattern and is faster and uses less memory."
      "Rewrite as: SELECT * FROM events ASOF JOIN prices ON events.ts >= prices.ts. ASOF JOIN efficiently finds the nearest match without the window function overhead."
      .performance (some "ASOF JOIN".toList)]
  else []

/-- Rule 37: an `OR` chain instead of `IN`. -/
def rule37 (sql : Str) : List Finding :=
  if testP orChainP sql then
    [finding "or-chain-instead-of-in" .info
      "OR chain can be simplified to IN (...)"
      "Multiple OR conditions on the same column (col = 'a' OR col = 'b' OR ...) are verbose and harder to read. DuckDB optimizes IN lists into efficient hash lookups."
      "Replace with: col IN ('a', 'b', 'c', 'd'). This is more readable and may be optimized differently by the query planner."
      .bestPractice]
  else []

/-- Rule 38: `BETWEEN` on temporal columns. -/
def rule38 (sql : Str) : List Finding :=
  if testP betweenTemporalP sql || testP betweenQuotedDatesP sql then
    [finding "between-timestamp" .info "BETWEEN on temporal column"
      "BETWEEN uses a closed-closed interval ([start, end]), which includes both boundary values. For temporal data, this causes boundary rows to appear in two adjacent bins (e.g., a row at midnight belongs to both \"yesterday\" and \"today\"). This is a common source of double-counting in time-series analysis."
      "Use half-open intervals instead: col >= '2024-01-01' AND col < '2024-02-01'. This ensures each row belongs to exactly one bin."
      .bestPractice]
  else []

/-- Rule 39: `SELECT *` chained through multiple CTEs. -/
def rule39 (sql : Str) : List Finding :=
  if countP cteSelectStarP sql ≥ 2 && finalSelectStarTest sql then
    [finding "chained-select-star" .info
      "SELECT * chained through multiple CTEs"
      "Using SELECT * in multiple CTEs and the final query defeats column pruning at every materialization stage. DuckDB materializes each CTE, so every column is carried through every intermediate step even if only a few columns are needed at the end."
      "Specify only the needed columns in early CTEs to enable column pruning. You can also use SELECT * EXCLUDE (col1, col2) to drop unneeded columns early in the pipeline."
      .performance]
  else []

/-- Rule 40: joins across different database prefixes. -/
def rule40 (sql : Str) : List Finding :=
  let dbQualifiedTables := findAllP dbQualifiedP sql
  if dbQualifiedTables.length ≥ 2 then
    let dbPrefixes := (dbQualifiedTables.map (fun t => jsLower (t.takeWhile (· ≠ '.')))).dedup
    if dbPrefixes.length ≥ 2 then
      [finding "md-cross-database-join" .info "Cross-database join detected"
        ("This query references tables from " ++ toString dbPrefixes.length ++
         " different databases (" ++
         String.intercalate ", " (dbPrefixes.map (fun l => String.mk l)) ++
         "). On MotherDuck, cross-database joins may require transferring data between storage locations, adding network overhead.")
        "If both databases are on MotherDuck, consider consolidating frequently-joined tables into the same database. If one side is small, materialize it locally first."
        .network]
    else []
  else []

/-- `regexRules` (`rules.ts`): the pattern-rule findings, in declaration
order. -/
def regexRules (sql : Str) : List Finding :=
  rule1 sql ++ rule2 sql ++ rule3 sql ++ rule4 sql ++ rule5 sql ++ rule6 sql ++
  rule7 sql ++ rule8 sql ++ rule9 sql ++ rule10 sql ++ rule11 sql ++ rule12 sql ++
  rule13 sql ++ rule14 sql ++ rule15 sql ++ rule16 sql ++ rule17 sql ++ rule18 sql ++
  rule19 sql ++ rule20 sql ++ rule21 sql ++ rule22 sql ++ rule23 sql ++ rule24 sql ++
  rule25 sql ++ rule26 sql ++ rule27 sql ++ rule28 sql ++ rule29 sql ++ rule30 sql ++
  rule31 sql ++ rule32 sql ++ rule33 sql ++ rule34 sql ++ rule35 sql ++ rule36 sql ++
  rule37 sql ++ rule38 sql ++ rule39 sql ++ rule40 sql

end QueryOpt

namespace QueryOpt

/-!
## `preprocessForParser` (`index.ts`)
-/

/-- Leftmost match of `pat` in `s`: the prefix before the match and the match
length. -/
def findSplit (pat : Pat) (prev : Option Char) (s : Str) : Option (Str × Nat) :=
  match s with
  | [] => none
  | c :: r =>
    match pat prev (c :: r) with
    | some n => some ([], n)
    | none => (findSplit pat (some c) r).map (fun pr => (c :: pr.1, pr.2))

/-- The `while (i < s.length && depth > 0)` scan of `replaceBalancedCall`:
given the characters after the opening parenthesis, the number of characters
consumed up to and including the balancing `)`, if the parentheses close. -/
def scanClose : Str → Nat → Option Nat
  | [], _ => none
  | c :: r, depth =>
    let d := if c = '(' then depth + 1 else if c = ')' then depth - 1 else depth
    if d = 0 then some 1 else (scanClose r d).map (· + 1)

/-- `` new RegExp(`\\b${funcName}\\s*\\(`, 'gi') `` — the call-head pattern of
`replaceBalancedCall`. -/
def callHeadP (funcName : String) : Pat := withB (cat [lit funcName, ws0, lit "("])

/-- The loop body of `replaceBalancedCall`: `done` is the already-scanned
output (the regex `lastIndex` points at its end), `rest` the remainder.  On a
balanced match the call is replaced and scanning resumes right after the
replacement; on an unbalanced match `lastIndex` is left at the end of the
head match. -/
def rbcGo (funcName : String) (repl : Str) : Nat → Str → Str → Str
  | 0, done, rest => done ++ rest
  | _ + 1, done, [] => done
  | fuel + 1, done, c :: r =>
    match findSplit (callHeadP funcName) done.getLast? (c :: r) with
    | none => done ++ c :: r
    | some (pre, n + 1) =>
      let afterMatch := (c :: r).drop (pre.length + (n + 1))
      match scanClose afterMatch 1 with
      | some off =>
        rbcGo funcName repl fuel (done ++ pre ++ repl) (afterMatch.drop off)
      | none =>
        rbcGo funcName repl fuel (done ++ pre ++ ((c :: r).drop pre.length).take (n + 1))
          afterMatch
    | some (_, 0) => done ++ c :: r

/-- `replaceBalancedCall(s, funcName, replacement)` (`index.ts`).  Every loop
iteration drops at least one character of the remainder, so the fuel
`s.length + 1` is never exhausted. -/
def replaceBalancedCall (s : Str) (funcName : String) (repl : Str) : Str :=
  rbcGo funcName repl (s.length + 1) [] s

/-- `s.replace(/::[A-Za-z_][A-Za-z0-9_]*(\[\])?/g, '')` (`index.ts`):
the suffix-cast stripper. -/
def castStripGo : Nat → Str → Str
  | 0, s => s
  | _ + 1, [] => []
  | fuel + 1, ':' :: ':' :: c :: rest =>
    if wordChar c && !digitChar c then
      let run := rest.takeWhile wordChar
      let after := rest.drop run.length
      let bracket : Nat :=
        match after with
        | '[' :: ']' :: _ => 2
        | _ => 0
      castStripGo fuel (after.drop bracket)
    else ':' :: castStripGo fuel (':' :: c :: rest)
  | fuel + 1, c :: rest => c :: castStripGo fuel rest

def castStrip (s : Str) : Str := castStripGo (s.length + 1) s

/-- `(?:"\w+"\.)*"?\w+"?` — the table-reference capture of the PIVOT/UNPIVOT
rewrites. -/
def tblRefP : P0 := fun s =>
  let quotedDot : P0 := cat [lit "\"", word1, lit "\"", lit "."]
  let r := repCountF quotedDot s
  (cat [optP (lit "\""), word1, optP (lit "\"")] (s.drop r.2)).map (r.2 + ·)

/-- `\bUSING\s+\w+\s*\([^)]*\)` — the tail of the PIVOT rewrite. -/
def usingTailP : Pat :=
  withB (cat [lit "using", ws1, word1, ws0, lit "(", argsCloseParen])

/-- `\bIN\s*\([^)]*\)` — the tail of the UNPIVOT rewrite. -/
def inTailP : Pat := withB (cat [lit "in", ws0, lit "(", argsCloseParen])

/-- Leftmost match of `pat` with its offset. -/
def firstMatchOff (pat : Pat) (prev : Option Char) (s : Str) : Option (Nat × Nat) :=
  match s with
  | [] =>
    match pat prev [] with
    | some n => some (0, n)
    | none => none
  | c :: r =>
    match pat prev (c :: r) with
    | some n => some (0, n)
    | none => (firstMatchOff pat (some c) r).map (fun q => (q.1 + 1, q.2))

/-- `(?:\s*,\s*\w+\s*\([^)]*\))*` — the greedy extra-aggregate iterations of
the PIVOT rewrite. -/
def pivotExtraIter : P0 := cat [ws0, lit ",", ws0, word1, ws0, lit "(", argsCloseParen]

/-- One match of the PIVOT rewrite regex
`/\bPIVOT\s+((?:"\w+"\.)*"?\w+"?)\s+ON\s+[\s\S]*?\bUSING\s+\w+\s*\([^)]*\)(?:\s*,\s*\w+\s*\([^)]*\))*\/gi`
at this position: total length and the captured table reference. -/
def pivotMatchAt (prev : Option Char) (s : Str) : Option (Nat × Str) :=
  if bOK prev then
    (cat [lit "pivot", ws1] s).bind fun n1 =>
      (tblRefP (s.drop n1)).bind fun nT =>
        (cat [ws1, lit "on", ws1] (s.drop (n1 + nT))).bind fun n2 =>
          let base := n1 + nT + n2
          (firstMatchOff usingTailP ((s.take base).getLast?) (s.drop base)).map
            fun (off, nU) =>
              let core := base + off + nU
              let extras := repCountF pivotExtraIter (s.drop core)
              (core + extras.2, (s.drop n1).take nT)
  else none

/-- One match of the UNPIVOT rewrite regex
`/\bUNPIVOT\s+((?:"\w+"\.)*"?\w+"?)\s+ON\s+[\s\S]*?\bIN\s*\([^)]*\)/gi`. -/
def unpivotMatchAt (prev : Option Char) (s : Str) : Option (Nat × Str) :=
  if bOK prev then
    (cat [lit "unpivot", ws1] s).bind fun n1 =>
      (tblRefP (s.drop n1)).bind fun nT =>
        (cat [ws1, lit "on", ws1] (s.drop (n1 + nT))).bind fun n2 =>
          let base := n1 + nT + n2
          (firstMatchOff inTailP ((s.take base).getLast?) (s.drop base)).map
            fun (off, nU) => (base + off + nU, (s.drop n1).take nT)
  else none

/-- Global replace driven by a positioned matcher, substituting
`SELECT * FROM $1`. -/
def reshapeGo (matchAt : Option Char → Str → Option (Nat × Str)) :
    Nat → Str → Str → Str
  | 0, done, rest => done ++ rest
  | _ + 1, done, [] => done
  | fuel + 1, done, c :: r =>
    match matchAt done.getLast? (c :: r) with
    | some (n + 1, tbl) =>
      reshapeGo matchAt fuel (done ++ "SELECT * FROM ".toList ++ tbl) ((c :: r).drop (n + 1))
    | _ => reshapeGo matchAt fuel (done ++ [c]) r

/-- `preprocessForParser` (`index.ts`): cast stripping, the five balanced-call
replacements, and the PIVOT / UNPIVOT rewrites, in source order. -/
def preprocessForParser (sql : Str) : Str :=
  let s := castStrip sql
  let s := replaceBalancedCall s "list_transform" "NULL".toList
  let s := replaceBalancedCall s "json_extract_string" "NULL".toList
  let s := replaceBalancedCall s "json_each" "(SELECT 1)".toList
  let s := replaceBalancedCall s "LIST" "ARRAY_AGG(1)".toList
  let s := replaceBalancedCall s "struct_pack" "ROW(1)".toList
  let s := reshapeGo pivotMatchAt (s.length + 1) [] s
  reshapeGo unpivotMatchAt (s.length + 1) [] s

/-!
## `runRules` and `analyze`
-/

/-- What `parser.astify` may return: one node or an array of nodes. -/
inductive AstVal where
  | single (a : Ast)
  | multi (l : List (Option Ast))

/-- `const asts = Array.isArray(ast) ? ast : [ast];` — with `ast = null` when
parsing failed. -/
def astsOf : Option AstVal → List (Option Ast)
  | none => [none]
  | some (.single a) => [some a]
  | some (.multi l) => l

/-- The five structural-rule invocations of `runRules`, in order. -/
def structuralForAst (a : Ast) (sql : Str) : List Finding :=
  checkSelectStar a sql ++ checkOrderByWithoutLimit a sql ++ checkCrossJoin a sql ++
  checkNestedSubqueries a sql 0 ++ checkJoinWithoutCondition a sql

/-- The structural findings over all top-level nodes (`if (!node) continue`). -/
def structuralFindings (v : Option AstVal) (sql : Str) : List Finding :=
  (astsOf v).foldr (fun n acc =>
    (match n with
     | some a => structuralForAst a sql
     | none => []) ++ acc) []

/-- `runRules(ast, sql)` (`rules.ts`): structural findings, then pattern
findings, deduplicated by `ruleId` keeping the first occurrence. -/
def runRules (v : Option AstVal) (sql : Str) : List Finding :=
  dedupByRuleId (structuralFindings v sql ++ regexRules sql)

/-- A thrown JS value: an `Error` carrying a message, or any other value
(`e instanceof Error ? e.message : 'Failed to parse SQL'`). -/
inductive JsThrown where
  | jsError (msg : String)
  | nonError

def errMsg : JsThrown → String
  | .jsError m => m
  | .nonError => "Failed to parse SQL"

/-- `AnalysisResult` (`types.ts`). -/
structure AnalysisResult where
  findings : List Finding
  parseError : Option String
  deriving DecidableEq, Repr

/-- The external parser (`parser.astify` with the DuckDB dialect hint),
modelled as an oracle: a result tree or a thrown value. -/
abbrev Parser := Str → Except JsThrown AstVal

/-- The try/catch ladder of `analyze`: the direct parse attempt, then the
preprocessed retry; yields the `ast` value (null on double failure) and the
`parseError` string. -/
def parseOutcome (parse : Parser) (trimmed : Str) : Option AstVal × Option String :=
  match parse trimmed with
  | .ok ast => (some ast, none)
  | .error _ =>
    match parse (preprocessForParser trimmed) with
    | .ok ast => (some ast, none)
    | .error e => (none, some (errMsg e))

/-- `analyze(sql)` (`index.ts`): trim; short-circuit on empty; direct parse,
then preprocessed retry (`parseOutcome`); run the rules on the ORIGINAL
trimmed text. -/
def analyze (parse : Parser) (sql : Str) : AnalysisResult :=
  let trimmed := jsTrim sql
  if trimmed.isEmpty then { findings := [], parseError := none }
  else
    let r := parseOutcome parse trimmed
    { findings := runRules r.1 trimmed, parseError := r.2 }

end QueryOpt

namespace QueryOpt

/-!
## Lemmas about `dedupByRuleId`
-/

theorem dedupGo_sublist (seen : List String) (l : List Finding) :
    (dedupByRuleId.go seen l).Sublist l := by
  induction l generalizing seen with
  | nil => simp [dedupByRuleId.go]
  | cons f rest ih =>
    simp only [dedupByRuleId.go]
    split
    · exact (ih seen).cons f
    · exact (ih (f.ruleId :: seen)).cons₂ f

theorem dedupGo_not_seen (seen : List String) (l : List Finding) :
    ∀ f ∈ dedupByRuleId.go seen l, f.ruleId ∉ seen := by
  induction l generalizing seen with
  | nil => simp [dedupByRuleId.go]
  | cons f rest ih =>
    intro g hg
    simp only [dedupByRuleId.go] at hg
    split at hg
    · exact ih seen g hg
    · rename_i hnot
      rcases List.mem_cons.mp hg with h | h
      · rw [h]; exact hnot
      · intro hsg
        exact ih (f.ruleId :: seen) g h (List.mem_cons_of_mem _ hsg)

theorem dedupGo_nodup (seen : List String) (l : List Finding) :
    ((dedupByRuleId.go seen l).map Finding.ruleId).Nodup := by
  induction l generalizing seen with
  | nil => simp [dedupByRuleId.go]
  | cons f rest ih =>
    show (List.map Finding.ruleId (dedupByRuleId.go seen (f :: rest))).Nodup
    simp only [dedupByRuleId.go]
    split
    · exact ih seen
    · simp only [List.map_cons, List.nodup_cons]
      refine ⟨?_, ih (f.ruleId :: seen)⟩
      intro hmem
      rcases List.mem_map.mp hmem with ⟨g, hg, hgid⟩
      exact dedupGo_not_seen (f.ruleId :: seen) rest g hg (by
        rw [hgid]; exact List.mem_cons_self _ _)

theorem dedupGo_find? (seen : List String) (l : List Finding) (r : String)
    (hr : r ∉ seen) :
    (dedupByRuleId.go seen l).find? (fun f => f.ruleId == r) =
      l.find? (fun f => f.ruleId == r) := by
  induction l generalizing seen with
  | nil => simp [dedupByRuleId.go]
  | cons f rest ih =>
    show List.find? (fun f => f.ruleId == r) (dedupByRuleId.go seen (f :: rest)) = _
    simp only [dedupByRuleId.go]
    split
    · rename_i hseen
      have hid : ¬ f.ruleId = r := by
        intro hc
        exact hr (hc ▸ hseen)
      rw [List.find?_cons_of_neg _ (by simp [hid]), ih seen hr]
    · by_cases hid : f.ruleId = r
      · rw [List.find?_cons_of_pos _ (by simp [hid]),
          List.find?_cons_of_pos _ (by simp [hid])]
      · rw [List.find?_cons_of_neg _ (by simp [hid]),
          List.find?_cons_of_neg _ (by simp [hid])]
        refine ih (f.ruleId :: seen) ?_
        simp only [List.mem_cons, not_or]
        exact ⟨fun h => hid h.symm, hr⟩

/-- The dedup filter keeps exactly the first finding per `ruleId`. -/
theorem dedup_find? (l : List Finding) (r : String) :
    (dedupByRuleId l).find? (fun f => f.ruleId == r) =
      l.find? (fun f => f.ruleId == r) :=
  dedupGo_find? [] l r (by simp)

theorem dedup_nodup (l : List Finding) :
    ((dedupByRuleId l).map Finding.ruleId).Nodup :=
  dedupGo_nodup [] l

theorem dedup_sublist (l : List Finding) : (dedupByRuleId l).Sublist l :=
  dedupGo_sublist [] l

theorem mem_dedup (l : List Finding) (f : Finding) (h : f ∈ dedupByRuleId l) :
    f ∈ l :=
  (dedup_sublist l).mem h

/-- If the ruleIds of a list are nodup and some member has ruleId `r`, exactly
one member has ruleId `r`. -/
theorem count_eq_one_of_nodup (l : List Finding) (r : String)
    (hnd : (l.map Finding.ruleId).Nodup) (hex : ∃ f ∈ l, f.ruleId = r) :
    (l.filter (fun f => f.ruleId == r)).length = 1 := by
  induction l with
  | nil => simp at hex
  | cons f rest ih =>
    simp only [List.map_cons, List.nodup_cons] at hnd
    by_cases hid : f.ruleId = r
    · have : rest.filter (fun f => f.ruleId == r) = [] := by
        rw [List.filter_eq_nil_iff]
        intro g hg
        simp only [beq_iff_eq]
        intro hgr
        exact hnd.1 (List.mem_map.mpr ⟨g, hg, by rw [hgr, hid]⟩)
      simp [List.filter_cons, hid, this]
    · rcases hex with ⟨g, hg, hgr⟩
      rcases List.mem_cons.mp hg with hg | hg
      · exact absurd (hg ▸ hgr) hid
      · simp only [List.filter_cons, beq_iff_eq, hid, if_false]
        exact ih hnd.2 ⟨g, hg, hgr⟩

/-!
## Lemmas about `locate`
-/

theorem idxOf_sound (hay needle : Str) (i : Nat) (h : idxOf hay needle = some i) :
    needle.isPrefixOf (hay.drop i) ∧ i + needle.length ≤ hay.length := by
  induction hay generalizing i with
  | nil =>
    simp only [idxOf] at h
    split at h
    · rename_i hn
      cases h
      subst hn
      simp [List.isPrefixOf]
    · cases h
  | cons c rest ih =>
    simp only [idxOf] at h
    split at h
    · rename_i hp
      cases h
      refine ⟨by simpa using hp, ?_⟩
      have := (List.isPrefixOf_iff_prefix.mp hp).length_le
      simpa using this
    · rcases Option.map_eq_some'.mp h with ⟨j, hj, hij⟩
      rcases ih j hj with ⟨h1, h2⟩
      subst hij
      exact ⟨by simpa using h1, by simp; omega⟩

theorem lower_length (s : Str) : (lower s).length = s.length := by
  simp [lower]

theorem toNat_ofNat_valid (n : Nat) (h : n.isValidChar) : (Char.ofNat n).toNat = n := by
  unfold Char.ofNat
  rw [dif_pos h]
  rfl

/-- `lc` maps ASCII characters to ASCII characters. -/
theorem lc_ascii (c : Char) (h : c.toNat < 128) : (lc c).toNat < 128 := by
  unfold lc
  split
  · rename_i hr
    simp only [Bool.and_eq_true, decide_eq_true_eq] at hr
    have h1 : c.toNat ≤ 90 := by
      have h2 := hr.2
      rw [Char.le_def] at h2
      exact h2
    rw [toNat_ofNat_valid _ (Or.inl (by omega))]
    omega
  · exact h

theorem jsLowerChar_not_dot (c : Char) (h : c ≠ 'İ') : jsLowerChar c = [lc c] := by
  unfold jsLowerChar
  rw [if_neg h]

/-- On a `İ`-free string full lowercasing is the character-wise fold. -/
theorem jsLower_eq_lower (s : Str) (h : ∀ c ∈ s, c ≠ 'İ') : jsLower s = lower s := by
  induction s with
  | nil => rfl
  | cons c r ih =>
    have e1 : jsLower (c :: r) = jsLowerChar c ++ jsLower r := rfl
    rw [e1, jsLowerChar_not_dot c (h c (List.mem_cons_self c r)),
      ih (fun d hd => h d (List.mem_cons_of_mem c hd))]
    rfl

theorem ne_dotI_of_ascii {c : Char} (h : c.toNat < 128) : c ≠ 'İ' := by
  intro e
  subst e
  exact absurd h (by decide)

theorem ascii_not_dot {s : Str} (h : ∀ c ∈ s, c.toNat < 128) : ∀ c ∈ s, c ≠ 'İ' :=
  fun c hc => ne_dotI_of_ascii (h c hc)

/-- On an ASCII haystack `locate` succeeds only for `İ`-free needles: `İ`
lowercases to `i` + U+0307, and U+0307 cannot occur in the folded ASCII
haystack. -/
theorem locate_needle_not_dot (sql nd : Str) (off : Offset)
    (hascii : ∀ c ∈ sql, c.toNat < 128) (h : locate sql nd = some off) :
    ∀ c ∈ nd, c ≠ 'İ' := by
  intro c hc he
  subst he
  unfold locate at h
  split at h
  · cases h
  · rename_i i hi
    rcases idxOf_sound _ _ _ hi with ⟨h1, h2⟩
    have hdot : '\u0307' ∈ jsLower nd := by
      unfold jsLower
      refine List.mem_flatMap.mpr ⟨'İ', hc, ?_⟩
      unfold jsLowerChar
      rw [if_pos rfl]
      simp
    have hseg := List.isPrefixOf_iff_prefix.mp h1
    have hmem : '\u0307' ∈ (jsLower sql).drop i := hseg.sublist.subset hdot
    have hmem2 : '\u0307' ∈ jsLower sql := List.mem_of_mem_drop hmem
    rw [jsLower_eq_lower sql (ascii_not_dot hascii)] at hmem2
    rcases List.mem_map.mp hmem2 with ⟨a, ha, hla⟩
    have h3 := lc_ascii a (hascii a ha)
    rw [hla] at h3
    exact absurd h3 (by decide)

theorem locate_sound (sql needle : Str) (off : Offset)
    (hsql : ∀ c ∈ sql, c ≠ 'İ') (hfree : ∀ c ∈ needle, c ≠ 'İ')
    (h : locate sql needle = some off) :
    off.end = off.start + needle.length ∧ off.end ≤ sql.length ∧
    lower ((sql.drop off.start).take needle.length) = lower needle := by
  unfold locate at h
  rw [jsLower_eq_lower sql hsql, jsLower_eq_lower needle hfree] at h
  split at h
  · cases h
  · rename_i i hi
    cases h
    rcases idxOf_sound _ _ _ hi with ⟨h1, h2⟩
    refine ⟨rfl, ?_, ?_⟩
    · simpa [lower_length] using h2
    · have hpfx := List.isPrefixOf_iff_prefix.mp h1
      have : (lower needle).length ≤ ((lower sql).drop i).length := hpfx.length_le
      have heq := List.prefix_iff_eq_take.mp hpfx
      calc lower ((sql.drop i).take needle.length)
          = ((lower sql).drop i).take needle.length := by
            simp [lower, List.map_take, List.map_drop]
        _ = ((lower sql).drop i).take (lower needle).length := by
            simp [lower_length]
        _ = lower needle := by rw [← heq]

/-- A nonempty `İ`-free needle that `locate` finds in a `İ`-free haystack
yields a nonempty in-bounds range whose text equals the needle
case-insensitively. -/
theorem locate_range (sql needle : Str) (off : Offset) (hne : needle ≠ [])
    (hsql : ∀ c ∈ sql, c ≠ 'İ') (hfree : ∀ c ∈ needle, c ≠ 'İ')
    (h : locate sql needle = some off) :
    off.start < off.end ∧ off.end ≤ sql.length ∧
    lower ((sql.drop off.start).take (off.end - off.start)) = lower needle := by
  rcases locate_sound sql needle off hsql hfree h with ⟨h1, h2, h3⟩
  have hlen : 0 < needle.length := List.length_pos.mpr hne
  refine ⟨by omega, h2, ?_⟩
  have : off.end - off.start = needle.length := by omega
  rw [this]
  exact h3

end QueryOpt

namespace QueryOpt

def OffsetsOk (sql : Str) (f : Finding) : Prop :=
  ∀ off, f.offset = some off → ∃ nd, nd ≠ [] ∧ locate sql nd = some off

theorem withLoc_ruleId (sql nd : Str) (f : Finding) :
    (withLoc sql nd f).ruleId = f.ruleId := by
  unfold withLoc; split <;> rfl

theorem finding_offset (r sv t m sg c fr) :
    (finding r sv t m sg c fr).offset = none := rfl

theorem offsetsOk_of_none (sql : Str) (f : Finding) (h : f.offset = none) :
    OffsetsOk sql f := by
  intro off hoff
  rw [h] at hoff
  cases hoff

theorem withLoc_offsetsOk (sql nd : Str) (f : Finding) (hnd : nd ≠ [])
    (hf : f.offset = none) : OffsetsOk sql (withLoc sql nd f) := by
  unfold withLoc
  split
  · rename_i loc hloc
    intro off hoff
    simp only at hoff
    cases hoff
    exact ⟨nd, hnd, hloc⟩
  · exact offsetsOk_of_none sql f hf

theorem mem_foldr_push {α β : Type _} (l : List α) (P : α → Prop) [DecidablePred P]
    (h : α → β) :
    ∀ x ∈ l.foldr (fun c acc => if P c then h c :: acc else acc) [], ∃ c ∈ l, P c ∧ x = h c := by
  induction l with
  | nil => simp
  | cons a rest ih =>
    intro x hx
    simp only [List.foldr_cons] at hx
    split at hx
    · rcases List.mem_cons.mp hx with hx | hx
      · exact ⟨a, List.mem_cons_self _ _, by assumption, hx⟩
      · rcases ih x hx with ⟨c, hc, hPc, hxc⟩
        exact ⟨c, List.mem_cons_of_mem _ hc, hPc, hxc⟩
    · rcases ih x hx with ⟨c, hc, hPc, hxc⟩
      exact ⟨c, List.mem_cons_of_mem _ hc, hPc, hxc⟩

def StarP (sql : Str) (f : Finding) : Prop :=
  f.ruleId = "select-star" ∧ OffsetsOk sql f

mutual
theorem checkSelectStar_inv : ∀ (a : Ast) (sql : Str),
    ∀ f ∈ checkSelectStar a sql, StarP sql f
  | .other, _ => by
    intro f hf
    rw [checkSelectStar.eq_def] at hf
    exact absurd hf (List.not_mem_nil f)
  | .select (.mk columns fromF _ _ _), sql => by
    intro f hf
    rw [checkSelectStar.eq_def] at hf
    rcases List.mem_append.mp hf with h | h
    · cases columns with
      | star =>
        rcases List.mem_singleton.mp h with rfl
        exact ⟨withLoc_ruleId _ _ _, withLoc_offsetsOk _ _ _ (by decide) rfl⟩
      | arr cols =>
        rcases mem_foldr_push cols _ _ f h with ⟨c, _, _, hfc⟩
        subst hfc
        exact ⟨rfl, offsetsOk_of_none _ _ rfl⟩
      | other => exact absurd h (List.not_mem_nil f)
    · cases fromF with
      | some fv => exact starFromVal_inv fv sql f h
      | none => exact absurd h (List.not_mem_nil f)
termination_by a _ => sizeOf a

theorem starFromVal_inv : ∀ (fv : FromVal) (sql : Str),
    ∀ f ∈ starFromVal fv sql, StarP sql f
  | .single fi, sql => by
    intro f hf
    rw [starFromVal.eq_def] at hf
    exact starFromItem_inv fi sql f hf
  | .list fs, sql => by
    intro f hf
    rw [starFromVal.eq_def] at hf
    exact starFromList_inv fs sql f hf
termination_by fv _ => sizeOf fv

theorem starFromList_inv : ∀ (fs : List FromItem) (sql : Str),
    ∀ f ∈ starFromList fs sql, StarP sql f
  | [], _ => by
    intro f hf
    rw [starFromList.eq_def] at hf
    exact absurd hf (List.not_mem_nil f)
  | fi :: rest, sql => by
    intro f hf
    rw [starFromList.eq_def] at hf
    rcases List.mem_append.mp hf with h | h
    · exact starFromItem_inv fi sql f h
    · exact starFromList_inv rest sql f h
termination_by fs _ => sizeOf fs

theorem starFromItem_inv : ∀ (fi : FromItem) (sql : Str),
    ∀ f ∈ starFromItem fi sql, StarP sql f
  | .mk (some sub) _ _ _ _, sql => by
    intro f hf
    rw [starFromItem.eq_def] at hf
    exact checkSelectStar_inv sub sql f hf
  | .mk none _ _ _ _, _ => by
    intro f hf
    rw [starFromItem.eq_def] at hf
    exact absurd hf (List.not_mem_nil f)
termination_by fi _ => sizeOf fi
end

end QueryOpt

namespace QueryOpt

theorem checkOrderByWithoutLimit_inv (a : Ast) (sql : Str) :
    ∀ f ∈ checkOrderByWithoutLimit a sql,
      f.ruleId = "order-without-limit" ∧ OffsetsOk sql f := by
  intro f hf
  unfold checkOrderByWithoutLimit at hf
  split at hf
  · exact absurd hf (List.not_mem_nil f)
  · split at hf
    · rcases List.mem_singleton.mp hf with rfl
      exact ⟨withLoc_ruleId _ _ _, withLoc_offsetsOk _ _ _ (by decide) rfl⟩
    · exact absurd hf (List.not_mem_nil f)

theorem checkCrossJoin_inv (a : Ast) (sql : Str) :
    ∀ f ∈ checkCrossJoin a sql,
      f.ruleId = "cross-join" ∧ OffsetsOk sql f := by
  intro f hf
  unfold checkCrossJoin at hf
  split at hf
  · exact absurd hf (List.not_mem_nil f)
  · split at hf
    · exact absurd hf (List.not_mem_nil f)
    · rcases mem_foldr_push _ _ _ f hf with ⟨c, _, _, hfc⟩
      subst hfc
      exact ⟨withLoc_ruleId _ _ _, withLoc_offsetsOk _ _ _ (by decide) rfl⟩

-- Every finding of the deep-nesting family is the fixed `deepFinding`.
mutual
theorem checkNestedSubqueries_inv : ∀ (a : Ast) (sql : Str) (d : Nat),
    ∀ f ∈ checkNestedSubqueries a sql d, f = deepFinding
  | .other, _, _ => by
    intro f hf
    rw [checkNestedSubqueries.eq_def] at hf
    exact absurd hf (List.not_mem_nil f)
  | .select (.mk _ fromF whereE _ _), sql, d => by
    intro f hf
    rw [checkNestedSubqueries.eq_def] at hf
    rcases List.mem_append.mp hf with h | h
    · rcases List.mem_append.mp h with h2 | h2
      · split at h2
        · rcases List.mem_singleton.mp h2 with rfl; rfl
        · exact absurd h2 (List.not_mem_nil f)
      · cases whereE with
        | some w => exact checkExprForSubqueries_inv w sql d f h2
        | none => exact absurd h2 (List.not_mem_nil f)
    · cases fromF with
      | some fv => exact nestedFromVal_inv fv sql d f h
      | none => exact absurd h (List.not_mem_nil f)
termination_by a _ _ => sizeOf a

theorem nestedFromVal_inv : ∀ (fv : FromVal) (sql : Str) (d : Nat),
    ∀ f ∈ nestedFromVal fv sql d, f = deepFinding
  | .single fi, sql, d => by
    intro f hf
    rw [nestedFromVal.eq_def] at hf
    exact nestedFromItem_inv fi sql d f hf
  | .list fs, sql, d => by
    intro f hf
    rw [nestedFromVal.eq_def] at hf
    exact nestedFromList_inv fs sql d f hf
termination_by fv _ _ => sizeOf fv

theorem nestedFromList_inv : ∀ (fs : List FromItem) (sql : Str) (d : Nat),
    ∀ f ∈ nestedFromList fs sql d, f = deepFinding
  | [], _, _ => by
    intro f hf
    rw [nestedFromList.eq_def] at hf
    exact absurd hf (List.not_mem_nil f)
  | fi :: rest, sql, d => by
    intro f hf
    rw [nestedFromList.eq_def] at hf
    rcases List.mem_append.mp hf with h | h
    · exact nestedFromItem_inv fi sql d f h
    · exact nestedFromList_inv rest sql d f h
termination_by fs _ _ => sizeOf fs

theorem nestedFromItem_inv : ∀ (fi : FromItem) (sql : Str) (d : Nat),
    ∀ f ∈ nestedFromItem fi sql d, f = deepFinding
  | .mk (some sub) _ _ _ _, sql, d => by
    intro f hf
    rw [nestedFromItem.eq_def] at hf
    exact checkNestedSubqueries_inv sub sql (d + 1) f hf
  | .mk none _ _ _ _, _, _ => by
    intro f hf
    rw [nestedFromItem.eq_def] at hf
    exact absurd hf (List.not_mem_nil f)
termination_by fi _ _ => sizeOf fi

theorem checkExprForSubqueries_inv : ∀ (e : Expr) (sql : Str) (d : Nat),
    ∀ f ∈ checkExprForSubqueries e sql d, f = deepFinding
  | .mk astQ left right args, sql, d => by
    intro f hf
    rw [checkExprForSubqueries.eq_def] at hf
    rcases List.mem_append.mp hf with h | h
    · rcases List.mem_append.mp h with h2 | h2
      · rcases List.mem_append.mp h2 with h3 | h3
        · cases astQ with
          | some a => exact checkNestedSubqueries_inv a sql (d + 1) f h3
          | none => exact absurd h3 (List.not_mem_nil f)
        · cases left with
          | some e2 => exact checkExprForSubqueries_inv e2 sql d f h3
          | none => exact absurd h3 (List.not_mem_nil f)
      · cases right with
        | some e2 => exact checkExprForSubqueries_inv e2 sql d f h2
        | none => exact absurd h2 (List.not_mem_nil f)
    · match args with
      | some (.single e2) => exact argAst_inv e2 sql d f h
      | some (.list es) => exact argAstList_inv es sql d f h
      | none => exact absurd h (List.not_mem_nil f)
termination_by e _ _ => sizeOf e

theorem argAstList_inv : ∀ (es : List Expr) (sql : Str) (d : Nat),
    ∀ f ∈ argAstList es sql d, f = deepFinding
  | [], _, _ => by
    intro f hf
    rw [argAstList.eq_def] at hf
    exact absurd hf (List.not_mem_nil f)
  | e :: rest, sql, d => by
    intro f hf
    rw [argAstList.eq_def] at hf
    rcases List.mem_append.mp hf with h | h
    · exact argAst_inv e sql d f h
    · exact argAstList_inv rest sql d f h
termination_by es _ _ => sizeOf es

theorem argAst_inv : ∀ (e : Expr) (sql : Str) (d : Nat),
    ∀ f ∈ argAst e sql d, f = deepFinding
  | .mk (some a) _ _ _, sql, d => by
    intro f hf
    rw [argAst.eq_def] at hf
    exact checkNestedSubqueries_inv a sql (d + 1) f hf
  | .mk none _ _ _, _, _ => by
    intro f hf
    rw [argAst.eq_def] at hf
    exact absurd hf (List.not_mem_nil f)
termination_by e _ _ => sizeOf e
end

theorem string_toList_ne_nil (s : String) (h : s ≠ "") : s.toList ≠ [] := by
  intro hc
  apply h
  cases s with
  | mk data => cases data with
    | nil => rfl
    | cons c rest => simp [String.toList] at hc

theorem checkJoinWithoutCondition_inv (a : Ast) (sql : Str) :
    ∀ f ∈ checkJoinWithoutCondition a sql,
      ((f.ruleId = "implicit-cross-join" ∧ f.offset = none) ∨
        f.ruleId = "join-without-on") ∧ OffsetsOk sql f := by
  intro f hf
  unfold checkJoinWithoutCondition at hf
  split at hf
  · exact absurd hf (List.not_mem_nil f)
  · split at hf
    · exact absurd hf (List.not_mem_nil f)
    · rcases List.mem_append.mp hf with h | h
      · split at h
        · rcases List.mem_singleton.mp h with rfl
          exact ⟨Or.inl ⟨rfl, rfl⟩, offsetsOk_of_none _ _ rfl⟩
        · exact absurd h (List.not_mem_nil f)
      · rcases mem_foldr_push _ _ _ f h with ⟨c, _, hc, hfc⟩
        subst hfc
        refine ⟨Or.inr (withLoc_ruleId _ _ _), ?_⟩
        apply withLoc_offsetsOk _ _ _ ?_ rfl
        have h1 : strTruthy c.join = true := by
          simp only [Bool.and_eq_true] at hc
          exact hc.1.1
        cases hj : c.join with
        | none => rw [hj] at h1; simp [strTruthy] at h1
        | some j =>
          rw [hj] at h1
          simp only [strTruthy, ne_eq, decide_eq_true_eq] at h1
          simp only [hj, Option.getD_some]
          exact string_toList_ne_nil j h1

/-- The six structural rule identifiers. -/
def structIds : List String :=
  ["select-star", "order-without-limit", "cross-join", "deeply-nested-subquery",
   "implicit-cross-join", "join-without-on"]

theorem structuralForAst_inv (a : Ast) (sql : Str) :
    ∀ f ∈ structuralForAst a sql, f.ruleId ∈ structIds ∧ OffsetsOk sql f := by
  intro f hf
  unfold structuralForAst at hf
  rcases List.mem_append.mp hf with h | h
  · rcases List.mem_append.mp h with h | h
    · rcases List.mem_append.mp h with h | h
      · rcases List.mem_append.mp h with h | h
        · rcases checkSelectStar_inv a sql f h with ⟨h1, h2⟩
          exact ⟨by rw [h1]; decide, h2⟩
        · rcases checkOrderByWithoutLimit_inv a sql f h with ⟨h1, h2⟩
          exact ⟨by rw [h1]; decide, h2⟩
      · rcases checkCrossJoin_inv a sql f h with ⟨h1, h2⟩
        exact ⟨by rw [h1]; decide, h2⟩
    · rcases checkNestedSubqueries_inv a sql 0 f h with rfl
      exact ⟨by decide, offsetsOk_of_none _ _ rfl⟩
  · rcases checkJoinWithoutCondition_inv a sql f h with ⟨h1, h2⟩
    rcases h1 with ⟨h1, _⟩ | h1
    · exact ⟨by rw [h1]; decide, h2⟩
    · exact ⟨by rw [h1]; decide, h2⟩

theorem structuralFindings_inv (v : Option AstVal) (sql : Str) :
    ∀ f ∈ structuralFindings v sql, f.ruleId ∈ structIds ∧ OffsetsOk sql f := by
  intro f hf
  unfold structuralFindings at hf
  generalize astsOf v = l at hf
  induction l with
  | nil => exact absurd hf (List.not_mem_nil f)
  | cons n rest ih =>
    simp only [List.foldr_cons] at hf
    rcases List.mem_append.mp hf with h | h
    · cases n with
      | some a => exact structuralForAst_inv a sql f h
      | none => exact absurd h (List.not_mem_nil f)
    · exact ih h

end QueryOpt

namespace QueryOpt

theorem scanFrags_ne_nil (pat : Pat) (fuel : Nat) :
    ∀ (prev : Option Char) (s : Str), ∀ m ∈ scanFrags pat fuel prev s, m ≠ [] := by
  induction fuel with
  | zero =>
    intro prev s m hm
    exact absurd hm (List.not_mem_nil m)
  | succ fuel ih =>
    intro prev s m hm
    cases s with
    | nil => exact absurd hm (List.not_mem_nil m)
    | cons c rest =>
      rw [scanFrags] at hm
      split at hm
      · rcases List.mem_cons.mp hm with h | h
        · subst h; simp
        · exact ih _ _ m h
      · exact ih _ _ m hm

theorem findAllP_ne_nil (pat : Pat) (s : Str) : ∀ m ∈ findAllP pat s, m ≠ [] :=
  scanFrags_ne_nil pat (s.length + 1) none s

/-!
## Per-rule invariants: rule identifiers and offset provenance
-/

theorem rule1_inv (sql : Str) : ∀ f ∈ rule1 sql,
    (f.ruleId = "non-spillable-list" ∨ f.ruleId = "non-spillable-list-distinct") ∧
      OffsetsOk sql f := by
  intro f hf
  unfold rule1 at hf
  rcases List.mem_append.mp hf with h | h
  · split at h
    · exact absurd h (List.not_mem_nil f)
    · rename_i m rest heq
      rcases List.mem_singleton.mp h with rfl
      refine ⟨Or.inl (withLoc_ruleId _ _ _), withLoc_offsetsOk _ _ _ ?_ rfl⟩
      exact findAllP_ne_nil _ _ m (by rw [heq]; exact List.mem_cons_self m rest)
  · split at h
    · exact absurd h (List.not_mem_nil f)
    · rename_i m rest heq
      rcases List.mem_singleton.mp h with rfl
      refine ⟨Or.inr (withLoc_ruleId _ _ _), withLoc_offsetsOk _ _ _ ?_ rfl⟩
      exact findAllP_ne_nil _ _ m (by rw [heq]; exact List.mem_cons_self m rest)

theorem rule2_inv (sql : Str) : ∀ f ∈ rule2 sql,
    f.ruleId = "non-spillable-string-agg" ∧ OffsetsOk sql f := by
  intro f hf
  unfold rule2 at hf
  split at hf
  · rcases List.mem_singleton.mp hf with rfl
    exact ⟨withLoc_ruleId _ _ _, withLoc_offsetsOk _ _ _ (by decide) rfl⟩
  · exact absurd hf (List.not_mem_nil f)

theorem rule3_inv (sql : Str) : ∀ f ∈ rule3 sql,
    f.ruleId = "non-spillable-ordered-agg" ∧ OffsetsOk sql f := by
  intro f hf
  unfold rule3 at hf
  split at hf
  · exact absurd hf (List.not_mem_nil f)
  · rename_i m rest heq
    rcases List.mem_singleton.mp hf with rfl
    refine ⟨withLoc_ruleId _ _ _, withLoc_offsetsOk _ _ _ ?_ rfl⟩
    exact findAllP_ne_nil _ _ m (by rw [heq]; exact List.mem_cons_self m rest)

theorem rule4_inv (sql : Str) : ∀ f ∈ rule4 sql,
    f.ruleId = "many-blocking-operators" ∧ OffsetsOk sql f := by
  intro f hf
  unfold rule4 at hf
  dsimp only at hf
  split at hf
  · rcases List.mem_singleton.mp hf with rfl
    exact ⟨rfl, offsetsOk_of_none _ _ rfl⟩
  · split at hf
    · rcases List.mem_singleton.mp hf with rfl
      exact ⟨rfl, offsetsOk_of_none _ _ rfl⟩
    · exact absurd hf (List.not_mem_nil f)

theorem rule5_inv (sql : Str) : ∀ f ∈ rule5 sql,
    (f.ruleId = "heavy-json-extraction" ∨ f.ruleId = "moderate-json-extraction") ∧
      OffsetsOk sql f := by
  intro f hf
  unfold rule5 at hf
  dsimp only at hf
  split at hf
  · rcases List.mem_singleton.mp hf with rfl
    exact ⟨Or.inl (withLoc_ruleId _ _ _), withLoc_offsetsOk _ _ _ (by decide) rfl⟩
  · split at hf
    · rcases List.mem_singleton.mp hf with rfl
      exact ⟨Or.inr (withLoc_ruleId _ _ _), withLoc_offsetsOk _ _ _ (by decide) rfl⟩
    · exact absurd hf (List.not_mem_nil f)

theorem rule6_inv (sql : Str) : ∀ f ∈ rule6 sql,
    f.ruleId = "json-each-expansion" ∧ OffsetsOk sql f := by
  intro f hf
  unfold rule6 at hf
  split at hf
  · rcases List.mem_singleton.mp hf with rfl
    exact ⟨withLoc_ruleId _ _ _, withLoc_offsetsOk _ _ _ (by decide) rfl⟩
  · exact absurd hf (List.not_mem_nil f)

theorem rule7_inv (sql : Str) : ∀ f ∈ rule7 sql,
    f.ruleId = "json-array-extract" ∧ OffsetsOk sql f := by
  intro f hf
  unfold rule7 at hf
  split at hf
  · rcases List.mem_singleton.mp hf with rfl
    exact ⟨rfl, offsetsOk_of_none _ _ rfl⟩
  · exact absurd hf (List.not_mem_nil f)

theorem rule8_inv (sql : Str) : ∀ f ∈ rule8 sql,
    f.ruleId = "repeated-order-limit-1" ∧ OffsetsOk sql f := by
  intro f hf
  unfold rule8 at hf
  split at hf
  · exact absurd hf (List.not_mem_nil f)
  · rename_i m rest heq
    split at hf
    · rcases List.mem_singleton.mp hf with rfl
      refine ⟨withLoc_ruleId _ _ _, withLoc_offsetsOk _ _ _ ?_ rfl⟩
      exact findAllP_ne_nil _ _ m (by rw [heq]; exact List.mem_cons_self m rest)
    · exact absurd hf (List.not_mem_nil f)

theorem rule9_inv (sql : Str) : ∀ f ∈ rule9 sql,
    f.ruleId = "use-arg-max" ∧ OffsetsOk sql f := by
  intro f hf
  unfold rule9 at hf
  split at hf
  · rcases List.mem_singleton.mp hf with rfl
    exact ⟨withLoc_ruleId _ _ _, withLoc_offsetsOk _ _ _ (by decide) rfl⟩
  · exact absurd hf (List.not_mem_nil f)

theorem rule10_inv (sql : Str) : ∀ f ∈ rule10 sql,
    f.ruleId = "leading-wildcard-like" ∧ OffsetsOk sql f := by
  intro f hf
  unfold rule10 at hf
  rcases List.mem_map.mp hf with ⟨m, hm, rfl⟩
  refine ⟨withLoc_ruleId _ _ _, withLoc_offsetsOk _ _ _ ?_ rfl⟩
  exact findAllP_ne_nil _ _ m hm

theorem rule11_inv (sql : Str) : ∀ f ∈ rule11 sql,
    f.ruleId = "function-on-filter-column" ∧ OffsetsOk sql f := by
  intro f hf
  unfold rule11 at hf
  split at hf
  · rcases List.mem_singleton.mp hf with rfl
    exact ⟨rfl, offsetsOk_of_none _ _ rfl⟩
  · exact absurd hf (List.not_mem_nil f)

theorem rule12_inv (sql : Str) : ∀ f ∈ rule12 sql,
    f.ruleId = "distinct-star" ∧ OffsetsOk sql f := by
  intro f hf
  unfold rule12 at hf
  split at hf
  · rcases List.mem_singleton.mp hf with rfl
    exact ⟨withLoc_ruleId _ _ _, withLoc_offsetsOk _ _ _ (by decide) rfl⟩
  · exact absurd hf (List.not_mem_nil f)

theorem rule13_inv (sql : Str) : ∀ f ∈ rule13 sql,
    f.ruleId = "union-without-all" ∧ OffsetsOk sql f := by
  intro f hf
  unfold rule13 at hf
  split at hf
  · rcases List.mem_singleton.mp hf with rfl
    exact ⟨withLoc_ruleId _ _ _, withLoc_offsetsOk _ _ _ (by decide) rfl⟩
  · exact absurd hf (List.not_mem_nil f)

theorem rule14_inv (sql : Str) : ∀ f ∈ rule14 sql,
    f.ruleId = "count-distinct" ∧ OffsetsOk sql f := by
  intro f hf
  unfold rule14 at hf
  split at hf
  · exact absurd hf (List.not_mem_nil f)
  · rename_i m rest heq
    rcases List.mem_singleton.mp hf with rfl
    refine ⟨withLoc_ruleId _ _ _, withLoc_offsetsOk _ _ _ ?_ rfl⟩
    exact findAllP_ne_nil _ _ m (by rw [heq]; exact List.mem_cons_self m rest)

theorem rule15_inv (sql : Str) : ∀ f ∈ rule15 sql,
    f.ruleId = "not-in-subquery" ∧ OffsetsOk sql f := by
  intro f hf
  unfold rule15 at hf
  split at hf
  · rcases List.mem_singleton.mp hf with rfl
    exact ⟨withLoc_ruleId _ _ _, withLoc_offsetsOk _ _ _ (by decide) rfl⟩
  · exact absurd hf (List.not_mem_nil f)

theorem rule16_inv (sql : Str) : ∀ f ∈ rule16 sql,
    f.ruleId = "correlated-subquery" ∧ OffsetsOk sql f := by
  intro f hf
  unfold rule16 at hf
  split at hf
  · rcases List.mem_singleton.mp hf with rfl
    exact ⟨rfl, offsetsOk_of_none _ _ rfl⟩
  · exact absurd hf (List.not_mem_nil f)

theorem rule17_inv (sql : Str) : ∀ f ∈ rule17 sql,
    f.ruleId = "insert-select-star" ∧ OffsetsOk sql f := by
  intro f hf
  unfold rule17 at hf
  split at hf
  · rcases List.mem_singleton.mp hf with rfl
    exact ⟨rfl, offsetsOk_of_none _ _ rfl⟩
  · exact absurd hf (List.not_mem_nil f)

theorem rule18_inv (sql : Str) : ∀ f ∈ rule18 sql,
    f.ruleId = "many-ctes" ∧ OffsetsOk sql f := by
  intro f hf
  unfold rule18 at hf
  dsimp only at hf
  split at hf
  · rcases List.mem_singleton.mp hf with rfl
    exact ⟨rfl, offsetsOk_of_none _ _ rfl⟩
  · split at hf
    · rcases List.mem_singleton.mp hf with rfl
      exact ⟨rfl, offsetsOk_of_none _ _ rfl⟩
    · exact absurd hf (List.not_mem_nil f)

theorem rule19_inv (sql : Str) : ∀ f ∈ rule19 sql,
    f.ruleId = "window-without-qualify" ∧ OffsetsOk sql f := by
  intro f hf
  unfold rule19 at hf
  dsimp only at hf
  split at hf
  · rcases List.mem_singleton.mp hf with rfl
    exact ⟨rfl, offsetsOk_of_none _ _ rfl⟩
  · exact absurd hf (List.not_mem_nil f)

theorem rule20_inv (sql : Str) : ∀ f ∈ rule20 sql,
    f.ruleId = "excessive-casts" ∧ OffsetsOk sql f := by
  intro f hf
  unfold rule20 at hf
  dsimp only at hf
  split at hf
  · rcases List.mem_singleton.mp hf with rfl
    exact ⟨rfl, offsetsOk_of_none _ _ rfl⟩
  · exact absurd hf (List.not_mem_nil f)

end QueryOpt

namespace QueryOpt

theorem rule21_inv (sql : Str) : ∀ f ∈ rule21 sql,
    f.ruleId = "md-local-remote-transfer" ∧ OffsetsOk sql f := by
  intro f hf
  unfold rule21 at hf
  split at hf
  · rcases List.mem_singleton.mp hf with rfl
    exact ⟨rfl, offsetsOk_of_none _ _ rfl⟩
  · exact absurd hf (List.not_mem_nil f)

theorem rule22_inv (sql : Str) : ∀ f ∈ rule22 sql,
    f.ruleId = "group-by-verbose" ∧ OffsetsOk sql f := by
  intro f hf
  unfold rule22 at hf
  split at hf
  · rcases List.mem_singleton.mp hf with rfl
    exact ⟨rfl, offsetsOk_of_none _ _ rfl⟩
  · exact absurd hf (List.not_mem_nil f)

theorem rule23_inv (sql : Str) : ∀ f ∈ rule23 sql,
    f.ruleId = "remote-file-select-star" ∧ OffsetsOk sql f := by
  intro f hf
  unfold rule23 at hf
  split at hf
  · rcases List.mem_singleton.mp hf with rfl
    exact ⟨rfl, offsetsOk_of_none _ _ rfl⟩
  · exact absurd hf (List.not_mem_nil f)

theorem rule24_inv (sql : Str) : ∀ f ∈ rule24 sql,
    f.ruleId = "md-duckling-size" ∧ OffsetsOk sql f := by
  intro f hf
  unfold rule24 at hf
  split at hf
  · rcases List.mem_singleton.mp hf with rfl
    exact ⟨rfl, offsetsOk_of_none _ _ rfl⟩
  · exact absurd hf (List.not_mem_nil f)

theorem rule25_inv (sql : Str) : ∀ f ∈ rule25 sql,
    f.ruleId = "list-transform" ∧ OffsetsOk sql f := by
  intro f hf
  unfold rule25 at hf
  split at hf
  · rcases List.mem_singleton.mp hf with rfl
    exact ⟨withLoc_ruleId _ _ _, withLoc_offsetsOk _ _ _ (by decide) rfl⟩
  · exact absurd hf (List.not_mem_nil f)

theorem rule26_inv (sql : Str) : ∀ f ∈ rule26 sql,
    f.ruleId = "non-spillable-pivot" ∧ OffsetsOk sql f := by
  intro f hf
  unfold rule26 at hf
  split at hf
  · rcases List.mem_singleton.mp hf with rfl
    exact ⟨rfl, offsetsOk_of_none _ _ rfl⟩
  · exact absurd hf (List.not_mem_nil f)

theorem rule27_inv (sql : Str) : ∀ f ∈ rule27 sql,
    f.ruleId = "many-left-join-on-true" ∧ OffsetsOk sql f := by
  intro f hf
  unfold rule27 at hf
  dsimp only at hf
  split at hf
  · rcases List.mem_singleton.mp hf with rfl
    exact ⟨rfl, offsetsOk_of_none _ _ rfl⟩
  · exact absurd hf (List.not_mem_nil f)

theorem rule28_inv (sql : Str) : ∀ f ∈ rule28 sql,
    f.ruleId = "non-spillable-median" ∧ OffsetsOk sql f := by
  intro f hf
  unfold rule28 at hf
  split at hf
  · exact absurd hf (List.not_mem_nil f)
  · rename_i m rest heq
    rcases List.mem_singleton.mp hf with rfl
    refine ⟨withLoc_ruleId _ _ _, withLoc_offsetsOk _ _ _ ?_ rfl⟩
    exact findAllP_ne_nil _ _ m (by rw [heq]; exact List.mem_cons_self m rest)

theorem rule29_inv (sql : Str) : ∀ f ∈ rule29 sql,
    f.ruleId = "unnest-large-expansion" ∧ OffsetsOk sql f := by
  intro f hf
  unfold rule29 at hf
  split at hf
  · exact absurd hf (List.not_mem_nil f)
  · rename_i m rest heq
    rcases List.mem_singleton.mp hf with rfl
    refine ⟨withLoc_ruleId _ _ _, withLoc_offsetsOk _ _ _ ?_ rfl⟩
    exact findAllP_ne_nil _ _ m (by rw [heq]; exact List.mem_cons_self m rest)

theorem rule30_inv (sql : Str) : ∀ f ∈ rule30 sql,
    f.ruleId = "recursive-cte-no-limit" ∧ OffsetsOk sql f := by
  intro f hf
  unfold rule30 at hf
  split at hf
  · dsimp only at hf
    split at hf
    · rcases List.mem_singleton.mp hf with rfl
      exact ⟨withLoc_ruleId _ _ _, withLoc_offsetsOk _ _ _ (by decide) rfl⟩
    · exact absurd hf (List.not_mem_nil f)
  · exact absurd hf (List.not_mem_nil f)

theorem rule31_inv (sql : Str) : ∀ f ∈ rule31 sql,
    f.ruleId = "ctas-memory" ∧ OffsetsOk sql f := by
  intro f hf
  unfold rule31 at hf
  split at hf
  · rcases List.mem_singleton.mp hf with rfl
    exact ⟨withLoc_ruleId _ _ _, withLoc_offsetsOk _ _ _ (by decide) rfl⟩
  · exact absurd hf (List.not_mem_nil f)

theorem rule32_inv (sql : Str) : ∀ f ∈ rule32 sql,
    f.ruleId = "large-in-list" ∧ OffsetsOk sql f := by
  intro f hf
  unfold rule32 at hf
  split at hf
  · exact absurd hf (List.not_mem_nil f)
  · rename_i m rest heq
    rcases List.mem_singleton.mp hf with rfl
    refine ⟨withLoc_ruleId _ _ _, withLoc_offsetsOk _ _ _ ?_ rfl⟩
    have hm : m ≠ [] :=
      findAllP_ne_nil _ _ m (by rw [heq]; exact List.mem_cons_self m rest)
    intro hc
    rcases List.take_eq_nil_iff.mp hc with h | h
    · cases h
    · exact hm h

theorem rule33_inv (sql : Str) : ∀ f ∈ rule33 sql,
    f.ruleId = "read-remote-no-filter" ∧ OffsetsOk sql f := by
  intro f hf
  unfold rule33 at hf
  split at hf
  · split at hf
    · rcases List.mem_singleton.mp hf with rfl
      exact ⟨rfl, offsetsOk_of_none _ _ rfl⟩
    · exact absurd hf (List.not_mem_nil f)
  · exact absurd hf (List.not_mem_nil f)

theorem rule34_inv (sql : Str) : ∀ f ∈ rule34 sql,
    f.ruleId = "multiple-remote-scans" ∧ OffsetsOk sql f := by
  intro f hf
  unfold rule34 at hf
  split at hf
  · exact absurd hf (List.not_mem_nil f)
  · rename_i m rest heq
    split at hf
    · rcases List.mem_singleton.mp hf with rfl
      refine ⟨withLoc_ruleId _ _ _, withLoc_offsetsOk _ _ _ ?_ rfl⟩
      exact findAllP_ne_nil _ _ m (by rw [heq]; exact List.mem_cons_self m rest)
    · exact absurd hf (List.not_mem_nil f)

theorem rule35_inv (sql : Str) : ∀ f ∈ rule35 sql,
    f.ruleId = "glob-many-files" ∧ OffsetsOk sql f := by
  intro f hf
  unfold rule35 at hf
  split at hf
  · rcases List.mem_singleton.mp hf with rfl
    exact ⟨rfl, offsetsOk_of_none _ _ rfl⟩
  · exact absurd hf (List.not_mem_nil f)

theorem rule36_inv (sql : Str) : ∀ f ∈ rule36 sql,
    f.ruleId = "temporal-join-via-window" ∧ OffsetsOk sql f := by
  intro f hf
  unfold rule36 at hf
  dsimp only at hf
  split at hf
  · rcases List.mem_singleton.mp hf with rfl
    exact ⟨rfl, offsetsOk_of_none _ _ rfl⟩
  · exact absurd hf (List.not_mem_nil f)

theorem rule37_inv (sql : Str) : ∀ f ∈ rule37 sql,
    f.ruleId = "or-chain-instead-of-in" ∧ OffsetsOk sql f := by
  intro f hf
  unfold rule37 at hf
  split at hf
  · rcases List.mem_singleton.mp hf with rfl
    exact ⟨rfl, offsetsOk_of_none _ _ rfl⟩
  · exact absurd hf (List.not_mem_nil f)

theorem rule38_inv (sql : Str) : ∀ f ∈ rule38 sql,
    f.ruleId = "between-timestamp" ∧ OffsetsOk sql f := by
  intro f hf
  unfold rule38 at hf
  split at hf
  · rcases List.mem_singleton.mp hf with rfl
    exact ⟨rfl, offsetsOk_of_none _ _ rfl⟩
  · exact absurd hf (List.not_mem_nil f)

theorem rule39_inv (sql : Str) : ∀ f ∈ rule39 sql,
    f.ruleId = "chained-select-star" ∧ OffsetsOk sql f := by
  intro f hf
  unfold rule39 at hf
  split at hf
  · rcases List.mem_singleton.mp hf with rfl
    exact ⟨rfl, offsetsOk_of_none _ _ rfl⟩
  · exact absurd hf (List.not_mem_nil f)

theorem rule40_inv (sql : Str) : ∀ f ∈ rule40 sql,
    f.ruleId = "md-cross-database-join" ∧ OffsetsOk sql f := by
  intro f hf
  unfold rule40 at hf
  dsimp only at hf
  split at hf
  · split at hf
    · rcases List.mem_singleton.mp hf with rfl
      exact ⟨rfl, offsetsOk_of_none _ _ rfl⟩
    · exact absurd hf (List.not_mem_nil f)
  · exact absurd hf (List.not_mem_nil f)

end QueryOpt

namespace QueryOpt

theorem withLoc_severity (sql nd : Str) (f : Finding) :
    (withLoc sql nd f).severity = f.severity := by
  unfold withLoc; split <;> rfl

theorem withLoc_message (sql nd : Str) (f : Finding) :
    (withLoc sql nd f).message = f.message := by
  unfold withLoc; split <;> rfl

theorem find?_ruleId_none {l : List Finding} {target : String}
    (h : ∀ f ∈ l, f.ruleId ≠ target) :
    l.find? (fun f => f.ruleId == target) = none :=
  List.find?_eq_none.mpr (fun f hf => by simp [h f hf])

theorem structuralFindings_find?_none (v : Option AstVal) (sql : Str)
    (target : String) (ht : target ∉ structIds) :
    (structuralFindings v sql).find? (fun f => f.ruleId == target) = none := by
  apply find?_ruleId_none
  intro f hf hc
  exact ht (hc ▸ (structuralFindings_inv v sql f hf).1)

/-- The concatenated emission list of `runRules`: structural findings first,
then pattern findings. -/
def emitted (v : Option AstVal) (sql : Str) : List Finding :=
  structuralFindings v sql ++ regexRules sql

theorem runRules_eq_dedup (v : Option AstVal) (sql : Str) :
    runRules v sql = dedupByRuleId (emitted v sql) := rfl

/-- In every non-short-circuit case `analyze`'s findings are `runRules` on the
trimmed original text. -/
theorem analyze_findings_form (parse : Parser) (sql : Str)
    (h : (jsTrim sql).isEmpty = false) :
    (analyze parse sql).findings =
      runRules (parseOutcome parse (jsTrim sql)).1 (jsTrim sql) := by
  unfold analyze
  simp only [h, Bool.false_eq_true, if_false]

/-- In every non-short-circuit case the stored `parseError` is the one from
the try/catch ladder. -/
theorem analyze_parseError_form (parse : Parser) (sql : Str)
    (h : (jsTrim sql).isEmpty = false) :
    (analyze parse sql).parseError = (parseOutcome parse (jsTrim sql)).2 := by
  unfold analyze
  simp only [h, Bool.false_eq_true, if_false]

/-- With no AST the structural pass contributes nothing
(`if (!node) continue`). -/
theorem structuralFindings_none (sql : Str) : structuralFindings none sql = [] := rfl

/-- With no AST `runRules` is the dedup of the pattern findings alone. -/
theorem runRules_none (sql : Str) :
    runRules none sql = dedupByRuleId (regexRules sql) := by
  unfold runRules
  rw [structuralFindings_none, List.nil_append]

/-- The three outcomes of the try/catch ladder, each with the parse results
that produce it. -/
theorem parseOutcome_cases (parse : Parser) (t : Str) :
    (∃ a, parse t = .ok a ∧ parseOutcome parse t = (some a, none)) ∨
    (∃ e1 a, parse t = .error e1 ∧ parse (preprocessForParser t) = .ok a ∧
      parseOutcome parse t = (some a, none)) ∨
    (∃ e1 e2, parse t = .error e1 ∧ parse (preprocessForParser t) = .error e2 ∧
      parseOutcome parse t = (none, some (errMsg e2))) := by
  unfold parseOutcome
  cases hp1 : parse t with
  | ok a => exact .inl ⟨a, rfl, rfl⟩
  | error e1 =>
    cases hp2 : parse (preprocessForParser t) with
    | ok a => exact .inr (.inl ⟨e1, a, rfl, rfl, rfl⟩)
    | error e2 => exact .inr (.inr ⟨e1, e2, rfl, rfl, rfl⟩)

/-- C3 (general form): trimming to empty short-circuits `analyze`. -/
theorem analyze_empty (parse : Parser) (sql : Str) (h : jsTrim sql = []) :
    analyze parse sql = ⟨[], none⟩ := by
  unfold analyze
  rw [h]
  rfl

/-- A concrete parser oracle for witnesses: parsing always succeeds with an
empty statement list. -/
def pOkW : Parser := fun _ => .ok (.multi [])

/-- A concrete parser oracle for witnesses: parsing always throws an `Error`
with message `boom`. -/
def pErrW : Parser := fun _ => .error (.jsError "boom")

/-- C3: `analyze` on the empty string and on all-whitespace input returns
`{findings: [], parseError: null}`, short-circuiting before parsing or
running any rule. -/
theorem claim_C3_empty_input :
    (∀ parse : Parser, analyze parse [] = ⟨[], none⟩) ∧
    (∀ parse : Parser, analyze parse "   ".toList = ⟨[], none⟩) ∧
    (∀ (parse : Parser) (sql : Str), jsTrim sql = [] →
      analyze parse sql = ⟨[], none⟩) := by
  refine ⟨?_, ?_, fun parse sql h => analyze_empty parse sql h⟩
  · intro parse; exact analyze_empty parse [] (by decide)
  · intro parse; exact analyze_empty parse "   ".toList (by decide)

/-- Witness for C3 at concrete inputs. -/
theorem claim_C3_witness :
    analyze pOkW [] = ⟨[], none⟩ ∧ analyze pErrW "   ".toList = ⟨[], none⟩ ∧
    (jsTrim " \t\n ".toList = [] ∧ analyze pOkW " \t\n ".toList = ⟨[], none⟩) :=
  ⟨claim_C3_empty_input.1 pOkW, claim_C3_empty_input.2.1 pErrW,
    by decide, claim_C3_empty_input.2.2 pOkW " \t\n ".toList (by decide)⟩

/-- C1: the findings of `analyze` carry pairwise-distinct rule identifiers;
they are exactly the `ruleId`-dedup of the emission list (structural findings
in fixed rule order, then pattern findings in fixed declaration order), an
order-preserving sublist of it in which, for every rule identifier, the
surviving finding is the first emitted one. -/
theorem claim_C1_dedup (parse : Parser) (sql : Str) :
    ((analyze parse sql).findings.map Finding.ruleId).Nodup ∧
    ∃ v : Option AstVal,
      (analyze parse sql).findings = dedupByRuleId (emitted v (jsTrim sql)) ∧
      (analyze parse sql).findings.Sublist (emitted v (jsTrim sql)) ∧
      ∀ r : String,
        (analyze parse sql).findings.find? (fun f => f.ruleId == r) =
          (emitted v (jsTrim sql)).find? (fun f => f.ruleId == r) := by
  by_cases h : (jsTrim sql).isEmpty
  · have he : jsTrim sql = [] := by
      cases hj : jsTrim sql with
      | nil => rfl
      | cons c r => rw [hj] at h; simp [List.isEmpty] at h
    rw [analyze_empty parse sql he, he]
    refine ⟨by simp, none, ?_⟩
    have hemit : emitted none [] = [] := by decide
    rw [hemit]
    exact ⟨rfl, List.Sublist.refl _, fun r => rfl⟩
  · have h' : (jsTrim sql).isEmpty = false := by simpa using h
    rw [analyze_findings_form parse sql h', runRules_eq_dedup]
    exact ⟨dedup_nodup _, (parseOutcome parse (jsTrim sql)).1, rfl,
      dedup_sublist _, fun r => dedup_find? _ r⟩

/-- C2: `analyze` is total (it is a Lean function) and returns a non-null
`parseError` exactly when the input is non-empty after trimming and both
parse attempts (direct, then preprocessed) threw; the stored message is the
second thrown error's message, or the fallback string for a non-`Error`
throw; in that case the findings are exactly the deduplicated pattern-rule
findings over the original trimmed text. -/
theorem claim_C2_parse_error (parse : Parser) (sql : Str) :
    (∀ m : String, (analyze parse sql).parseError = some m ↔
      ((jsTrim sql).isEmpty = false ∧ ∃ e1 e2,
        parse (jsTrim sql) = .error e1 ∧
        parse (preprocessForParser (jsTrim sql)) = .error e2 ∧ m = errMsg e2)) ∧
    ((analyze parse sql).parseError ≠ none →
      (analyze parse sql).findings = dedupByRuleId (regexRules (jsTrim sql))) := by
  by_cases h : (jsTrim sql).isEmpty
  · have he : jsTrim sql = [] := by
      cases hj : jsTrim sql with
      | nil => rfl
      | cons c r => rw [hj] at h; simp [List.isEmpty] at h
    rw [analyze_empty parse sql he]
    refine ⟨fun m => ?_, fun hne => absurd rfl hne⟩
    simp [h]
  · have h' : (jsTrim sql).isEmpty = false := by simpa using h
    rw [analyze_parseError_form parse sql h', analyze_findings_form parse sql h']
    rcases parseOutcome_cases parse (jsTrim sql) with
      ⟨a, hp, hpo⟩ | ⟨e1, a, hp1, hp2, hpo⟩ | ⟨e1, e2, hp1, hp2, hpo⟩
    · rw [hpo]
      refine ⟨fun m => ⟨fun hc => absurd hc (by simp), ?_⟩,
        fun hne => absurd rfl hne⟩
      rintro ⟨-, f1, f2, hf1, -, -⟩
      rw [hp] at hf1; cases hf1
    · rw [hpo]
      refine ⟨fun m => ⟨fun hc => absurd hc (by simp), ?_⟩,
        fun hne => absurd rfl hne⟩
      rintro ⟨-, f1, f2, -, hf2, -⟩
      rw [hp2] at hf2; cases hf2
    · rw [hpo]
      constructor
      · intro m
        constructor
        · intro hc
          have hm : errMsg e2 = m := by
            have hs : some (errMsg e2) = some m := hc
            injection hs
          exact ⟨h', e1, e2, hp1, hp2, hm.symm⟩
        · rintro ⟨-, f1, f2, hf1, hf2, hm⟩
          rw [hp2] at hf2
          injection hf2 with hf2'
          subst hf2'
          rw [hm]
      · intro hx
        exact runRules_none (jsTrim sql)

end QueryOpt

namespace QueryOpt

/-!
## Combined pattern-rule facts
-/

/-- Every `ruleId` a pattern rule can emit, in declaration order. -/
def patIds : List String :=
  ["non-spillable-list",
   "non-spillable-list-distinct",
   "non-spillable-string-agg",
   "non-spillable-ordered-agg",
   "many-blocking-operators",
   "heavy-json-extraction",
   "moderate-json-extraction",
   "json-each-expansion",
   "json-array-extract",
   "repeated-order-limit-1",
   "use-arg-max",
   "leading-wildcard-like",
   "function-on-filter-column",
   "distinct-star",
   "union-without-all",
   "count-distinct",
   "not-in-subquery",
   "correlated-subquery",
   "insert-select-star",
   "many-ctes",
   "window-without-qualify",
   "excessive-casts",
   "md-local-remote-transfer",
   "group-by-verbose",
   "remote-file-select-star",
   "md-duckling-size",
   "list-transform",
   "non-spillable-pivot",
   "many-left-join-on-true",
   "non-spillable-median",
   "unnest-large-expansion",
   "recursive-cte-no-limit",
   "ctas-memory",
   "large-in-list",
   "read-remote-no-filter",
   "multiple-remote-scans",
   "glob-many-files",
   "temporal-join-via-window",
   "or-chain-instead-of-in",
   "between-timestamp",
   "chained-select-star",
   "md-cross-database-join"]

theorem finding_ruleId (r sv t m sg c fr) : (finding r sv t m sg c fr).ruleId = r := rfl

theorem finding_severity (r sv t m sg c fr) :
    (finding r sv t m sg c fr).severity = sv := rfl

theorem finding_message (r sv t m sg c fr) :
    (finding r sv t m sg c fr).message = m := rfl

theorem finding_title (r sv t m sg c fr) : (finding r sv t m sg c fr).title = t := rfl

/-- Skipping a block of findings none of which carries the sought `ruleId`. -/
theorem find?_skip {l1 l2 : List Finding} {target : String}
    (h : ∀ f ∈ l1, f.ruleId ≠ target) :
    (l1 ++ l2).find? (fun f => f.ruleId == target) =
      l2.find? (fun f => f.ruleId == target) := by
  rw [List.find?_append, find?_ruleId_none h, Option.none_or]

/-- The head finding with the sought `ruleId` is the one found. -/
theorem find?_cons_self {f : Finding} {l2 : List Finding} {target : String}
    (h : f.ruleId = target) :
    (f :: l2).find? (fun x => x.ruleId == target) = some f :=
  List.find?_cons_of_pos _ (by simp [h])

/-- No structural rule carries a pattern-only `ruleId`. -/
theorem structural_skip (v : Option AstVal) (sql : Str) {target : String}
    (ht : target ∉ structIds) :
    ∀ f ∈ structuralFindings v sql, f.ruleId ≠ target :=
  fun f hf hc => ht (hc ▸ (structuralFindings_inv v sql f hf).1)

theorem rule1_ne (sql : Str) {target : String} (h1 : "non-spillable-list" ≠ target)
    (h2 : "non-spillable-list-distinct" ≠ target) :
    ∀ f ∈ rule1 sql, f.ruleId ≠ target := fun f hf hc => by
  rcases (rule1_inv sql f hf).1 with h | h
  · exact h1 (h.symm.trans hc)
  · exact h2 (h.symm.trans hc)

theorem rule2_ne (sql : Str) {target : String} (h : "non-spillable-string-agg" ≠ target) :
    ∀ f ∈ rule2 sql, f.ruleId ≠ target :=
  fun f hf hc => h (((rule2_inv sql f hf).1).symm.trans hc)

theorem rule3_ne (sql : Str) {target : String} (h : "non-spillable-ordered-agg" ≠ target) :
    ∀ f ∈ rule3 sql, f.ruleId ≠ target :=
  fun f hf hc => h (((rule3_inv sql f hf).1).symm.trans hc)

theorem rule4_ne (sql : Str) {target : String} (h : "many-blocking-operators" ≠ target) :
    ∀ f ∈ rule4 sql, f.ruleId ≠ target :=
  fun f hf hc => h (((rule4_inv sql f hf).1).symm.trans hc)

theorem rule5_ne (sql : Str) {target : String} (h1 : "heavy-json-extraction" ≠ target)
    (h2 : "moderate-json-extraction" ≠ target) :
    ∀ f ∈ rule5 sql, f.ruleId ≠ target := fun f hf hc => by
  rcases (rule5_inv sql f hf).1 with h | h
  · exact h1 (h.symm.trans hc)
  · exact h2 (h.symm.trans hc)

theorem rule6_ne (sql : Str) {target : String} (h : "json-each-expansion" ≠ target) :
    ∀ f ∈ rule6 sql, f.ruleId ≠ target :=
  fun f hf hc => h (((rule6_inv sql f hf).1).symm.trans hc)

theorem rule7_ne (sql : Str) {target : String} (h : "json-array-extract" ≠ target) :
    ∀ f ∈ rule7 sql, f.ruleId ≠ target :=
  fun f hf hc => h (((rule7_inv sql f hf).1).symm.trans hc)

theorem rule8_ne (sql : Str) {target : String} (h : "repeated-order-limit-1" ≠ target) :
    ∀ f ∈ rule8 sql, f.ruleId ≠ target :=
  fun f hf hc => h (((rule8_inv sql f hf).1).symm.trans hc)

theorem rule9_ne (sql : Str) {target : String} (h : "use-arg-max" ≠ target) :
    ∀ f ∈ rule9 sql, f.ruleId ≠ target :=
  fun f hf hc => h (((rule9_inv sql f hf).1).symm.trans hc)

theorem rule10_ne (sql : Str) {target : String} (h : "leading-wildcard-like" ≠ target) :
    ∀ f ∈ rule10 sql, f.ruleId ≠ target :=
  fun f hf hc => h (((rule10_inv sql f hf).1).symm.trans hc)

theorem rule11_ne (sql : Str) {target : String} (h : "function-on-filter-column" ≠ target) :
    ∀ f ∈ rule11 sql, f.ruleId ≠ target :=
  fun f hf hc => h (((rule11_inv sql f hf).1).symm.trans hc)

theorem rule12_ne (sql : Str) {target : String} (h : "distinct-star" ≠ target) :
    ∀ f ∈ rule12 sql, f.ruleId ≠ target :=
  fun f hf hc => h (((rule12_inv sql f hf).1).symm.trans hc)

theorem rule13_ne (sql : Str) {target : String} (h : "union-without-all" ≠ target) :
    ∀ f ∈ rule13 sql, f.ruleId ≠ target :=
  fun f hf hc => h (((rule13_inv sql f hf).1).symm.trans hc)

theorem rule14_ne (sql : Str) {target : String} (h : "count-distinct" ≠ target) :
    ∀ f ∈ rule14 sql, f.ruleId ≠ target :=
  fun f hf hc => h (((rule14_inv sql f hf).1).symm.trans hc)

theorem rule15_ne (sql : Str) {target : String} (h : "not-in-subquery" ≠ target) :
    ∀ f ∈ rule15 sql, f.ruleId ≠ target :=
  fun f hf hc => h (((rule15_inv sql f hf).1).symm.trans hc)

theorem rule16_ne (sql : Str) {target : String} (h : "correlated-subquery" ≠ target) :
    ∀ f ∈ rule16 sql, f.ruleId ≠ target :=
  fun f hf hc => h (((rule16_inv sql f hf).1).symm.trans hc)

theorem rule17_ne (sql : Str) {target : String} (h : "insert-select-star" ≠ target) :
    ∀ f ∈ rule17 sql, f.ruleId ≠ target :=
  fun f hf hc => h (((rule17_inv sql f hf).1).symm.trans hc)

theorem rule18_ne (sql : Str) {target : String} (h : "many-ctes" ≠ target) :
    ∀ f ∈ rule18 sql, f.ruleId ≠ target :=
  fun f hf hc => h (((rule18_inv sql f hf).1).symm.trans hc)

theorem rule19_ne (sql : Str) {target : String} (h : "window-without-qualify" ≠ target) :
    ∀ f ∈ rule19 sql, f.ruleId ≠ target :=
  fun f hf hc => h (((rule19_inv sql f hf).1).symm.trans hc)

theorem rule20_ne (sql : Str) {target : String} (h : "excessive-casts" ≠ target) :
    ∀ f ∈ rule20 sql, f.ruleId ≠ target :=
  fun f hf hc => h (((rule20_inv sql f hf).1).symm.trans hc)

theorem rule21_ne (sql : Str) {target : String} (h : "md-local-remote-transfer" ≠ target) :
    ∀ f ∈ rule21 sql, f.ruleId ≠ target :=
  fun f hf hc => h (((rule21_inv sql f hf).1).symm.trans hc)

theorem rule22_ne (sql : Str) {target : String} (h : "group-by-verbose" ≠ target) :
    ∀ f ∈ rule22 sql, f.ruleId ≠ target :=
  fun f hf hc => h (((rule22_inv sql f hf).1).symm.trans hc)

theorem rule23_ne (sql : Str) {target : String} (h : "remote-file-select-star" ≠ target) :
    ∀ f ∈ rule23 sql, f.ruleId ≠ target :=
  fun f hf hc => h (((rule23_inv sql f hf).1).symm.trans hc)

theorem rule24_ne (sql : Str) {target : String} (h : "md-duckling-size" ≠ target) :
    ∀ f ∈ rule24 sql, f.ruleId ≠ target :=
  fun f hf hc => h (((rule24_inv sql f hf).1).symm.trans hc)

theorem rule25_ne (sql : Str) {target : String} (h : "list-transform" ≠ target) :
    ∀ f ∈ rule25 sql, f.ruleId ≠ target :=
  fun f hf hc => h (((rule25_inv sql f hf).1).symm.trans hc)

theorem rule26_ne (sql : Str) {target : String} (h : "non-spillable-pivot" ≠ target) :
    ∀ f ∈ rule26 sql, f.ruleId ≠ target :=
  fun f hf hc => h (((rule26_inv sql f hf).1).symm.trans hc)

theorem rule27_ne (sql : Str) {target : String} (h : "many-left-join-on-true" ≠ target) :
    ∀ f ∈ rule27 sql, f.ruleId ≠ target :=
  fun f hf hc => h (((rule27_inv sql f hf).1).symm.trans hc)

theorem rule28_ne (sql : Str) {target : String} (h : "non-spillable-median" ≠ target) :
    ∀ f ∈ rule28 sql, f.ruleId ≠ target :=
  fun f hf hc => h (((rule28_inv sql f hf).1).symm.trans hc)

theorem rule29_ne (sql : Str) {target : String} (h : "unnest-large-expansion" ≠ target) :
    ∀ f ∈ rule29 sql, f.ruleId ≠ target :=
  fun f hf hc => h (((rule29_inv sql f hf).1).symm.trans hc)

theorem rule30_ne (sql : Str) {target : String} (h : "recursive-cte-no-limit" ≠ target) :
    ∀ f ∈ rule30 sql, f.ruleId ≠ target :=
  fun f hf hc => h (((rule30_inv sql f hf).1).symm.trans hc)

theorem rule31_ne (sql : Str) {target : String} (h : "ctas-memory" ≠ target) :
    ∀ f ∈ rule31 sql, f.ruleId ≠ target :=
  fun f hf hc => h (((rule31_inv sql f hf).1).symm.trans hc)

theorem rule32_ne (sql : Str) {target : String} (h : "large-in-list" ≠ target) :
    ∀ f ∈ rule32 sql, f.ruleId ≠ target :=
  fun f hf hc => h (((rule32_inv sql f hf).1).symm.trans hc)

theorem rule33_ne (sql : Str) {target : String} (h : "read-remote-no-filter" ≠ target) :
    ∀ f ∈ rule33 sql, f.ruleId ≠ target :=
  fun f hf hc => h (((rule33_inv sql f hf).1).symm.trans hc)

theorem rule34_ne (sql : Str) {target : String} (h : "multiple-remote-scans" ≠ target) :
    ∀ f ∈ rule34 sql, f.ruleId ≠ target :=
  fun f hf hc => h (((rule34_inv sql f hf).1).symm.trans hc)

theorem rule35_ne (sql : Str) {target : String} (h : "glob-many-files" ≠ target) :
    ∀ f ∈ rule35 sql, f.ruleId ≠ target :=
  fun f hf hc => h (((rule35_inv sql f hf).1).symm.trans hc)

theorem rule36_ne (sql : Str) {target : String} (h : "temporal-join-via-window" ≠ target) :
    ∀ f ∈ rule36 sql, f.ruleId ≠ target :=
  fun f hf hc => h (((rule36_inv sql f hf).1).symm.trans hc)

theorem rule37_ne (sql : Str) {target : String} (h : "or-chain-instead-of-in" ≠ target) :
    ∀ f ∈ rule37 sql, f.ruleId ≠ target :=
  fun f hf hc => h (((rule37_inv sql f hf).1).symm.trans hc)

theorem rule38_ne (sql : Str) {target : String} (h : "between-timestamp" ≠ target) :
    ∀ f ∈ rule38 sql, f.ruleId ≠ target :=
  fun f hf hc => h (((rule38_inv sql f hf).1).symm.trans hc)

theorem rule39_ne (sql : Str) {target : String} (h : "chained-select-star" ≠ target) :
    ∀ f ∈ rule39 sql, f.ruleId ≠ target :=
  fun f hf hc => h (((rule39_inv sql f hf).1).symm.trans hc)

theorem rule40_ne (sql : Str) {target : String} (h : "md-cross-database-join" ≠ target) :
    ∀ f ∈ rule40 sql, f.ruleId ≠ target :=
  fun f hf hc => h (((rule40_inv sql f hf).1).symm.trans hc)

/-- A pattern finding comes from one of the forty rules. -/
theorem regexRules_cases (sql : Str) (f : Finding) (hf : f ∈ regexRules sql) :
    f ∈ rule1 sql ∨ f ∈ rule2 sql ∨ f ∈ rule3 sql ∨ f ∈ rule4 sql ∨ f ∈ rule5 sql ∨ f ∈ rule6 sql ∨ f ∈ rule7 sql ∨ f ∈ rule8 sql ∨ f ∈ rule9 sql ∨ f ∈ rule10 sql ∨ f ∈ rule11 sql ∨ f ∈ rule12 sql ∨ f ∈ rule13 sql ∨ f ∈ rule14 sql ∨ f ∈ rule15 sql ∨ f ∈ rule16 sql ∨ f ∈ rule17 sql ∨ f ∈ rule18 sql ∨ f ∈ rule19 sql ∨ f ∈ rule20 sql ∨ f ∈ rule21 sql ∨ f ∈ rule22 sql ∨ f ∈ rule23 sql ∨ f ∈ rule24 sql ∨ f ∈ rule25 sql ∨ f ∈ rule26 sql ∨ f ∈ rule27 sql ∨ f ∈ rule28 sql ∨ f ∈ rule29 sql ∨ f ∈ rule30 sql ∨ f ∈ rule31 sql ∨ f ∈ rule32 sql ∨ f ∈ rule33 sql ∨ f ∈ rule34 sql ∨ f ∈ rule35 sql ∨ f ∈ rule36 sql ∨ f ∈ rule37 sql ∨ f ∈ rule38 sql ∨ f ∈ rule39 sql ∨ f ∈ rule40 sql := by
  simp only [regexRules, List.append_assoc, List.mem_append] at hf
  exact hf

/-- Every pattern finding has a catalogue `ruleId` and a sound offset. -/
theorem regexRules_inv (sql : Str) : ∀ f ∈ regexRules sql,
    f.ruleId ∈ patIds ∧ OffsetsOk sql f := by
  intro f hf
  rcases regexRules_cases sql f hf with hf|hf|hf|hf|hf|hf|hf|hf|hf|hf|hf|hf|hf|hf|hf|hf|hf|hf|hf|hf|hf|hf|hf|hf|hf|hf|hf|hf|hf|hf|hf|hf|hf|hf|hf|hf|hf|hf|hf|hf
  · rcases rule1_inv sql f hf with ⟨h | h, ho⟩ <;> exact ⟨by rw [h]; decide, ho⟩
  · exact ⟨by rw [(rule2_inv sql f hf).1]; decide, (rule2_inv sql f hf).2⟩
  · exact ⟨by rw [(rule3_inv sql f hf).1]; decide, (rule3_inv sql f hf).2⟩
  · exact ⟨by rw [(rule4_inv sql f hf).1]; decide, (rule4_inv sql f hf).2⟩
  · rcases rule5_inv sql f hf with ⟨h | h, ho⟩ <;> exact ⟨by rw [h]; decide, ho⟩
  · exact ⟨by rw [(rule6_inv sql f hf).1]; decide, (rule6_inv sql f hf).2⟩
  · exact ⟨by rw [(rule7_inv sql f hf).1]; decide, (rule7_inv sql f hf).2⟩
  · exact ⟨by rw [(rule8_inv sql f hf).1]; decide, (rule8_inv sql f hf).2⟩
  · exact ⟨by rw [(rule9_inv sql f hf).1]; decide, (rule9_inv sql f hf).2⟩
  · exact ⟨by rw [(rule10_inv sql f hf).1]; decide, (rule10_inv sql f hf).2⟩
  · exact ⟨by rw [(rule11_inv sql f hf).1]; decide, (rule11_inv sql f hf).2⟩
  · exact ⟨by rw [(rule12_inv sql f hf).1]; decide, (rule12_inv sql f hf).2⟩
  · exact ⟨by rw [(rule13_inv sql f hf).1]; decide, (rule13_inv sql f hf).2⟩
  · exact ⟨by rw [(rule14_inv sql f hf).1]; decide, (rule14_inv sql f hf).2⟩
  · exact ⟨by rw [(rule15_inv sql f hf).1]; decide, (rule15_inv sql f hf).2⟩
  · exact ⟨by rw [(rule16_inv sql f hf).1]; decide, (rule16_inv sql f hf).2⟩
  · exact ⟨by rw [(rule17_inv sql f hf).1]; decide, (rule17_inv sql f hf).2⟩
  · exact ⟨by rw [(rule18_inv sql f hf).1]; decide, (rule18_inv sql f hf).2⟩
  · exact ⟨by rw [(rule19_inv sql f hf).1]; decide, (rule19_inv sql f hf).2⟩
  · exact ⟨by rw [(rule20_inv sql f hf).1]; decide, (rule20_inv sql f hf).2⟩
  · exact ⟨by rw [(rule21_inv sql f hf).1]; decide, (rule21_inv sql f hf).2⟩
  · exact ⟨by rw [(rule22_inv sql f hf).1]; decide, (rule22_inv sql f hf).2⟩
  · exact ⟨by rw [(rule23_inv sql f hf).1]; decide, (rule23_inv sql f hf).2⟩
  · exact ⟨by rw [(rule24_inv sql f hf).1]; decide, (rule24_inv sql f hf).2⟩
  · exact ⟨by rw [(rule25_inv sql f hf).1]; decide, (rule25_inv sql f hf).2⟩
  · exact ⟨by rw [(rule26_inv sql f hf).1]; decide, (rule26_inv sql f hf).2⟩
  · exact ⟨by rw [(rule27_inv sql f hf).1]; decide, (rule27_inv sql f hf).2⟩
  · exact ⟨by rw [(rule28_inv sql f hf).1]; decide, (rule28_inv sql f hf).2⟩
  · exact ⟨by rw [(rule29_inv sql f hf).1]; decide, (rule29_inv sql f hf).2⟩
  · exact ⟨by rw [(rule30_inv sql f hf).1]; decide, (rule30_inv sql f hf).2⟩
  · exact ⟨by rw [(rule31_inv sql f hf).1]; decide, (rule31_inv sql f hf).2⟩
  · exact ⟨by rw [(rule32_inv sql f hf).1]; decide, (rule32_inv sql f hf).2⟩
  · exact ⟨by rw [(rule33_inv sql f hf).1]; decide, (rule33_inv sql f hf).2⟩
  · exact ⟨by rw [(rule34_inv sql f hf).1]; decide, (rule34_inv sql f hf).2⟩
  · exact ⟨by rw [(rule35_inv sql f hf).1]; decide, (rule35_inv sql f hf).2⟩
  · exact ⟨by rw [(rule36_inv sql f hf).1]; decide, (rule36_inv sql f hf).2⟩
  · exact ⟨by rw [(rule37_inv sql f hf).1]; decide, (rule37_inv sql f hf).2⟩
  · exact ⟨by rw [(rule38_inv sql f hf).1]; decide, (rule38_inv sql f hf).2⟩
  · exact ⟨by rw [(rule39_inv sql f hf).1]; decide, (rule39_inv sql f hf).2⟩
  · exact ⟨by rw [(rule40_inv sql f hf).1]; decide, (rule40_inv sql f hf).2⟩

/-- With pairwise-distinct keys, the one block with a member's key has length
one. -/
theorem filter_ruleId_length_one {l : List Finding}
    (hnd : (l.map Finding.ruleId).Nodup) {f : Finding} (hf : f ∈ l) :
    (l.filter (fun g => g.ruleId == f.ruleId)).length = 1 := by
  induction l with
  | nil => cases hf
  | cons a rest ih =>
    rw [List.map_cons, List.nodup_cons] at hnd
    obtain ⟨hna, hndr⟩ := hnd
    rcases List.mem_cons.mp hf with rfl | hf'
    · rw [List.filter_cons_of_pos (by simp)]
      have hrest : rest.filter (fun g => g.ruleId == f.ruleId) = [] :=
        List.filter_eq_nil_iff.mpr (fun g hg => by
          simp only [beq_iff_eq]
          intro hc
          exact hna (hc ▸ List.mem_map_of_mem Finding.ruleId hg))
      rw [hrest]
      rfl
    · have hne : (a.ruleId == f.ruleId) = false := by
        simp only [beq_eq_false_iff_ne, ne_eq]
        intro hc
        exact hna (hc ▸ List.mem_map_of_mem Finding.ruleId hf')
      rw [List.filter_cons_of_neg (by simp [hne])]
      exact ih hndr hf'

end QueryOpt

namespace QueryOpt

/-!
## Claims C4, C6, C8: threshold rules through the full pipeline
-/

/-- C4: writing `(o, w, g)` for the ORDER BY / OVER( / GROUP BY counts of the
trimmed input, `analyze` emits a `many-blocking-operators` finding at severity
`error` when `o+w+g ≥ 8` (title and message embed the counts), at severity
`warning` when `5 ≤ o+w+g < 8`, and no such finding when `o+w+g ≤ 4`. -/
theorem claim_C4_blocking_operators (parse : Parser) (sql : Str) (o w g : Nat)
    (hc : blockingCounts (jsTrim sql) = (o, w, g)) :
    (o + w + g ≥ 8 →
      ∃ f, (analyze parse sql).findings.find?
          (fun x => x.ruleId == "many-blocking-operators") = some f ∧
        f.severity = .error ∧ f.title = blockingErrTitle (o + w + g) ∧
        f.message = blockingErrMsg o w g) ∧
    (o + w + g ≥ 5 → o + w + g < 8 →
      ∃ f, (analyze parse sql).findings.find?
          (fun x => x.ruleId == "many-blocking-operators") = some f ∧
        f.severity = .warning ∧ f.title = blockingWarnTitle (o + w + g) ∧
        f.message = blockingWarnMsg o w g) ∧
    (o + w + g ≤ 4 →
      ∀ f ∈ (analyze parse sql).findings, f.ruleId ≠ "many-blocking-operators") := by
  have hne_of_pos : o + w + g ≥ 5 → (jsTrim sql).isEmpty = false := by
    intro h5
    cases hjt : jsTrim sql with
    | nil =>
      rw [hjt] at hc
      have hz : blockingCounts ([] : Str) = (0, 0, 0) := by decide
      rw [hz] at hc
      injection hc with e1 e2
      injection e2 with e2 e3
      omega
    | cons c r => rfl
  refine ⟨?_, ?_, ?_⟩
  · intro h8
    have hne := hne_of_pos (by omega)
    obtain ⟨F, hr4, hsev, hid, htit, hmsg⟩ : ∃ F, rule4 (jsTrim sql) = [F] ∧
        F.severity = .error ∧ F.ruleId = "many-blocking-operators" ∧
        F.title = blockingErrTitle (o + w + g) ∧ F.message = blockingErrMsg o w g := by
      unfold rule4
      dsimp only
      rw [hc]
      dsimp only
      rw [if_pos h8]
      exact ⟨_, rfl, rfl, rfl, rfl, rfl⟩
    refine ⟨F, ?_, hsev, htit, hmsg⟩
    rw [analyze_findings_form parse sql hne, runRules_eq_dedup, dedup_find?]
    unfold emitted
    rw [find?_skip (structural_skip _ _ (by decide))]
    simp only [regexRules, List.append_assoc]
    rw [find?_skip (rule1_ne _ (by decide) (by decide)),
    find?_skip (rule2_ne _ (by decide)),
    find?_skip (rule3_ne _ (by decide))]
    rw [hr4, List.cons_append, List.nil_append]
    exact find?_cons_self hid
  · intro h5 h8
    have hne := hne_of_pos h5
    obtain ⟨F, hr4, hsev, hid, htit, hmsg⟩ : ∃ F, rule4 (jsTrim sql) = [F] ∧
        F.severity = .warning ∧ F.ruleId = "many-blocking-operators" ∧
        F.title = blockingWarnTitle (o + w + g) ∧ F.message = blockingWarnMsg o w g := by
      unfold rule4
      dsimp only
      rw [hc]
      dsimp only
      rw [if_neg (by omega), if_pos h5]
      exact ⟨_, rfl, rfl, rfl, rfl, rfl⟩
    refine ⟨F, ?_, hsev, htit, hmsg⟩
    rw [analyze_findings_form parse sql hne, runRules_eq_dedup, dedup_find?]
    unfold emitted
    rw [find?_skip (structural_skip _ _ (by decide))]
    simp only [regexRules, List.append_assoc]
    rw [find?_skip (rule1_ne _ (by decide) (by decide)),
    find?_skip (rule2_ne _ (by decide)),
    find?_skip (rule3_ne _ (by decide))]
    rw [hr4, List.cons_append, List.nil_append]
    exact find?_cons_self hid
  · intro h4 f hf
    by_cases he : (jsTrim sql).isEmpty
    · have he' : jsTrim sql = [] := by
        cases hjt : jsTrim sql with
        | nil => rfl
        | cons c r => rw [hjt] at he; simp [List.isEmpty] at he
      rw [analyze_empty parse sql he'] at hf
      exact absurd hf (List.not_mem_nil f)
    · have hne : (jsTrim sql).isEmpty = false := by simpa using he
      rw [analyze_findings_form parse sql hne, runRules_eq_dedup] at hf
      have hf' := mem_dedup _ _ hf
      unfold emitted at hf'
      rcases List.mem_append.mp hf' with hf'' | hf''
      · exact structural_skip _ _ (by decide) f hf''
      · have hr4 : rule4 (jsTrim sql) = [] := by
          unfold rule4
          dsimp only
          rw [hc]
          dsimp only
          rw [if_neg (by omega), if_neg (by omega)]
        rcases regexRules_cases _ f hf'' with hf''|hf''|hf''|hf''|hf''|hf''|hf''|hf''|hf''|hf''|hf''|hf''|hf''|hf''|hf''|hf''|hf''|hf''|hf''|hf''|hf''|hf''|hf''|hf''|hf''|hf''|hf''|hf''|hf''|hf''|hf''|hf''|hf''|hf''|hf''|hf''|hf''|hf''|hf''|hf''
        · exact rule1_ne _ (by decide) (by decide) f hf''
        · exact rule2_ne _ (by decide) f hf''
        · exact rule3_ne _ (by decide) f hf''
        · rw [hr4] at hf''
          exact absurd hf'' (List.not_mem_nil f)
        · exact rule5_ne _ (by decide) (by decide) f hf''
        · exact rule6_ne _ (by decide) f hf''
        · exact rule7_ne _ (by decide) f hf''
        · exact rule8_ne _ (by decide) f hf''
        · exact rule9_ne _ (by decide) f hf''
        · exact rule10_ne _ (by decide) f hf''
        · exact rule11_ne _ (by decide) f hf''
        · exact rule12_ne _ (by decide) f hf''
        · exact rule13_ne _ (by decide) f hf''
        · exact rule14_ne _ (by decide) f hf''
        · exact rule15_ne _ (by decide) f hf''
        · exact rule16_ne _ (by decide) f hf''
        · exact rule17_ne _ (by decide) f hf''
        · exact rule18_ne _ (by decide) f hf''
        · exact rule19_ne _ (by decide) f hf''
        · exact rule20_ne _ (by decide) f hf''
        · exact rule21_ne _ (by decide) f hf''
        · exact rule22_ne _ (by decide) f hf''
        · exact rule23_ne _ (by decide) f hf''
        · exact rule24_ne _ (by decide) f hf''
        · exact rule25_ne _ (by decide) f hf''
        · exact rule26_ne _ (by decide) f hf''
        · exact rule27_ne _ (by decide) f hf''
        · exact rule28_ne _ (by decide) f hf''
        · exact rule29_ne _ (by decide) f hf''
        · exact rule30_ne _ (by decide) f hf''
        · exact rule31_ne _ (by decide) f hf''
        · exact rule32_ne _ (by decide) f hf''
        · exact rule33_ne _ (by decide) f hf''
        · exact rule34_ne _ (by decide) f hf''
        · exact rule35_ne _ (by decide) f hf''
        · exact rule36_ne _ (by decide) f hf''
        · exact rule37_ne _ (by decide) f hf''
        · exact rule38_ne _ (by decide) f hf''
        · exact rule39_ne _ (by decide) f hf''
        · exact rule40_ne _ (by decide) f hf''

/-- Concrete inputs for the C4 witness: 8, 5 and 4 window-function uses. -/
def s8W : Str := "a OVER( OVER( OVER( OVER( OVER( OVER( OVER( OVER(".toList

def s5W : Str := "a OVER( OVER( OVER( OVER( OVER(".toList

def s4W : Str := "a OVER( OVER( OVER( OVER(".toList

/-- Witness for C4 at the three boundary inputs. -/
theorem claim_C4_witness :
    (∃ f, (analyze pOkW s8W).findings.find?
        (fun x => x.ruleId == "many-blocking-operators") = some f ∧
      f.severity = .error ∧ f.title = blockingErrTitle (0 + 8 + 0) ∧
      f.message = blockingErrMsg 0 8 0) ∧
    (∃ f, (analyze pOkW s5W).findings.find?
        (fun x => x.ruleId == "many-blocking-operators") = some f ∧
      f.severity = .warning ∧ f.title = blockingWarnTitle (0 + 5 + 0) ∧
      f.message = blockingWarnMsg 0 5 0) ∧
    (∀ f ∈ (analyze pOkW s4W).findings, f.ruleId ≠ "many-blocking-operators") :=
  ⟨(claim_C4_blocking_operators pOkW s8W 0 8 0 (by decide)).1 (by decide),
   (claim_C4_blocking_operators pOkW s5W 0 5 0 (by decide)).2.1 (by decide) (by decide),
   (claim_C4_blocking_operators pOkW s4W 0 4 0 (by decide)).2.2 (by decide)⟩

/-- C6: whenever the trimmed input contains two or more remote-file reads,
`analyze` returns a `multiple-remote-scans` finding at severity `warning`. -/
theorem claim_C6_multiple_remote_scans (parse : Parser) (sql : Str)
    (h2 : countRemoteScans (jsTrim sql) ≥ 2) :
    ∃ f ∈ (analyze parse sql).findings,
      f.ruleId = "multiple-remote-scans" ∧ f.severity = .warning := by
  have hne : (jsTrim sql).isEmpty = false := by
    cases hjt : jsTrim sql with
    | nil =>
      rw [hjt] at h2
      exact absurd h2 (by decide)
    | cons c r => rfl
  obtain ⟨m, rest, hm⟩ : ∃ m rest, findAllP remoteReadP (jsTrim sql) = m :: rest := by
    cases hfa : findAllP remoteReadP (jsTrim sql) with
    | nil =>
      unfold countRemoteScans countP at h2
      rw [hfa] at h2
      simp at h2
    | cons m rest => exact ⟨m, rest, rfl⟩
  have hlen : (m :: rest).length ≥ 2 := by
    unfold countRemoteScans countP at h2
    rw [hm] at h2
    exact h2
  obtain ⟨F, hr34, hsev, hid⟩ : ∃ F, rule34 (jsTrim sql) = [F] ∧
      F.severity = .warning ∧ F.ruleId = "multiple-remote-scans" := by
    unfold rule34
    split
    · rename_i heq
      rw [hm] at heq
      cases heq
    · rename_i m2 rest2 heq
      rw [hm] at heq
      injection heq with e1 e2
      subst e1
      subst e2
      rw [if_pos hlen]
      exact ⟨_, rfl, by rw [withLoc_severity, finding_severity], by rw [withLoc_ruleId, finding_ruleId]⟩
  have hfind : (analyze parse sql).findings.find?
      (fun x => x.ruleId == "multiple-remote-scans") = some F := by
    rw [analyze_findings_form parse sql hne, runRules_eq_dedup, dedup_find?]
    unfold emitted
    rw [find?_skip (structural_skip _ _ (by decide))]
    simp only [regexRules, List.append_assoc]
    rw [find?_skip (rule1_ne _ (by decide) (by decide)),
    find?_skip (rule2_ne _ (by decide)),
    find?_skip (rule3_ne _ (by decide)),
    find?_skip (rule4_ne _ (by decide)),
    find?_skip (rule5_ne _ (by decide) (by decide)),
    find?_skip (rule6_ne _ (by decide)),
    find?_skip (rule7_ne _ (by decide)),
    find?_skip (rule8_ne _ (by decide)),
    find?_skip (rule9_ne _ (by decide)),
    find?_skip (rule10_ne _ (by decide)),
    find?_skip (rule11_ne _ (by decide)),
    find?_skip (rule12_ne _ (by decide)),
    find?_skip (rule13_ne _ (by decide)),
    find?_skip (rule14_ne _ (by decide)),
    find?_skip (rule15_ne _ (by decide)),
    find?_skip (rule16_ne _ (by decide)),
    find?_skip (rule17_ne _ (by decide)),
    find?_skip (rule18_ne _ (by decide)),
    find?_skip (rule19_ne _ (by decide)),
    find?_skip (rule20_ne _ (by decide)),
    find?_skip (rule21_ne _ (by decide)),
    find?_skip (rule22_ne _ (by decide)),
    find?_skip (rule23_ne _ (by decide)),
    find?_skip (rule24_ne _ (by decide)),
    find?_skip (rule25_ne _ (by decide)),
    find?_skip (rule26_ne _ (by decide)),
    find?_skip (rule27_ne _ (by decide)),
    find?_skip (rule28_ne _ (by decide)),
    find?_skip (rule29_ne _ (by decide)),
    find?_skip (rule30_ne _ (by decide)),
    find?_skip (rule31_ne _ (by decide)),
    find?_skip (rule32_ne _ (by decide)),
    find?_skip (rule33_ne _ (by decide))]
    rw [hr34, List.cons_append, List.nil_append]
    exact find?_cons_self hid
  exact ⟨F, List.mem_of_find?_eq_some hfind, hid, hsev⟩

/-- Concrete input for the C6 witness: two remote parquet reads. -/
def s6W : Str := "read_parquet('s3://a/b') read_parquet('s3://a/c')".toList

/-- Witness for C6. -/
theorem claim_C6_witness :
    ∃ f ∈ (analyze pOkW s6W).findings,
      f.ruleId = "multiple-remote-scans" ∧ f.severity = .warning :=
  claim_C6_multiple_remote_scans pOkW s6W (by decide)

/-- C8: an input with exactly two `list(`-aggregate matches yields, after
dedup, exactly one `non-spillable-list` finding, at severity `error`, whose
message embeds the count 2. -/
theorem claim_C8_non_spillable_list (parse : Parser) (sql : Str)
    (h2 : (findAllP listAggP (jsTrim sql)).length = 2) :
    ∃ f ∈ (analyze parse sql).findings,
      f.ruleId = "non-spillable-list" ∧ f.severity = .error ∧
      f.message = listAggMsg 2 ∧
      ((analyze parse sql).findings.filter
        (fun g => g.ruleId == "non-spillable-list")).length = 1 := by
  have hne : (jsTrim sql).isEmpty = false := by
    cases hjt : jsTrim sql with
    | nil =>
      rw [hjt] at h2
      exact absurd h2 (by decide)
    | cons c r => rfl
  obtain ⟨m, rest, hm⟩ : ∃ m rest, findAllP listAggP (jsTrim sql) = m :: rest := by
    cases hfa : findAllP listAggP (jsTrim sql) with
    | nil =>
      rw [hfa] at h2
      simp at h2
    | cons m rest => exact ⟨m, rest, rfl⟩
  obtain ⟨F, D, hr1, hsev, hid, hmsg⟩ : ∃ F D, rule1 (jsTrim sql) = F :: D ∧
      F.severity = .error ∧ F.ruleId = "non-spillable-list" ∧
      F.message = listAggMsg 2 := by
    unfold rule1
    dsimp only
    split
    · rename_i heq
      rw [hm] at heq
      cases heq
    · rename_i m2 rest2 heq
      refine ⟨_, _, rfl, by rw [withLoc_severity, finding_severity],
        by rw [withLoc_ruleId, finding_ruleId], ?_⟩
      rw [withLoc_message, finding_message, h2]
  have hfind : (analyze parse sql).findings.find?
      (fun x => x.ruleId == "non-spillable-list") = some F := by
    rw [analyze_findings_form parse sql hne, runRules_eq_dedup, dedup_find?]
    unfold emitted
    rw [find?_skip (structural_skip _ _ (by decide))]
    simp only [regexRules, List.append_assoc]
    rw [hr1, List.cons_append]
    exact find?_cons_self hid
  have hmem : F ∈ (analyze parse sql).findings := List.mem_of_find?_eq_some hfind
  have hnd : (((analyze parse sql).findings).map Finding.ruleId).Nodup := by
    rw [analyze_findings_form parse sql hne, runRules_eq_dedup]
    exact dedup_nodup _
  have hfilter := filter_ruleId_length_one hnd hmem
  rw [hid] at hfilter
  exact ⟨F, hmem, hid, hsev, hmsg, hfilter⟩

/-- Concrete input for the C8 witness: exactly two `LIST(` aggregates. -/
def sC8W : Str := "SELECT LIST(a), LIST(b) FROM t".toList

/-- Witness for C8. -/
theorem claim_C8_witness :
    ∃ f ∈ (analyze pOkW sC8W).findings,
      f.ruleId = "non-spillable-list" ∧ f.severity = .error ∧
      f.message = listAggMsg 2 ∧
      ((analyze pOkW sC8W).findings.filter
        (fun g => g.ruleId == "non-spillable-list")).length = 1 :=
  claim_C8_non_spillable_list pOkW sC8W (by decide)

end QueryOpt

namespace QueryOpt

/-!
## Claims C7 and C9: the text normalizer
-/

/-- Once the fuel exceeds the remaining input, `rbcGo` no longer depends on
it: every iteration of the `replaceBalancedCall` loop consumes at least one
character of the remainder, so the JS `while` loop terminates on every
input. -/
theorem rbcGo_fuel (fn : String) (repl : Str) :
    ∀ (f1 f2 : Nat) (done rest : Str), rest.length < f1 → rest.length < f2 →
      rbcGo fn repl f1 done rest = rbcGo fn repl f2 done rest := by
  intro f1
  induction f1 with
  | zero => intro f2 done rest h1 h2; omega
  | succ f1 ih =>
    intro f2 done rest h1 h2
    cases f2 with
    | zero => omega
    | succ f2 =>
      cases rest with
      | nil => rfl
      | cons c r =>
        simp only [rbcGo]
        cases hfs : findSplit (callHeadP fn) done.getLast? (c :: r) with
        | none => rfl
        | some pr =>
          obtain ⟨pre, n⟩ := pr
          cases n with
          | zero => rfl
          | succ n =>
            dsimp only
            have hlc : (c :: r).length = r.length + 1 := rfl
            cases hsc : scanClose ((c :: r).drop (pre.length + (n + 1))) 1 with
            | some off =>
              apply ih
              · have := List.length_drop (pre.length + (n + 1)) (c :: r)
                have h3 := List.length_drop off ((c :: r).drop (pre.length + (n + 1)))
                omega
              · have := List.length_drop (pre.length + (n + 1)) (c :: r)
                have h3 := List.length_drop off ((c :: r).drop (pre.length + (n + 1)))
                omega
            | none =>
              apply ih
              · have := List.length_drop (pre.length + (n + 1)) (c :: r)
                omega
              · have := List.length_drop (pre.length + (n + 1)) (c :: r)
                omega

/-- C7: the balanced-call rewriting replaces the entire
`list_transform(json_extract_string(x, '$.a'), t -> UPPER(t))` call as one
unit — tracking the nested parentheses of the inner calls instead of stopping
at the first closing parenthesis — both in `replaceBalancedCall` itself and
through `preprocessForParser`. -/
theorem claim_C7_balanced_call :
    replaceBalancedCall
        "SELECT list_transform(json_extract_string(x, '$.a'), t -> UPPER(t)) FROM t".toList
        "list_transform" "NULL".toList = "SELECT NULL FROM t".toList ∧
    preprocessForParser
        "SELECT list_transform(json_extract_string(x, '$.a'), t -> UPPER(t)) FROM t".toList =
      "SELECT NULL FROM t".toList := by
  constructor <;> decide

/-- C9: the normalizer is total — the balanced-call loop's result is
fuel-independent once the fuel exceeds the input length, so the embedded
`s.length + 1` fuel is never exhausted, including on unbalanced parentheses,
where a matched call head that never closes leaves the text unchanged — and
the rules always receive the original trimmed text, never the normalized
one. -/
theorem claim_C9_normalizer :
    (∀ (fn : String) (repl s : Str) (fuel : Nat), s.length < fuel →
      rbcGo fn repl fuel [] s = replaceBalancedCall s fn repl) ∧
    (replaceBalancedCall "SELECT LIST(x FROM t".toList "LIST" "ARRAY_AGG(1)".toList =
      "SELECT LIST(x FROM t".toList) ∧
    (preprocessForParser "SELECT LIST(x FROM t".toList =
      "SELECT LIST(x FROM t".toList) ∧
    (∀ (parse : Parser) (sql : Str), (jsTrim sql).isEmpty = false →
      (analyze parse sql).findings =
        runRules (parseOutcome parse (jsTrim sql)).1 (jsTrim sql)) := by
  refine ⟨?_, by decide, by decide, fun parse sql h => analyze_findings_form parse sql h⟩
  intro fn repl s fuel hf
  exact rbcGo_fuel fn repl fuel (s.length + 1) [] s hf (by omega)

/-- Witness for C9 at concrete inputs. -/
theorem claim_C9_witness :
    rbcGo "LIST" "ARRAY_AGG(1)".toList 25 [] "SELECT LIST(x FROM t".toList =
      replaceBalancedCall "SELECT LIST(x FROM t".toList "LIST" "ARRAY_AGG(1)".toList ∧
    (analyze pErrW " SELECT 1 ".toList).findings =
      runRules (parseOutcome pErrW (jsTrim " SELECT 1 ".toList)).1
        (jsTrim " SELECT 1 ".toList) :=
  ⟨claim_C9_normalizer.1 "LIST" "ARRAY_AGG(1)".toList "SELECT LIST(x FROM t".toList 25
      (by decide),
   claim_C9_normalizer.2.2.2 pErrW " SELECT 1 ".toList (by decide)⟩

end QueryOpt

namespace QueryOpt

/-!
## Claim C10: offset soundness
-/

/-- C10 (amended): for inputs whose trimmed text is ASCII, every offset
carried by a returned finding is a real, non-empty, in-bounds range of the
trimmed input whose text equals, case-insensitively, the located fragment.
(Universally the property fails: `İ` lowercases to two characters, shifting
`locate`'s ranges.) -/
theorem claim_C10_offsets (parse : Parser) (sql : Str)
    (hascii : ∀ c ∈ jsTrim sql, c.toNat < 128) (f : Finding)
    (hf : f ∈ (analyze parse sql).findings) (off : Offset)
    (hoff : f.offset = some off) :
    off.start < off.end ∧ off.end ≤ (jsTrim sql).length ∧
    ∃ nd, nd ≠ [] ∧ locate (jsTrim sql) nd = some off ∧
      lower (((jsTrim sql).drop off.start).take (off.end - off.start)) = lower nd := by
  by_cases he : (jsTrim sql).isEmpty
  · have he' : jsTrim sql = [] := by
      cases hjt : jsTrim sql with
      | nil => rfl
      | cons c r => rw [hjt] at he; simp [List.isEmpty] at he
    rw [analyze_empty parse sql he'] at hf
    exact absurd hf (List.not_mem_nil f)
  · have hne : (jsTrim sql).isEmpty = false := by simpa using he
    rw [analyze_findings_form parse sql hne, runRules_eq_dedup] at hf
    have hf' := mem_dedup _ _ hf
    unfold emitted at hf'
    have hOk : OffsetsOk (jsTrim sql) f := by
      rcases List.mem_append.mp hf' with h | h
      · exact (structuralFindings_inv _ _ f h).2
      · exact (regexRules_inv _ f h).2
    rcases hOk off hoff with ⟨nd, hnd, hloc⟩
    have hfree := locate_needle_not_dot (jsTrim sql) nd off hascii hloc
    rcases locate_range _ nd off hnd (ascii_not_dot hascii) hfree hloc with ⟨h1, h2, h3⟩
    exact ⟨h1, h2, nd, hnd, hloc, h3⟩

/-- Concrete input for the C10 counterexample: `İ` (U+0130) followed by
`string_agg(x)`. -/
def sC10X : Str := "İstring_agg(x)".toList

/-- C10 counterexample: `toLowerCase` maps `İ` to two characters, so
`indexOf` on the lowercased text finds `string_agg(` at index 2, while the
range is applied to the original text: the finding's offset `[2, 13)` holds
`tring_agg(x`, which does not match the located needle case-insensitively
under either fold. -/
theorem claim_C10_counterexample :
    (∃ f ∈ (analyze pOkW sC10X).findings,
      f.ruleId = "non-spillable-string-agg" ∧ f.offset = some ⟨2, 13⟩) ∧
    (sC10X.drop 2).take (13 - 2) = "tring_agg(x".toList ∧
    jsLower ((sC10X.drop 2).take (13 - 2)) ≠ jsLower "string_agg(".toList ∧
    lower ((sC10X.drop 2).take (13 - 2)) ≠ lower "string_agg(".toList := by
  refine ⟨?_, by decide, by decide, by decide⟩
  decide

/-- Concrete input for the C10 witness. -/
def sC10W : Str := "string_agg(x)".toList

/-- The concrete finding of the C10 witness: the `string_agg` finding on
`sC10W`, which carries offset `[0, 11)`. -/
def fC10W : Finding :=
  match rule2 sC10W with
  | f :: _ => f
  | [] => finding "none" .info "" "" "" .memory

/-- Witness for C10. -/
theorem claim_C10_witness :
    fC10W ∈ (analyze pOkW sC10W).findings ∧ fC10W.offset = some ⟨0, 11⟩ ∧
    ((0 : Nat) < 11 ∧ 11 ≤ (jsTrim sC10W).length ∧
      ∃ nd, nd ≠ [] ∧ locate (jsTrim sC10W) nd = some ⟨0, 11⟩ ∧
        lower (((jsTrim sC10W).drop 0).take (11 - 0)) = lower nd) :=
  ⟨by decide, by decide,
   claim_C10_offsets pOkW sC10W (by decide) fC10W (by decide) ⟨0, 11⟩ (by decide)⟩

end QueryOpt

namespace QueryOpt

/-!
## Claim C5: which structural rules recurse
-/

/-- The inner query of the C5 counterexample: `ORDER BY` present, no
`LIMIT`. -/
def innerC5 : SelectQ := .mk .other none none true false

/-- The outer query of the C5 counterexample: its only `FROM` item is the
subquery `innerC5`; the outer node itself has no `ORDER BY`. -/
def outerC5 : SelectQ :=
  .mk .other (some (.single (.mk (some (.select innerC5)) none false none none)))
    none false false

/-- Parser oracle returning the inner tree on its own. -/
def pInnerC5 : Parser := fun _ => .ok (.single (.select innerC5))

/-- Parser oracle returning the outer tree. -/
def pOuterC5 : Parser := fun _ => .ok (.single (.select outerC5))

/-- C5 counterexample: the query `innerC5` (ORDER BY, no LIMIT) is flagged by
`order-without-limit` when it is the top-level tree, but when the very same
query sits as the outer tree's `FROM` subquery no `order-without-limit`
finding is produced — `checkOrderByWithoutLimit` does not recurse. -/
theorem claim_C5_counterexample :
    outerC5.fromF =
      some (.single (.mk (some (.select innerC5)) none false none none)) ∧
    innerC5.orderby = true ∧ innerC5.limit = false ∧
    (∃ f ∈ (analyze pInnerC5 "SELECT 1".toList).findings,
      f.ruleId = "order-without-limit") ∧
    (∀ f ∈ (analyze pOuterC5 "SELECT 1".toList).findings,
      f.ruleId ≠ "order-without-limit") := by
  refine ⟨rfl, rfl, rfl, ?_, ?_⟩ <;> decide

/-- `ast.from` normalised to a list of from-items (empty when absent). -/
def fromItems (q : SelectQ) : List FromItem :=
  match q.fromF with
  | some fv => fv.toList
  | none => []

theorem star_mem_of_list (sql : Str) (item : FromItem) :
    ∀ fs : List FromItem, item ∈ fs →
      ∀ f ∈ starFromItem item sql, f ∈ starFromList fs sql := by
  intro fs
  induction fs with
  | nil => intro h; cases h
  | cons a rest ih =>
    intro hitem f hf
    simp only [starFromList]
    rcases List.mem_cons.mp hitem with rfl | h2
    · exact List.mem_append_left _ hf
    · exact List.mem_append_right _ (ih h2 f hf)

theorem star_mem_of_fromVal (sql : Str) (fv : FromVal) (item : FromItem)
    (hitem : item ∈ fv.toList) :
    ∀ f ∈ starFromItem item sql, f ∈ starFromVal fv sql := by
  cases fv with
  | single f0 =>
    intro f hf
    simp only [FromVal.toList, List.mem_singleton] at hitem
    subst hitem
    simpa only [starFromVal] using hf
  | list fs =>
    intro f hf
    simp only [FromVal.toList] at hitem
    simpa only [starFromVal] using star_mem_of_list sql item fs hitem f hf

/-- `checkSelectStar` does recurse into `FROM` subqueries: every finding of
the subquery is a finding of the enclosing query. -/
theorem checkSelectStar_recurses (sql : Str) (q : SelectQ) (item : FromItem)
    (hitem : item ∈ fromItems q) (sub : Ast) (hsub : item.exprAst = some sub) :
    ∀ f ∈ checkSelectStar sub sql, f ∈ checkSelectStar (.select q) sql := by
  obtain ⟨c, ff, wh, ob, lim⟩ := q
  intro f hf
  have hstar : f ∈ starFromItem item sql := by
    obtain ⟨ea, j, oc, tb, an⟩ := item
    simp only [FromItem.exprAst] at hsub
    subst hsub
    simpa only [starFromItem] using hf
  cases ff with
  | none => simp [fromItems, SelectQ.fromF] at hitem
  | some fv =>
    simp only [fromItems, SelectQ.fromF] at hitem
    have h2 := star_mem_of_fromVal sql fv item hitem f hstar
    simp only [checkSelectStar]
    exact List.mem_append_right _ h2

theorem nested_mem_of_list (sql : Str) (d : Nat) (item : FromItem) :
    ∀ fs : List FromItem, item ∈ fs →
      ∀ f ∈ nestedFromItem item sql d, f ∈ nestedFromList fs sql d := by
  intro fs
  induction fs with
  | nil => intro h; cases h
  | cons a rest ih =>
    intro hitem f hf
    simp only [nestedFromList]
    rcases List.mem_cons.mp hitem with rfl | h2
    · exact List.mem_append_left _ hf
    · exact List.mem_append_right _ (ih h2 f hf)

theorem nested_mem_of_fromVal (sql : Str) (d : Nat) (fv : FromVal) (item : FromItem)
    (hitem : item ∈ fv.toList) :
    ∀ f ∈ nestedFromItem item sql d, f ∈ nestedFromVal fv sql d := by
  cases fv with
  | single f0 =>
    intro f hf
    simp only [FromVal.toList, List.mem_singleton] at hitem
    subst hitem
    simpa only [nestedFromVal] using hf
  | list fs =>
    intro f hf
    simp only [FromVal.toList] at hitem
    simpa only [nestedFromVal] using nested_mem_of_list sql d item fs hitem f hf

/-- `checkNestedSubqueries` recurses into `FROM` subqueries, at depth one
deeper. -/
theorem checkNested_recurses_from (sql : Str) (q : SelectQ) (d : Nat)
    (item : FromItem) (hitem : item ∈ fromItems q) (sub : Ast)
    (hsub : item.exprAst = some sub) :
    ∀ f ∈ checkNestedSubqueries sub sql (d + 1),
      f ∈ checkNestedSubqueries (.select q) sql d := by
  obtain ⟨c, ff, wh, ob, lim⟩ := q
  intro f hf
  have hN : f ∈ nestedFromItem item sql d := by
    obtain ⟨ea, j, oc, tb, an⟩ := item
    simp only [FromItem.exprAst] at hsub
    subst hsub
    simpa only [nestedFromItem] using hf
  cases ff with
  | none => simp [fromItems, SelectQ.fromF] at hitem
  | some fv =>
    simp only [fromItems, SelectQ.fromF] at hitem
    have h2 := nested_mem_of_fromVal sql d fv item hitem f hN
    rw [checkNestedSubqueries.eq_def]
    exact List.mem_append.mpr (Or.inr h2)

/-- `checkNestedSubqueries` walks the `WHERE` expression. -/
theorem checkNested_recurses_where (sql : Str) (q : SelectQ) (d : Nat) (w : Expr)
    (hw : q.whereE = some w) :
    ∀ f ∈ checkExprForSubqueries w sql d,
      f ∈ checkNestedSubqueries (.select q) sql d := by
  obtain ⟨c, ff, wh, ob, lim⟩ := q
  simp only [SelectQ.whereE] at hw
  subst hw
  intro f hf
  rw [checkNestedSubqueries.eq_def]
  exact List.mem_append.mpr (Or.inl (List.mem_append.mpr (Or.inr hf)))

/-- `checkOrderByWithoutLimit` inspects only the top-level `orderby`/`limit`
flags: any two select nodes agreeing on them — whatever their nested
contents — produce the same findings. -/
theorem orderRule_top_level (sql : Str) (q q' : SelectQ)
    (h1 : q.orderby = q'.orderby) (h2 : q.limit = q'.limit) :
    checkOrderByWithoutLimit (.select q) sql =
      checkOrderByWithoutLimit (.select q') sql := by
  simp only [checkOrderByWithoutLimit]
  rw [h1, h2]

end QueryOpt

namespace QueryOpt

theorem crossFold_congr (sql : Str) :
    ∀ l1 l2 : List FromItem, l1.map FromItem.join = l2.map FromItem.join →
      l1.foldr (fun item acc =>
        if item.join = some "CROSS JOIN" then
          withLoc sql "cross join".toList
            (finding "cross-join" .warning "CROSS JOIN detected"
              "A CROSS JOIN produces the Cartesian product of both tables (rows_a × rows_b). This is safe when one side is guaranteed to be a single row (e.g., a scalar CTE), but dangerous on large tables where it can explode memory usage."
              "Verify that at least one side of the CROSS JOIN returns a single row. If joining large tables, replace with an INNER JOIN or LEFT JOIN with a proper ON condition."
              .memory (some "CROSS JOIN".toList)) :: acc
        else acc) [] =
      l2.foldr (fun item acc =>
        if item.join = some "CROSS JOIN" then
          withLoc sql "cross join".toList
            (finding "cross-join" .warning "CROSS JOIN detected"
              "A CROSS JOIN produces the Cartesian product of both tables (rows_a × rows_b). This is safe when one side is guaranteed to be a single row (e.g., a scalar CTE), but dangerous on large tables where it can explode memory usage."
              "Verify that at least one side of the CROSS JOIN returns a single row. If joining large tables, replace with an INNER JOIN or LEFT JOIN with a proper ON condition."
              .memory (some "CROSS JOIN".toList)) :: acc
        else acc) [] := by
  intro l1
  induction l1 with
  | nil =>
    intro l2 h
    cases l2 with
    | nil => rfl
    | cons b bs => simp at h
  | cons a as ih =>
    intro l2 h
    cases l2 with
    | nil => simp at h
    | cons b bs =>
      simp only [List.map_cons, List.cons.injEq] at h
      obtain ⟨h1, h2⟩ := h
      simp only [List.foldr_cons]
      rw [h1, ih bs h2]

/-- `checkCrossJoin` inspects only the `join` field of the top-level `FROM`
items: nested subquery contents never change its findings. -/
theorem crossJoin_top_level (sql : Str) (q q' : SelectQ)
    (h : (fromItems q).map FromItem.join = (fromItems q').map FromItem.join) :
    checkCrossJoin (.select q) sql = checkCrossJoin (.select q') sql := by
  obtain ⟨c, ff, wh, ob, lim⟩ := q
  obtain ⟨c', ff', wh', ob', lim'⟩ := q'
  cases ff with
  | none =>
    cases ff' with
    | none => rfl
    | some fv' =>
      simp only [fromItems, SelectQ.fromF, List.map_nil] at h
      have h0 : fv'.toList = [] := List.map_eq_nil_iff.mp h.symm
      simp only [checkCrossJoin, SelectQ.fromF]
      rw [h0]
      rfl
  | some fv =>
    cases ff' with
    | none =>
      simp only [fromItems, SelectQ.fromF, List.map_nil] at h
      have h0 : fv.toList = [] := List.map_eq_nil_iff.mp h
      simp only [checkCrossJoin, SelectQ.fromF]
      rw [h0]
      rfl
    | some fv' =>
      simp only [fromItems, SelectQ.fromF] at h
      simp only [checkCrossJoin, SelectQ.fromF]
      exact crossFold_congr sql fv.toList fv'.toList h

theorem tableOrAs_pair (f f' : FromItem) (ht : f.table = f'.table)
    (ha : f.asName = f'.asName) : tableOrAs f = tableOrAs f' := by
  unfold tableOrAs
  rw [ht, ha]

theorem tableOrAs_map_congr :
    ∀ l1 l2 : List FromItem,
      l1.map (fun f => (f.join, f.onCond, f.table, f.asName)) =
        l2.map (fun f => (f.join, f.onCond, f.table, f.asName)) →
      l1.map tableOrAs = l2.map tableOrAs := by
  intro l1
  induction l1 with
  | nil =>
    intro l2 h
    cases l2 with
    | nil => rfl
    | cons b bs => simp at h
  | cons a as ih =>
    intro l2 h
    cases l2 with
    | nil => simp at h
    | cons b bs =>
      simp only [List.map_cons, List.cons.injEq, Prod.mk.injEq] at h
      obtain ⟨⟨h1, h2, h3, h4⟩, h5⟩ := h
      simp only [List.map_cons]
      rw [tableOrAs_pair a b h3 h4, ih bs h5]

theorem any_join_congr :
    ∀ l1 l2 : List FromItem, l1.map FromItem.join = l2.map FromItem.join →
      l1.any (fun f => strTruthy f.join) = l2.any (fun f => strTruthy f.join) := by
  intro l1
  induction l1 with
  | nil =>
    intro l2 h
    cases l2 with
    | nil => rfl
    | cons b bs => simp at h
  | cons a as ih =>
    intro l2 h
    cases l2 with
    | nil => simp at h
    | cons b bs =>
      simp only [List.map_cons, List.cons.injEq] at h
      obtain ⟨h1, h2⟩ := h
      simp only [List.any_cons]
      rw [h1, ih bs h2]

theorem joinFold_congr (sql : Str) :
    ∀ l1 l2 : List FromItem,
      l1.map (fun f => (f.join, f.onCond)) = l2.map (fun f => (f.join, f.onCond)) →
      l1.foldr (fun item acc =>
          if strTruthy item.join && item.join ≠ some "CROSS JOIN" && !item.onCond then
            withLoc sql (item.join.getD "").toList
              (finding "join-without-on" .warning "JOIN without ON condition"
                "A JOIN without an ON condition may produce a Cartesian product or rely on implicit behavior."
                "Always specify an explicit ON condition for joins."
                .performance (some (item.join.getD "").toList)) :: acc
          else acc) [] =
      l2.foldr (fun item acc =>
          if strTruthy item.join && item.join ≠ some "CROSS JOIN" && !item.onCond then
            withLoc sql (item.join.getD "").toList
              (finding "join-without-on" .warning "JOIN without ON condition"
                "A JOIN without an ON condition may produce a Cartesian product or rely on implicit behavior."
                "Always specify an explicit ON condition for joins."
                .performance (some (item.join.getD "").toList)) :: acc
          else acc) [] := by
  intro l1
  induction l1 with
  | nil =>
    intro l2 h
    cases l2 with
    | nil => rfl
    | cons b bs => simp at h
  | cons a as ih =>
    intro l2 h
    cases l2 with
    | nil => simp at h
    | cons b bs =>
      simp only [List.map_cons, List.cons.injEq, Prod.mk.injEq] at h
      obtain ⟨⟨h1, h2⟩, h3⟩ := h
      simp only [List.foldr_cons]
      rw [h1, h2, ih bs h3]

/-- `checkJoinWithoutCondition` inspects only the top-level from-items'
`join`/`on`/`table`/`as` fields and the presence of a `WHERE` clause. -/
theorem joinRule_top_level (sql : Str) (q q' : SelectQ)
    (h : (fromItems q).map (fun f => (f.join, f.onCond, f.table, f.asName)) =
         (fromItems q').map (fun f => (f.join, f.onCond, f.table, f.asName)))
    (hw : q.whereE.isNone = q'.whereE.isNone) :
    checkJoinWithoutCondition (.select q) sql =
      checkJoinWithoutCondition (.select q') sql := by
  obtain ⟨c, ff, wh, ob, lim⟩ := q
  obtain ⟨c', ff', wh', ob', lim'⟩ := q'
  simp only [SelectQ.whereE] at hw
  cases ff with
  | none =>
    cases ff' with
    | none => rfl
    | some fv' =>
      simp only [fromItems, SelectQ.fromF, List.map_nil] at h
      have h0 : fv'.toList = [] := List.map_eq_nil_iff.mp h.symm
      simp only [checkJoinWithoutCondition, SelectQ.fromF]
      rw [h0]
      simp
  | some fv =>
    cases ff' with
    | none =>
      simp only [fromItems, SelectQ.fromF, List.map_nil] at h
      have h0 : fv.toList = [] := List.map_eq_nil_iff.mp h
      simp only [checkJoinWithoutCondition, SelectQ.fromF]
      rw [h0]
      simp
    | some fv' =>
      simp only [fromItems, SelectQ.fromF] at h
      have hjoin_on : fv.toList.map (fun f => (f.join, f.onCond)) =
          fv'.toList.map (fun f => (f.join, f.onCond)) := by
        have h2 := congrArg
          (List.map (fun p : Option String × Bool × Option String × Option String =>
            (p.1, p.2.1))) h
        simpa [List.map_map, Function.comp] using h2
      have hjoin : fv.toList.map FromItem.join = fv'.toList.map FromItem.join := by
        have h2 := congrArg
          (List.map (fun p : Option String × Bool × Option String × Option String =>
            p.1)) h
        simpa [List.map_map, Function.comp] using h2
      have hlen : fv.toList.length = fv'.toList.length := by
        have h2 := congrArg List.length h
        simpa using h2
      have hany := any_join_congr fv.toList fv'.toList hjoin
      have htab := tableOrAs_map_congr fv.toList fv'.toList h
      simp only [checkJoinWithoutCondition, SelectQ.fromF, SelectQ.whereE]
      rw [hlen, hany]
      simp only [hw, htab]
      rw [joinFold_congr sql fv.toList fv'.toList hjoin_on]

/-- C5 (amended): only the star-expansion and deep-nesting rules recurse —
`checkSelectStar` into `FROM` subqueries, `checkNestedSubqueries` into `FROM`
subqueries and `WHERE` expressions — while `checkOrderByWithoutLimit`,
`checkCrossJoin` and `checkJoinWithoutCondition` inspect only the top-level
statement node: their findings are invariant under any change of nested
subquery contents. -/
theorem claim_C5_amended :
    (∀ (sql : Str) (q : SelectQ) (item : FromItem), item ∈ fromItems q →
      ∀ sub : Ast, item.exprAst = some sub →
        ∀ f ∈ checkSelectStar sub sql, f ∈ checkSelectStar (.select q) sql) ∧
    (∀ (sql : Str) (q : SelectQ) (d : Nat) (item : FromItem), item ∈ fromItems q →
      ∀ sub : Ast, item.exprAst = some sub →
        ∀ f ∈ checkNestedSubqueries sub sql (d + 1),
          f ∈ checkNestedSubqueries (.select q) sql d) ∧
    (∀ (sql : Str) (q : SelectQ) (d : Nat) (w : Expr), q.whereE = some w →
      ∀ f ∈ checkExprForSubqueries w sql d,
        f ∈ checkNestedSubqueries (.select q) sql d) ∧
    (∀ (sql : Str) (q q' : SelectQ), q.orderby = q'.orderby → q.limit = q'.limit →
      checkOrderByWithoutLimit (.select q) sql =
        checkOrderByWithoutLimit (.select q') sql) ∧
    (∀ (sql : Str) (q q' : SelectQ),
      (fromItems q).map FromItem.join = (fromItems q').map FromItem.join →
      checkCrossJoin (.select q) sql = checkCrossJoin (.select q') sql) ∧
    (∀ (sql : Str) (q q' : SelectQ),
      (fromItems q).map (fun f => (f.join, f.onCond, f.table, f.asName)) =
        (fromItems q').map (fun f => (f.join, f.onCond, f.table, f.asName)) →
      q.whereE.isNone = q'.whereE.isNone →
      checkJoinWithoutCondition (.select q) sql =
        checkJoinWithoutCondition (.select q') sql) :=
  ⟨fun sql q item hitem sub hsub => checkSelectStar_recurses sql q item hitem sub hsub,
   fun sql q d item hitem sub hsub => checkNested_recurses_from sql q d item hitem sub hsub,
   fun sql q d w hw => checkNested_recurses_where sql q d w hw,
   fun sql q q' h1 h2 => orderRule_top_level sql q q' h1 h2,
   fun sql q q' h => crossJoin_top_level sql q q' h,
   fun sql q q' h hw => joinRule_top_level sql q q' h hw⟩

/-- Concrete data for the C5 witness. -/
def sqlC5W : Str := "SELECT 1".toList

def subStarC5 : Ast := .select (.mk .star none none false false)

def itemStarC5 : FromItem := .mk (some subStarC5) none false none none

def qStarC5 : SelectQ := .mk .other (some (.single itemStarC5)) none false false

def fStarC5 : Finding :=
  match checkSelectStar subStarC5 sqlC5W with
  | f :: _ => f
  | [] => finding "none" .info "" "" "" .memory

def subPlainC5 : Ast := .select (.mk .other none none false false)

def itemPlainC5 : FromItem := .mk (some subPlainC5) none false none none

def qPlainC5 : SelectQ := .mk .other (some (.single itemPlainC5)) none false false

def wExprC5 : Expr := .mk (some subPlainC5) none none none

def qWhereC5 : SelectQ := .mk .other none (some wExprC5) false false

def qOrd1C5 : SelectQ := .mk .star (some (.single itemPlainC5)) none true false

def qOrd2C5 : SelectQ := .mk .other none none true false

def itemJoinC5 : FromItem := .mk (some subPlainC5) (some "LEFT JOIN") false (some "t") none

def itemJoinC5b : FromItem := .mk none (some "LEFT JOIN") false (some "t") none

def qJoin1C5 : SelectQ := .mk .other (some (.list [itemJoinC5])) none false false

def qJoin2C5 : SelectQ := .mk .star (some (.list [itemJoinC5b])) none true true

set_option maxRecDepth 8192 in
/-- Witness for the amended C5 at concrete trees. -/
theorem claim_C5_witness :
    fStarC5 ∈ checkSelectStar (.select qStarC5) sqlC5W ∧
    deepFinding ∈ checkNestedSubqueries (.select qPlainC5) sqlC5W 2 ∧
    deepFinding ∈ checkNestedSubqueries (.select qWhereC5) sqlC5W 2 ∧
    checkOrderByWithoutLimit (.select qOrd1C5) sqlC5W =
      checkOrderByWithoutLimit (.select qOrd2C5) sqlC5W ∧
    checkCrossJoin (.select qJoin1C5) sqlC5W = checkCrossJoin (.select qJoin2C5) sqlC5W ∧
    checkJoinWithoutCondition (.select qJoin1C5) sqlC5W =
      checkJoinWithoutCondition (.select qJoin2C5) sqlC5W :=
  ⟨claim_C5_amended.1 sqlC5W qStarC5 itemStarC5 (List.mem_singleton.mpr rfl) subStarC5 rfl
      fStarC5 (by decide),
   claim_C5_amended.2.1 sqlC5W qPlainC5 2 itemPlainC5 (List.mem_singleton.mpr rfl)
      subPlainC5 rfl deepFinding (by decide),
   claim_C5_amended.2.2.1 sqlC5W qWhereC5 2 wExprC5 rfl deepFinding (by decide),
   claim_C5_amended.2.2.2.1 sqlC5W qOrd1C5 qOrd2C5 rfl rfl,
   claim_C5_amended.2.2.2.2.1 sqlC5W qJoin1C5 qJoin2C5 rfl,
   claim_C5_amended.2.2.2.2.2 sqlC5W qJoin1C5 qJoin2C5 rfl rfl⟩

end QueryOpt

namespace QueryOpt

/-- Witness for C2: a parser oracle that always throws yields findings from
the pattern rules alone. -/
theorem claim_C2_witness :
    (analyze pErrW " x ".toList).findings =
      dedupByRuleId (regexRules (jsTrim " x ".toList)) :=
  (claim_C2_parse_error pErrW " x ".toList).2 (by decide)

end QueryOpt
